import Mathlib

/-!
Tile inspector map mutations (OpenRCT2, `src/openrct2/world/tile_inspector.c`)

A shallow embedding of the tile inspector's element mutators.  A tile's element run is a
list of `rct_map_element`, positions are indices into that list, and the game state holds
the tile store, the number of free element slots and the inspector window's selection.
Failed assertions and accesses that leave the tile's run are reported through `Except`.
-/

namespace OpenRCT2

/-! ## Data model -/

/-- One map element (`rct_map_element`): four header bytes and the four payload bytes of the
`properties` union, each held as a natural number. -/
structure rct_map_element where
  type : Nat
  flags : Nat
  base_height : Nat
  clearance_height : Nat
  properties0 : Nat
  properties1 : Nat
  properties2 : Nat
  properties3 : Nat
deriving DecidableEq, Repr

/-- Ways in which a run of the code stops without returning. -/
inductive Failure where
  /-- an `openrct2_assert` did not hold -/
  | assertion
  /-- a pointer computed from an index left the tile's element run -/
  | out_of_tile
  /-- a pointer into a track piece template left the template -/
  | out_of_template
deriving DecidableEq, Repr

/-- Pages of the tile inspector window (`TILE_INSPECTOR_PAGE_*`). -/
inductive tile_inspector_page where
  | default | surface | path | track | scenery | entrance | fence | large_scenery | banner
  | corrupt
deriving DecidableEq, Repr

/-- The fields of the tile inspector window that the mutators touch. -/
structure rct_window where
  selected_list_item : Int
  page : tile_inspector_page
deriving DecidableEq, Repr

/-- The part of the game state the mutators read and write. -/
structure GameState where
  /-- element run of each tile, starting at `map_get_first_element_at(x, y)` -/
  tiles : Int → Int → List rct_map_element
  /-- element slots still free in the shared store -/
  free_elements : Nat
  /-- result of `window_find_by_class(WC_TILE_INSPECTOR)` -/
  tile_inspector_window : Option rct_window
  windowTileInspectorTileX : Nat
  windowTileInspectorTileY : Nat
  windowTileInspectorElementCount : Int

/-- Modelled from the spec: the terminal flag ("last element for tile") of the flags byte;
`map.h` is not among the sources, the bit is `1 << 7`. -/
def MAP_ELEMENT_FLAG_LAST_TILE : Nat := 0x80

/-- Modelled from the spec: the type value of the Corrupt variant (`8 << 2`); `map.h` is not
among the sources. -/
def MAP_ELEMENT_TYPE_CORRUPT : Nat := 32

/-- Modelled from the spec: the apply flag of a command (`1 << 0`); `game.h` is not among
the sources. -/
def GAME_COMMAND_FLAG_APPLY : Nat := 1

/-- Modelled from the spec: the failure sentinel `(money32)0x80000000`; `common.h` is not
among the sources. -/
def MONEY32_UNDEFINED : Int := -2147483648

/-- Conversion to `sint16`. -/
def toSint16 (v : Int) : Int := (v + 32768) % 65536 - 32768

/-- Conversion to `sint32`. -/
def toSint32 (v : Int) : Int := (v + 2147483648) % 4294967296 - 2147483648

/-- Conversion to `uint8`. -/
def toUint8 (v : Int) : Nat := (v % 256).toNat

/-- Conversion to `uint32`. -/
def toUint32 (v : Int) : Nat := (v % 4294967296).toNat

/-- Modelled from the spec: `map_element_is_last_for_tile` (map.c), the test of the terminal
flag. -/
def map_element_is_last_for_tile (e : rct_map_element) : Bool :=
  e.flags &&& MAP_ELEMENT_FLAG_LAST_TILE != 0

/-- The statement `e->flags ^= MAP_ELEMENT_FLAG_LAST_TILE`. -/
def toggleLastFlag (e : rct_map_element) : rct_map_element :=
  { e with flags := e.flags ^^^ MAP_ELEMENT_FLAG_LAST_TILE }

/-- A write through a pointer to position `i` of the run. -/
def modifyAt (t : List rct_map_element) (i : Nat) (g : rct_map_element → rct_map_element) :
    List rct_map_element :=
  match t[i]? with
  | some e => t.set i (g e)
  | none => t

/-- The test `map_element_is_last_for_tile(p)` for the pointer to position `i`. -/
def isLastAt (t : List rct_map_element) (i : Nat) : Bool :=
  match t[i]? with
  | some e => map_element_is_last_for_tile e
  | none => false

/-- The counting loop `do elementCount++; while (!map_element_is_last_for_tile(mapElement++))`
of `map_swap_elements_at`, entered with the given value of the counter.  The counter is a
`sint16`, so every increment wraps; `none` when the scan finds no terminal flag in the
modelled run. -/
def elementCountLoop (elementCount : Int) : List rct_map_element → Option Int
  | [] => none
  | e :: rest =>
    if map_element_is_last_for_tile e then some (toSint16 (elementCount + 1))
    else elementCountLoop (toSint16 (elementCount + 1)) rest

/-- The value of `sint16 elementCount` after the counting loop of `map_swap_elements_at`,
which starts from 0. -/
def elementCount (t : List rct_map_element) : Option Int := elementCountLoop 0 t

/-- The counting loop `do num_element++; while (!map_element_is_last_for_tile(element_iterator++))`
of `tile_inspector_sort_elements_at`, entered with the given value of the counter.  The
counter is a `sint32`; `none` when the scan finds no terminal flag in the modelled run. -/
def numElementLoop (num_element : Int) : List rct_map_element → Option Int
  | [] => none
  | e :: rest =>
    if map_element_is_last_for_tile e then some (toSint32 (num_element + 1))
    else numElementLoop (toSint32 (num_element + 1)) rest

/-- The tile invariant: the run is not empty and exactly its final element carries the
terminal flag. -/
def wellFormedTile : List rct_map_element → Bool
  | [] => false
  | [e] => map_element_is_last_for_tile e
  | e :: rest => !map_element_is_last_for_tile e && wellFormedTile rest

/-- The element with its terminal flag forced on: the content of an element, terminal flag
aside. -/
def withLastFlag (e : rct_map_element) : rct_map_element :=
  { e with flags := e.flags ||| MAP_ELEMENT_FLAG_LAST_TILE }

/-- Two elements agree in every bit other than the terminal flag. -/
def sameExceptLastFlag (a b : rct_map_element) : Prop :=
  withLastFlag a = withLastFlag b

instance (a b : rct_map_element) : Decidable (sameExceptLastFlag a b) := by
  unfold sameExceptLastFlag; infer_instance

/-! ## map_swap_elements_at -/

/-- The function `map_swap_elements_at` on the run of tile `(x, y)`.  The parameters
`first` and `second` are `sint16`: the arguments of a call are converted, and
`elementCount` is the wrapped `sint16` counter. -/
def map_swap_elements_at (t : List rct_map_element) (first second : Int) :
    Except Failure (List rct_map_element) :=
  match t with
  | [] => .error .out_of_tile
  | e0 :: _ =>
    -- swap_elements shouldn't be called when there is only one element on the tile
    if map_element_is_last_for_tile e0 then .error .assertion
    else
      -- make sure both elements are actually on the current tile
      match elementCount t with
      | none => .error .out_of_tile
      | some count =>
        if ¬ (count > max (toSint16 first) (toSint16 second)) then .error .assertion
        else if toSint16 first < 0 ∨ toSint16 second < 0 then .error .out_of_tile
        else
          match t[(toSint16 first).toNat]?, t[(toSint16 second).toNat]? with
          | some temp, some secondValue =>
            -- swap their memory
            let t1 := (t.set (toSint16 first).toNat secondValue).set (toSint16 second).toNat temp
            -- swap the terminal flag if either one of them was last
            if isLastAt t1 (toSint16 first).toNat || isLastAt t1 (toSint16 second).toNat then
              .ok (modifyAt (modifyAt t1 (toSint16 first).toNat toggleLastFlag)
                (toSint16 second).toNat toggleLastFlag)
            else .ok t1
          | _, _ => .error .out_of_tile

/-! ## Tile store primitives -/

/-- Replaces the run of tile `(x, y)`. -/
def setTile (s : GameState) (x y : Int) (t : List rct_map_element) : GameState :=
  { s with tiles := fun a b => if a = x ∧ b = y then t else s.tiles a b }

/-- The comparison `(uint32)x == windowTileInspectorTileX && (uint32)y == windowTileInspectorTileY`
guarded by `tile_inspector_window != NULL`: the window, when the tile is the inspected one. -/
def inspectedWindow (s : GameState) (x y : Int) : Option rct_window :=
  match s.tile_inspector_window with
  | some w =>
    if toUint32 x = s.windowTileInspectorTileX ∧ toUint32 y = s.windowTileInspectorTileY
    then some w else none
  | none => none

/-- Modelled from the spec: `map_check_free_elements_and_reorganise` (map.c, not among the
sources) ensures that `n` free element slots exist and reports failure if that is
impossible; compaction leaves every tile's run as it is. -/
def map_check_free_elements_and_reorganise (s : GameState) (n : Nat) : Bool :=
  decide (n ≤ s.free_elements)

/-- The blank element written by an insertion at height `z` with the given flags. -/
def blankElement (z : Int) (flags : Nat) : rct_map_element :=
  { type := 0, flags := flags, base_height := toUint8 z, clearance_height := toUint8 z,
    properties0 := 0, properties1 := 0, properties2 := 0, properties3 := 0 }

/-- Modelled from the spec: the effect of `map_element_insert` (map.c, not among the sources)
on one run, "insert a new blank element at a given tile/height".  The blank element is
placed above the leading elements whose base height does not exceed `z`; the caller in
`tile_inspector_insert_corrupt_at` passes `-1` with the comment "-1 guarantees this to be
placed first".  When the blank element becomes the final element it takes over the terminal
flag.  The result is the new run and the slot of the blank element. -/
def map_element_insert_run (z : Int) (flags : Nat) :
    List rct_map_element → List rct_map_element × Nat
  | [] => ([blankElement z (flags ||| MAP_ELEMENT_FLAG_LAST_TILE)], 0)
  | e :: rest =>
    if (e.base_height : Int) ≤ z then
      if map_element_is_last_for_tile e then
        ([{ e with flags := e.flags &&& 0x7F },
          blankElement z (flags ||| MAP_ELEMENT_FLAG_LAST_TILE)], 1)
      else ((e :: (map_element_insert_run z flags rest).1),
            (map_element_insert_run z flags rest).2 + 1)
    else (blankElement z flags :: e :: rest, 0)

/-- Modelled from the spec: `map_element_insert` (map.c, not among the sources) inserts a new
blank element at a given tile and height and returns its slot, or nothing when no slot is
available. -/
def map_element_insert (s : GameState) (x y : Int) (z : Int) (flags : Nat) :
    Option (GameState × Nat) :=
  if map_check_free_elements_and_reorganise s 1 then
    some ({ setTile s x y (map_element_insert_run z flags (s.tiles x y)).1 with
              free_elements := s.free_elements - 1 },
          (map_element_insert_run z flags (s.tiles x y)).2)
  else none

/-- Modelled from the spec: the effect of `map_element_remove` (map.c, not among the sources)
on one run: the element is deleted, the elements above it move down one slot and the final
element of the shortened run carries the terminal flag. -/
def map_element_remove_run (t : List rct_map_element) (i : Nat) : List rct_map_element :=
  modifyAt (t.eraseIdx i) ((t.eraseIdx i).length - 1)
    (fun e => { e with flags := e.flags ||| MAP_ELEMENT_FLAG_LAST_TILE })

/-! ## tile_inspector_insert_corrupt_at -/

/-- The loop `for (i = 0; i < element_index; i++) map_swap_elements_at(x, y, i, i + 1)`,
entered at `i` with `remaining` iterations to go. -/
def insertSwapLoop (i : Nat) : Nat → List rct_map_element → Except Failure (List rct_map_element)
  | 0, t => .ok t
  | remaining + 1, t =>
    match map_swap_elements_at t i (i + 1) with
    | .ok t1 => insertSwapLoop (i + 1) remaining t1
    | .error e => .error e

/-- The writes of `tile_inspector_insert_corrupt_at` to the run once the blank element sits
in `slot`: type, heights copied from `first + element_index`, then the swap loop. -/
def insertCorruptRun (t : List rct_map_element) (slot : Nat) (element_index : Int) :
    Except Failure (List rct_map_element) :=
  let t1 := modifyAt t slot (fun e => { e with type := MAP_ELEMENT_TYPE_CORRUPT })
  -- set the base height to be the same as the selected element
  if element_index < 0 then .error .out_of_tile
  else
    match t1[element_index.toNat]? with
    | none => .error .out_of_tile
    | some selectedElement =>
      let t2 := modifyAt t1 slot
        (fun e => { e with clearance_height := selectedElement.base_height })
      let t3 := modifyAt t2 slot (fun e => { e with base_height := selectedElement.base_height })
      -- move the corrupt element up until the selected list item is reached
      insertSwapLoop 0 element_index.toNat t3

/-- The element that `tile_inspector_insert_corrupt_at` leaves in the new slot: the blank
element inserted at height `-1` with the Corrupt type and both heights set to `height`. -/
def corruptElement (height : Nat) : rct_map_element :=
  { blankElement (-1) 0 with
    type := MAP_ELEMENT_TYPE_CORRUPT
    base_height := height
    clearance_height := height }

/-- The window update of `tile_inspector_insert_corrupt_at`. -/
def insertCorruptWindow (s : GameState) (x y : Int) (element_index : Int) : GameState :=
  match inspectedWindow s x y with
  | none => s
  | some w =>
    let selected :=
      if w.selected_list_item > element_index then w.selected_list_item + 1
      else w.selected_list_item
    let page := if selected = element_index then tile_inspector_page.corrupt else w.page
    { s with
      windowTileInspectorElementCount := s.windowTileInspectorElementCount + 1
      tile_inspector_window := some { selected_list_item := selected, page := page } }

/-- The function `tile_inspector_insert_corrupt_at`: return value and state after the call. -/
def tile_inspector_insert_corrupt_at (s : GameState) (x y : Int) (element_index : Int)
    (flags : Nat) : Except Failure (Int × GameState) :=
  -- make sure there is enough space for the new element
  if !map_check_free_elements_and_reorganise s 1 then .ok (MONEY32_UNDEFINED, s)
  else if flags &&& GAME_COMMAND_FLAG_APPLY ≠ 0 then
    -- ugly hack: -1 guarantees this to be placed first
    match map_element_insert s x y (-1) 0 with
    | none => .ok (MONEY32_UNDEFINED, s)
    | some (s1, slot) =>
      match insertCorruptRun (s1.tiles x y) slot element_index with
      | .error e => .error e
      | .ok t => .ok (0, insertCorruptWindow (setTile s1 x y t) x y element_index)
  else .ok (0, s)

/-! ## tile_inspector_remove_element_at -/

/-- The window update of `tile_inspector_remove_element_at`. -/
def removeElementWindow (s : GameState) (x y : Int) (element_index : Int) : GameState :=
  match inspectedWindow s x y with
  | none => s
  | some w =>
    { s with
      windowTileInspectorElementCount := s.windowTileInspectorElementCount - 1
      tile_inspector_window :=
        if w.selected_list_item > element_index then
          some { w with selected_list_item := w.selected_list_item - 1 }
        else if w.selected_list_item = element_index then
          some { selected_list_item := -1, page := tile_inspector_page.default }
        else some w }

/-- The function `tile_inspector_remove_element_at`: return value and state after the call. -/
def tile_inspector_remove_element_at (s : GameState) (x y : Int) (element_index : Int)
    (flags : Nat) : Except Failure (Int × GameState) :=
  if flags &&& GAME_COMMAND_FLAG_APPLY ≠ 0 then
    if element_index < 0 ∨ (s.tiles x y).length ≤ element_index.toNat then .error .out_of_tile
    else
      -- forcefully remove the element
      .ok (0, removeElementWindow
        (setTile s x y (map_element_remove_run (s.tiles x y) element_index.toNat))
        x y element_index)
  else .ok (0, s)

/-! ## tile_inspector_sort_elements_at -/

/-- The loop condition of the sort on `otherElement` and `currentElement`: the other
element's base height is higher, or the base heights agree and its clearance height is
higher. -/
def sortsAfter (otherElement currentElement : rct_map_element) : Bool :=
  decide (otherElement.base_height > currentElement.base_height) ||
    (decide (otherElement.base_height = currentElement.base_height) &&
      decide (otherElement.clearance_height > currentElement.clearance_height))

/-- The inner `while` loop of the sort, entered with the given `currentId`. -/
def sortInnerLoop (t : List rct_map_element) :
    Nat → Except Failure (List rct_map_element)
  | 0 => .ok t
  | otherId + 1 =>
    match t[otherId]?, t[otherId + 1]? with
    | some otherElement, some currentElement =>
      if sortsAfter otherElement currentElement then
        match map_swap_elements_at t ((otherId + 1 : Nat) - 1 : Int) (otherId + 1 : Nat) with
        | .ok t1 => sortInnerLoop t1 otherId
        | .error e => .error e
      else .ok t
    | _, _ => .error .out_of_tile

/-- The outer loop `for (loopStart = 1; loopStart < num_element; loopStart++)` of the sort,
entered at `loopStart` with `remaining` iterations to go. -/
def sortOuterLoop (loopStart : Nat) :
    Nat → List rct_map_element → Except Failure (List rct_map_element)
  | 0, t => .ok t
  | remaining + 1, t =>
    match sortInnerLoop t loopStart with
    | .ok t1 => sortOuterLoop (loopStart + 1) remaining t1
    | .error e => .error e

/-- The element count and bubble sort of `tile_inspector_sort_elements_at` on one run. -/
def sortRun (t : List rct_map_element) : Except Failure (List rct_map_element) :=
  match numElementLoop 0 t with
  | none => .error .out_of_tile
  | some num_element => sortOuterLoop 1 (num_element - 1).toNat t

/-- The calls of `map_swap_elements_at` made by the inner `while` loop of the sort entered
with the given `currentId`, in order: the run at the time of the call and the two index
arguments `currentId - 1`, `currentId`. -/
def sortInnerLoopCalls (t : List rct_map_element) :
    Nat → List (List rct_map_element × Int × Int)
  | 0 => []
  | otherId + 1 =>
    match t[otherId]?, t[otherId + 1]? with
    | some otherElement, some currentElement =>
      if sortsAfter otherElement currentElement then
        (t, ((otherId + 1 : Nat) - 1 : Int), ((otherId + 1 : Nat) : Int)) ::
          match map_swap_elements_at t ((otherId + 1 : Nat) - 1 : Int) (otherId + 1 : Nat) with
          | .ok t1 => sortInnerLoopCalls t1 otherId
          | .error _ => []
      else []
    | _, _ => []

/-- The calls of `map_swap_elements_at` made by the outer loop of the sort entered at
`loopStart` with `remaining` iterations to go. -/
def sortOuterLoopCalls (loopStart : Nat) :
    Nat → List rct_map_element → List (List rct_map_element × Int × Int)
  | 0, _ => []
  | remaining + 1, t =>
    sortInnerLoopCalls t loopStart ++
      match sortInnerLoop t loopStart with
      | .ok t1 => sortOuterLoopCalls (loopStart + 1) remaining t1
      | .error _ => []

/-- The calls of `map_swap_elements_at` made by `tile_inspector_sort_elements_at` on one
run. -/
def sortRunCalls (t : List rct_map_element) : List (List rct_map_element × Int × Int) :=
  match numElementLoop 0 t with
  | none => []
  | some num_element => sortOuterLoopCalls 1 (num_element - 1).toNat t

/-- The window update of `tile_inspector_sort_elements_at`. -/
def sortElementsWindow (s : GameState) (x y : Int) : GameState :=
  match inspectedWindow s x y with
  | none => s
  | some _ =>
    { s with
      tile_inspector_window :=
        some { selected_list_item := -1, page := tile_inspector_page.default } }

/-- The function `tile_inspector_sort_elements_at`: return value and state after the call. -/
def tile_inspector_sort_elements_at (s : GameState) (x y : Int) (flags : Nat) :
    Except Failure (Int × GameState) :=
  if flags &&& GAME_COMMAND_FLAG_APPLY ≠ 0 then
    match sortRun (s.tiles x y) with
    | .error e => .error e
    | .ok t => .ok (0, sortElementsWindow (setTile s x y t) x y)
  else .ok (0, s)

/-! ## tile_inspector_any_base_height_offset -/

/-- The function `tile_inspector_any_base_height_offset`: return value and state after the
call.  `height_offset` is the `sint8` argument. -/
def tile_inspector_any_base_height_offset (s : GameState) (x y : Int) (element_index : Int)
    (height_offset : Int) (flags : Nat) : Except Failure (Int × GameState) :=
  if element_index < 0 then .error .out_of_tile
  else
    match (s.tiles x y)[element_index.toNat]? with
    | none => .error .out_of_tile
    | some map_element =>
      let new_base_height := toSint16 ((map_element.base_height : Int) + height_offset)
      let new_clearance_height := toSint16 ((map_element.clearance_height : Int) + height_offset)
      if new_base_height < 0 ∨ new_base_height > 0xff ∨
          new_clearance_height < 0 ∨ new_clearance_height > 0xff then
        .ok (MONEY32_UNDEFINED, s)
      else if flags &&& GAME_COMMAND_FLAG_APPLY ≠ 0 then
        .ok (0, setTile s x y ((s.tiles x y).set element_index.toNat
          { map_element with
            base_height := toUint8 ((map_element.base_height : Int) + height_offset)
            clearance_height := toUint8 ((map_element.clearance_height : Int) + height_offset) }))
      else .ok (0, s)


/-! ## Element accessors -/

/-- Modelled from the spec: mask of the element variant in the type byte (`map.h` is not
among the sources). -/
def MAP_ELEMENT_TYPE_MASK : Nat := 0x3C

/-- Modelled from the spec: mask of the 2-bit direction field in the type byte (`map.h`). -/
def MAP_ELEMENT_DIRECTION_MASK : Nat := 3

/-- Modelled from the spec: mask of the 2-bit quadrant field in the type byte (`map.h`). -/
def MAP_ELEMENT_QUADRANT_MASK : Nat := 0xC0

/-- Modelled from the spec: type value of the Surface variant (`map.h`, `0 << 2`). -/
def MAP_ELEMENT_TYPE_SURFACE : Nat := 0

/-- Modelled from the spec: type value of the Path variant (`map.h`, `1 << 2`). -/
def MAP_ELEMENT_TYPE_PATH : Nat := 4

/-- Modelled from the spec: type value of the Track variant (`map.h`, `2 << 2`). -/
def MAP_ELEMENT_TYPE_TRACK : Nat := 8

/-- Modelled from the spec: type value of the Scenery variant (`map.h`, `3 << 2`). -/
def MAP_ELEMENT_TYPE_SCENERY : Nat := 12

/-- Modelled from the spec: type value of the Entrance variant (`map.h`, `4 << 2`). -/
def MAP_ELEMENT_TYPE_ENTRANCE : Nat := 16

/-- Modelled from the spec: type value of the Fence variant (`map.h`, `5 << 2`). -/
def MAP_ELEMENT_TYPE_FENCE : Nat := 20

/-- Modelled from the spec: type value of the Banner variant (`map.h`, `7 << 2`). -/
def MAP_ELEMENT_TYPE_BANNER : Nat := 28

/-- Modelled from the spec: the chain-lift flag of a Track element's type byte
(`ride/track.h`, `1 << 7`). -/
def TRACK_ELEMENT_FLAG_CHAIN_LIFT : Nat := 0x80

/-- Modelled from the spec: `map_element_get_type` (map.c), the variant bits of the type
byte. -/
def map_element_get_type (e : rct_map_element) : Nat := e.type &&& MAP_ELEMENT_TYPE_MASK

/-- Modelled from the spec: `map_element_get_direction` (map.c), the direction bits of the
type byte. -/
def map_element_get_direction (e : rct_map_element) : Nat :=
  e.type &&& MAP_ELEMENT_DIRECTION_MASK

/-- Modelled from the spec: `track_element_is_lift_hill` (ride/track.c), the test of the
chain-lift flag. -/
def track_element_is_lift_hill (e : rct_map_element) : Bool :=
  e.type &&& TRACK_ELEMENT_FLAG_CHAIN_LIFT != 0

/-- Modelled from the spec: `footpath_element_is_sloped` (footpath.c), the sloped bit
(`1 << 2`) of `properties.path.type`, the first payload byte. -/
def footpath_element_is_sloped (e : rct_map_element) : Bool := e.properties0 &&& 4 != 0

/-- Modelled from the spec: `footpath_element_get_slope_direction` (footpath.c), the low two
bits of `properties.path.type`. -/
def footpath_element_get_slope_direction (e : rct_map_element) : Nat := e.properties0 &&& 3

/-- Modelled from the spec: `map_get_surface_element_at` (map.c, not among the sources): the
slot of the first Surface element of the run, nothing when the run has none. -/
def map_get_surface_element_at : List rct_map_element → Option Nat
  | [] => none
  | e :: rest =>
    if map_element_get_type e = MAP_ELEMENT_TYPE_SURFACE then some 0
    else if map_element_is_last_for_tile e then none
    else match map_get_surface_element_at rest with
      | some k => some (k + 1)
      | none => none

/-! ## tile_inspector_swap_elements_at -/

/-- The window update of `tile_inspector_swap_elements_at`. -/
def swapElementsWindow (s : GameState) (x y : Int) (first second : Int) : GameState :=
  match inspectedWindow s x y with
  | none => s
  | some w =>
    { s with
      tile_inspector_window :=
        -- if one of them was selected, update selected list item
        if w.selected_list_item = first then some { w with selected_list_item := second }
        else if w.selected_list_item = second then some { w with selected_list_item := first }
        else some w }

/-- The function `tile_inspector_swap_elements_at`: return value and state after the call. -/
def tile_inspector_swap_elements_at (s : GameState) (x y : Int) (first second : Int)
    (flags : Nat) : Except Failure (Int × GameState) :=
  if flags &&& GAME_COMMAND_FLAG_APPLY ≠ 0 then
    match map_swap_elements_at (s.tiles x y) first second with
    | .error e => .error e
    | .ok t => .ok (0, swapElementsWindow (setTile s x y t) x y first second)
  else .ok (0, s)

/-! ## tile_inspector_rotate_element_at -/

/-- The first payload byte of a Path element (`properties.path.type`) after the rotation,
as a function of the byte: when the sloped bit is set, the slope direction in the low two
bits goes up by one modulo 4. -/
def rotatedPathType (pathType : Nat) : Nat :=
  if pathType &&& 4 != 0 then
    (pathType &&& 0xFC) ||| (((pathType &&& 3) + 1) &&& MAP_ELEMENT_DIRECTION_MASK)
  else pathType

/-- The edges byte of a Path element after the rotation: with `pathEdges = edges & 0x0F` and
`pathCorners = edges & 0xF0`, the byte
`(((pathEdges << 1) | (pathEdges >> 3)) & 0x0F) | (((pathCorners << 1) | (pathCorners >> 3)) & 0xF0)`. -/
def rotatedPathEdges (edges : Nat) : Nat :=
  ((((edges &&& 0x0F) <<< 1) ||| ((edges &&& 0x0F) >>> 3)) &&& 0x0F) |||
  ((((edges &&& 0xF0) <<< 1) ||| ((edges &&& 0xF0) >>> 3)) &&& 0xF0)

/-- The type byte of a Track, Scenery, Entrance or Fence element after the rotation:
`newRotation = (type + 1) & MAP_ELEMENT_DIRECTION_MASK` replaces the low two bits. -/
def rotatedDirectionType (type : Nat) : Nat :=
  (type &&& 0xFC) ||| ((type + 1) &&& MAP_ELEMENT_DIRECTION_MASK)

/-- The position byte of a Banner element after the rotation: `position++; position &= 3`. -/
def rotatedBannerPosition (position : Nat) : Nat := ((position + 1) % 256) &&& 3

/-- The flags byte of a Banner element after the rotation: the bit of the old position and
the bit of the new position are toggled. -/
def rotatedBannerFlags (flags position : Nat) : Nat :=
  (((flags ^^^ (1 <<< position)) % 256) ^^^ (1 <<< rotatedBannerPosition position)) % 256

/-- The `switch` of `tile_inspector_rotate_element_at` on one element.  For a Path element
the payload bytes are `type`, `additions`, `edges`, `addition_status`; for a Banner element
they are `index`, `position`, `flags`, `unused`. -/
def rotateElement (mapElement : rct_map_element) : rct_map_element :=
  if map_element_get_type mapElement = MAP_ELEMENT_TYPE_PATH then
    { mapElement with
      properties0 :=
        if footpath_element_is_sloped mapElement then
          (mapElement.properties0 &&& 0xFC) |||
            ((footpath_element_get_slope_direction mapElement + 1) &&&
              MAP_ELEMENT_DIRECTION_MASK)
        else mapElement.properties0
      properties2 := rotatedPathEdges mapElement.properties2 }
  else if map_element_get_type mapElement = MAP_ELEMENT_TYPE_TRACK ∨
      map_element_get_type mapElement = MAP_ELEMENT_TYPE_SCENERY ∨
      map_element_get_type mapElement = MAP_ELEMENT_TYPE_ENTRANCE ∨
      map_element_get_type mapElement = MAP_ELEMENT_TYPE_FENCE then
    { mapElement with type := rotatedDirectionType mapElement.type }
  else if map_element_get_type mapElement = MAP_ELEMENT_TYPE_BANNER then
    { mapElement with
      properties1 := rotatedBannerPosition mapElement.properties1
      properties2 := rotatedBannerFlags mapElement.properties2 mapElement.properties1 }
  else mapElement

/-- The function `tile_inspector_rotate_element_at`: return value and state after the
call. -/
def tile_inspector_rotate_element_at (s : GameState) (x y : Int) (element_index : Int)
    (flags : Nat) : Except Failure (Int × GameState) :=
  if flags &&& GAME_COMMAND_FLAG_APPLY ≠ 0 then
    if element_index < 0 then .error .out_of_tile
    else
      match (s.tiles x y)[element_index.toNat]? with
      | none => .error .out_of_tile
      | some mapElement =>
        .ok (0, setTile s x y ((s.tiles x y).set element_index.toNat (rotateElement mapElement)))
  else .ok (0, s)

/-! ## tile_inspector_paste_element_at -/

/-- The window update of `tile_inspector_paste_element_at`. -/
def pasteElementWindow (s : GameState) (x y : Int) (new_index : Int) : GameState :=
  match inspectedWindow s x y with
  | none => s
  | some w =>
    { s with
      windowTileInspectorElementCount := s.windowTileInspectorElementCount + 1
      tile_inspector_window :=
        -- select new element if there was none selected already
        if w.selected_list_item = -1 then some { w with selected_list_item := new_index }
        else if w.selected_list_item ≥ new_index then
          some { w with selected_list_item := w.selected_list_item + 1 }
        else some w }

/-- The element written into the new slot by `tile_inspector_paste_element_at`: the supplied
element with its terminal flag cleared, and set again when the slot is the last of the
tile. -/
def pastedElement (element : rct_map_element) (lastForTile : Bool) : rct_map_element :=
  if lastForTile then
    { element with flags := (element.flags &&& 0x7F) ||| MAP_ELEMENT_FLAG_LAST_TILE }
  else { element with flags := element.flags &&& 0x7F }

/-- The function `tile_inspector_paste_element_at`: return value and state after the call. -/
def tile_inspector_paste_element_at (s : GameState) (x y : Int) (element : rct_map_element)
    (flags : Nat) : Except Failure (Int × GameState) :=
  -- make sure there is enough space for the new element
  if !map_check_free_elements_and_reorganise s 1 then .ok (MONEY32_UNDEFINED, s)
  else if flags &&& GAME_COMMAND_FLAG_APPLY ≠ 0 then
    match map_element_insert s x y (element.base_height : Int) 0 with
    | none => .error .out_of_tile
    | some (s1, slot) =>
      .ok (0, pasteElementWindow
        (setTile s1 x y ((s1.tiles x y).set slot
          (pastedElement element (isLastAt (s1.tiles x y) slot))))
        x y (toSint16 (slot : Int)))
  else .ok (0, s)

/-! ## Surface operations -/

/-- The flag `diagonal = (originalSlope & 0x10) >> 4` of
`tile_inspector_surface_toggle_corner`. -/
def surfaceDiagonal (originalSlope : Nat) : Bool := (originalSlope &&& 0x10) >>> 4 != 0

/-- The slope byte after `slope ^= 1 << corner_index`. -/
def cornerToggledSlope (originalSlope corner_index : Nat) : Nat :=
  (originalSlope ^^^ (1 <<< corner_index)) % 256

/-- The slope byte written when all corners are raised: `slope &= ~0x1F`, then, for a
diagonal slope, the `switch (originalSlope & 0x0F)`. -/
def allCornersSlope (originalSlope slope : Nat) : Nat :=
  if surfaceDiagonal originalSlope then
    if originalSlope &&& 0x0F = 0b1011 then (slope &&& 0xE0) ||| (1 <<< 0)
    else if originalSlope &&& 0x0F = 0b0111 then (slope &&& 0xE0) ||| (1 <<< 1)
    else if originalSlope &&& 0x0F = 0b1110 then (slope &&& 0xE0) ||| (1 <<< 2)
    else if originalSlope &&& 0x0F = 0b1101 then (slope &&& 0xE0) ||| (1 <<< 3)
    else slope &&& 0xE0
  else slope &&& 0xE0

/-- The body of `tile_inspector_surface_toggle_corner` on the surface element; the first
payload byte is `properties.surface.slope`. -/
def surfaceToggleCorner (surface : rct_map_element) (corner_index : Nat) : rct_map_element :=
  if cornerToggledSlope surface.properties0 corner_index &&& 0x0F = 0x0F then
    -- all corners are raised
    { surface with
      properties0 :=
        allCornersSlope surface.properties0
          (cornerToggledSlope surface.properties0 corner_index)
      -- update base and clearance heights
      base_height := (surface.base_height + 2) % 256
      clearance_height :=
        ((surface.base_height + 2) % 256 +
          (if surfaceDiagonal surface.properties0 then 2 else 0)) % 256 }
  else
    { surface with
      properties0 := cornerToggledSlope surface.properties0 corner_index
      clearance_height :=
        if cornerToggledSlope surface.properties0 corner_index &&& 0x0F ≠ 0 then
          (surface.base_height + 2) % 256
        else surface.base_height }

/-- The body of `tile_inspector_surface_toggle_diagonal` on the surface element. -/
def surfaceToggleDiagonal (surface : rct_map_element) : rct_map_element :=
  let slope := surface.properties0 ^^^ 0x10
  { surface with
    properties0 := slope
    clearance_height :=
      if slope &&& 0x10 ≠ 0 then (surface.base_height + 4) % 256
      else if slope &&& 0x0F ≠ 0 then (surface.base_height + 2) % 256
      else surface.base_height }

/-- The function `tile_inspector_surface_show_park_fences`: return value and state after the
call.  `update_park_fences` (park.c) is not among the sources and is a parameter; the fourth
payload byte is `properties.surface.ownership`. -/
def tile_inspector_surface_show_park_fences
    (update_park_fences : GameState → Int → Int → GameState)
    (s : GameState) (x y : Int) (show_fences : Bool) (flags : Nat) :
    Except Failure (Int × GameState) :=
  match map_get_surface_element_at (s.tiles x y) with
  -- no surface element on tile
  | none => .ok (MONEY32_UNDEFINED, s)
  | some k =>
    if flags &&& GAME_COMMAND_FLAG_APPLY ≠ 0 then
      if !show_fences then
        .ok (0, setTile s x y (modifyAt (s.tiles x y) k
          (fun surface => { surface with properties3 := surface.properties3 &&& 0xF0 })))
      else .ok (0, update_park_fences s (x * 32) (y * 32))
    else .ok (0, s)

/-- The function `tile_inspector_surface_toggle_corner`: return value and state after the
call. -/
def tile_inspector_surface_toggle_corner (s : GameState) (x y : Int) (corner_index : Nat)
    (flags : Nat) : Except Failure (Int × GameState) :=
  match map_get_surface_element_at (s.tiles x y) with
  -- no surface element on tile
  | none => .ok (MONEY32_UNDEFINED, s)
  | some k =>
    if flags &&& GAME_COMMAND_FLAG_APPLY ≠ 0 then
      .ok (0, setTile s x y (modifyAt (s.tiles x y) k
        (fun surface => surfaceToggleCorner surface corner_index)))
    else .ok (0, s)

/-- The function `tile_inspector_surface_toggle_diagonal`: return value and state after the
call. -/
def tile_inspector_surface_toggle_diagonal (s : GameState) (x y : Int) (flags : Nat) :
    Except Failure (Int × GameState) :=
  match map_get_surface_element_at (s.tiles x y) with
  -- no surface element on tile
  | none => .ok (MONEY32_UNDEFINED, s)
  | some k =>
    if flags &&& GAME_COMMAND_FLAG_APPLY ≠ 0 then
      .ok (0, setTile s x y (modifyAt (s.tiles x y) k surfaceToggleDiagonal))
    else .ok (0, s)

/-! ## Path, fence and scenery operations -/

/-- The function `tile_inspector_path_set_sloped`: return value and state after the call. -/
def tile_inspector_path_set_sloped (s : GameState) (x y : Int) (element_index : Int)
    (sloped : Bool) (flags : Nat) : Except Failure (Int × GameState) :=
  if element_index < 0 then .error .out_of_tile
  else
    match (s.tiles x y)[element_index.toNat]? with
    | none => .error .out_of_tile
    | some path_element =>
      if map_element_get_type path_element ≠ MAP_ELEMENT_TYPE_PATH then
        .ok (MONEY32_UNDEFINED, s)
      else if flags &&& GAME_COMMAND_FLAG_APPLY ≠ 0 then
        .ok (0, setTile s x y ((s.tiles x y).set element_index.toNat
          { path_element with
            properties0 :=
              if sloped then (path_element.properties0 &&& 0xFB) ||| (1 <<< 2)
              else path_element.properties0 &&& 0xFB }))
      else .ok (0, s)

/-- The function `tile_inspector_path_toggle_edge`: return value and state after the call.
The third payload byte is `properties.path.edges`. -/
def tile_inspector_path_toggle_edge (s : GameState) (x y : Int) (element_index : Int)
    (edge_index : Nat) (flags : Nat) : Except Failure (Int × GameState) :=
  if flags &&& GAME_COMMAND_FLAG_APPLY ≠ 0 then
    if element_index < 0 then .error .out_of_tile
    else
      match (s.tiles x y)[element_index.toNat]? with
      | none => .error .out_of_tile
      | some path_element =>
        .ok (0, setTile s x y ((s.tiles x y).set element_index.toNat
          { path_element with
            properties2 := (path_element.properties2 ^^^ (1 <<< edge_index)) % 256 }))
  else .ok (0, s)

/-- The function `tile_inspector_fence_set_slope`: return value and state after the call. -/
def tile_inspector_fence_set_slope (s : GameState) (x y : Int) (element_index : Int)
    (slope_value : Int) (flags : Nat) : Except Failure (Int × GameState) :=
  if element_index < 0 then .error .out_of_tile
  else
    match (s.tiles x y)[element_index.toNat]? with
    | none => .error .out_of_tile
    | some fence_element =>
      if map_element_get_type fence_element ≠ MAP_ELEMENT_TYPE_FENCE then
        .ok (MONEY32_UNDEFINED, s)
      else if flags &&& GAME_COMMAND_FLAG_APPLY ≠ 0 then
        -- set new slope value
        .ok (0, setTile s x y ((s.tiles x y).set element_index.toNat
          { fence_element with
            type := ((fence_element.type &&& 0x3F) ||| toUint32 slope_value) % 256 }))
      else .ok (0, s)

/-- The function `tile_inspector_scenery_set_quarter_location`: return value and state after
the call. -/
def tile_inspector_scenery_set_quarter_location (s : GameState) (x y : Int)
    (element_index : Int) (quarter_index : Int) (flags : Nat) :
    Except Failure (Int × GameState) :=
  if element_index < 0 then .error .out_of_tile
  else
    match (s.tiles x y)[element_index.toNat]? with
    | none => .error .out_of_tile
    | some mapElement =>
      if map_element_get_type mapElement ≠ MAP_ELEMENT_TYPE_SCENERY then
        .ok (MONEY32_UNDEFINED, s)
      else if flags &&& GAME_COMMAND_FLAG_APPLY ≠ 0 then
        .ok (0, setTile s x y ((s.tiles x y).set element_index.toNat
          { mapElement with
            -- set quadrant index
            type := ((mapElement.type &&& 0x3F) ||| (toUint32 quarter_index <<< 6)) % 256
            -- update collision
            flags := ((mapElement.flags &&& 0xF0) |||
              (1 <<< (toUint32 (quarter_index + 2) &&& 3))) % 256 }))
      else .ok (0, s)

/-! ## Multi-tile track operations -/

/-- One entry of a track piece template (`rct_preview_track`): sequence index and the offsets
of the sub-part.  An entry with index 255 ends the template. -/
structure rct_preview_track where
  index : Nat
  x : Int
  y : Int
  z : Int
deriving DecidableEq, Repr

/-- The first `switch (originDirection)` of the track operations: the origin of the piece,
from the position and the template entry of the selected sub-part. -/
def trackOrigin (originDirection : Nat) (originX originY : Int) (trackBlock : rct_preview_track) :
    Int × Int :=
  if originDirection = 0 then
    (toSint16 (originX - trackBlock.x), toSint16 (originY - trackBlock.y))
  else if originDirection = 1 then
    (toSint16 (originX - trackBlock.y), toSint16 (originY + trackBlock.x))
  else if originDirection = 2 then
    (toSint16 (originX + trackBlock.x), toSint16 (originY + trackBlock.y))
  else if originDirection = 3 then
    (toSint16 (originX + trackBlock.y), toSint16 (originY - trackBlock.x))
  else (originX, originY)

/-- The second `switch (originDirection)` of the track operations: the position of a
sub-part, from the origin and the template entry. -/
def trackElemPosition (originDirection : Nat) (originX originY : Int)
    (trackBlock : rct_preview_track) : Int × Int :=
  if originDirection = 0 then
    (toSint16 (originX + trackBlock.x), toSint16 (originY + trackBlock.y))
  else if originDirection = 1 then
    (toSint16 (originX + trackBlock.y), toSint16 (originY - trackBlock.x))
  else if originDirection = 2 then
    (toSint16 (originX - trackBlock.x), toSint16 (originY - trackBlock.y))
  else if originDirection = 3 then
    (toSint16 (originX - trackBlock.y), toSint16 (originY + trackBlock.x))
  else (originX, originY)

/-- The five tests of the search loop of the track operations on one element.  For a Track
element the payload bytes are `type`, `sequence`, `colour`, `ride_index`. -/
def trackPartMatches (elem_z : Int) (rotation index type : Nat) (e : rct_map_element) : Bool :=
  decide ((e.base_height : Int) = Int.tdiv elem_z 8) &&
  decide (map_element_get_type e = MAP_ELEMENT_TYPE_TRACK) &&
  decide (e.type &&& MAP_ELEMENT_DIRECTION_MASK = rotation) &&
  decide (e.properties1 &&& 0x0F = index) &&
  decide (e.properties0 = type)

/-- The search loop `do ... while (!map_element_is_last_for_tile(map_element++))` of the
track operations: the slot of the first matching element of the run, if there is one. -/
def findTrackPart (elem_z : Int) (rotation index type : Nat) :
    List rct_map_element → Except Failure (Option Nat)
  | [] => .error .out_of_tile
  | e :: rest =>
    if trackPartMatches elem_z rotation index type e then .ok (some 0)
    else if map_element_is_last_for_tile e then .ok none
    else match findTrackPart elem_z rotation index type rest with
      | .ok (some k) => .ok (some (k + 1))
      | .ok none => .ok none
      | .error err => .error err

/-- The statement `if (track_element_is_lift_hill(e) != set_chain) e->type ^= TRACK_ELEMENT_FLAG_CHAIN_LIFT`. -/
def setChainLift (set_chain : Bool) (e : rct_map_element) : rct_map_element :=
  if track_element_is_lift_hill e != set_chain then
    { e with type := e.type ^^^ TRACK_ELEMENT_FLAG_CHAIN_LIFT }
  else e

/-- The statements `e->base_height += offset; e->clearance_height += offset`. -/
def offsetHeights (offset : Int) (e : rct_map_element) : rct_map_element :=
  { e with
    base_height := toUint8 ((e.base_height : Int) + offset)
    clearance_height := toUint8 ((e.clearance_height : Int) + offset) }

/-- The loop `for (; trackBlock->index != 255; trackBlock++)` of the track operations, with
the write to a located sub-part given by `change`: the return value when a sub-part is
missing, and the state reached. -/
def trackBlockLoop (change : rct_map_element → rct_map_element) (originDirection : Nat)
    (originX originY originZ : Int) (rotation type : Nat) :
    List rct_preview_track → GameState → Except Failure (Int × GameState)
  | [], _ => .error .out_of_template
  | trackBlock :: rest, s =>
    if trackBlock.index = 255 then .ok (0, s)
    else
      let elem_x := (trackElemPosition originDirection originX originY trackBlock).1
      let elem_y := (trackElemPosition originDirection originX originY trackBlock).2
      let elem_z := toSint16 (originZ + trackBlock.z)
      match findTrackPart elem_z rotation trackBlock.index type
          (s.tiles (elem_x / 32) (elem_y / 32)) with
      | .error err => .error err
      | .ok none => .ok (MONEY32_UNDEFINED, s)
      | .ok (some k) =>
        match map_get_surface_element_at (s.tiles (elem_x / 32) (elem_y / 32)) with
        | none => .error .assertion
        | some _ =>
          trackBlockLoop change originDirection originX originY originZ rotation type rest
            (setTile s (elem_x / 32) (elem_y / 32)
              (modifyAt (s.tiles (elem_x / 32) (elem_y / 32)) k change))

/-- The origin of the piece in `x`, `y` and `z`, from the tile of the selected sub-part, its
element and its template entry: `originX = x << 5`, `originY = y << 5`,
`originZ = base_height * 8`, the first `switch (originDirection)` and
`originZ -= trackBlock->z`. -/
def trackPieceOrigin (x y : Int) (track_element : rct_map_element)
    (trackBlock : rct_preview_track) : Int × Int × Int :=
  ((trackOrigin (map_element_get_direction track_element) (toSint16 (x * 32))
      (toSint16 (y * 32)) trackBlock).1,
   (trackOrigin (map_element_get_direction track_element) (toSint16 (x * 32))
      (toSint16 (y * 32)) trackBlock).2,
   toSint16 (toSint16 ((track_element.base_height : Int) * 8) - trackBlock.z))

/-- The part of the track operations from the read of the selected element's fields to the
end of the loop.  `get_track_def_from_ride` (ride data) is not among the sources and is a
parameter, given the ride index and the track type. -/
def trackBlockRun (get_track_def_from_ride : Nat → Nat → List rct_preview_track)
    (change : rct_map_element → rct_map_element) (s : GameState) (x y : Int)
    (track_element : rct_map_element) : Except Failure (Int × GameState) :=
  match (get_track_def_from_ride track_element.properties3 track_element.properties0)[
      track_element.properties1 &&& 0x0F]? with
  | none => .error .out_of_template
  | some trackBlock =>
    trackBlockLoop change (map_element_get_direction track_element)
      (trackPieceOrigin x y track_element trackBlock).1
      (trackPieceOrigin x y track_element trackBlock).2.1
      (trackPieceOrigin x y track_element trackBlock).2.2
      (map_element_get_direction track_element) track_element.properties0
      (get_track_def_from_ride track_element.properties3 track_element.properties0) s

/-- The function `tile_inspector_track_base_height_offset`: return value and state after the
call. -/
def tile_inspector_track_base_height_offset
    (get_track_def_from_ride : Nat → Nat → List rct_preview_track)
    (s : GameState) (x y : Int) (element_index : Int) (offset : Int) (flags : Nat) :
    Except Failure (Int × GameState) :=
  if offset = 0 then .ok (MONEY32_UNDEFINED, s)
  else if element_index < 0 then .error .out_of_tile
  else
    match (s.tiles x y)[element_index.toNat]? with
    | none => .error .out_of_tile
    | some track_element =>
      if map_element_get_type track_element ≠ MAP_ELEMENT_TYPE_TRACK then
        .ok (MONEY32_UNDEFINED, s)
      else if flags &&& GAME_COMMAND_FLAG_APPLY ≠ 0 then
        trackBlockRun get_track_def_from_ride (offsetHeights offset) s x y track_element
      else .ok (0, s)

/-- The function `tile_inspector_track_set_chain`: return value and state after the call. -/
def tile_inspector_track_set_chain
    (get_track_def_from_ride : Nat → Nat → List rct_preview_track)
    (s : GameState) (x y : Int) (element_index : Int) (entire_track_block set_chain : Bool)
    (flags : Nat) : Except Failure (Int × GameState) :=
  if element_index < 0 then .error .out_of_tile
  else
    match (s.tiles x y)[element_index.toNat]? with
    | none => .error .out_of_tile
    | some track_element =>
      if map_element_get_type track_element ≠ MAP_ELEMENT_TYPE_TRACK then
        .ok (MONEY32_UNDEFINED, s)
      else if flags &&& GAME_COMMAND_FLAG_APPLY ≠ 0 then
        if !entire_track_block then
          -- set chain for only the selected piece
          .ok (0, setTile s x y ((s.tiles x y).set element_index.toNat
            (setChainLift set_chain track_element)))
        else trackBlockRun get_track_def_from_ride (setChainLift set_chain) s x y track_element
      else .ok (0, s)

/-! ## Order of the sort -/

/-- Non-decreasing order of (base height, then clearance height), compared
lexicographically. -/
def heightLe (a b : rct_map_element) : Prop :=
  a.base_height < b.base_height ∨
    (a.base_height = b.base_height ∧ a.clearance_height ≤ b.clearance_height)

instance (a b : rct_map_element) : Decidable (heightLe a b) := by
  unfold heightLe; infer_instance

/-- The converse of `heightLe`, the order of a run read from its end. -/
def heightGe (a b : rct_map_element) : Prop := heightLe b a

instance : DecidableRel heightGe := fun a b => by
  unfold heightGe; infer_instance

instance : IsTotal rct_map_element heightGe :=
  ⟨fun a b => by unfold heightGe heightLe; omega⟩

instance : IsTrans rct_map_element heightGe :=
  ⟨fun a b c => by unfold heightGe heightLe; omega⟩

/-- The elements of a run that have the given base and clearance heights. -/
def hasHeights (base clearance : Nat) (e : rct_map_element) : Bool :=
  decide (e.base_height = base) && decide (e.clearance_height = clearance)

/-! ## Sample data -/

/-- A sample element with the given base height, clearance height and flags byte. -/
def exampleElement (base clearance flags : Nat) : rct_map_element :=
  { type := 0, flags := flags, base_height := base, clearance_height := clearance,
    properties0 := 0, properties1 := 0, properties2 := 0, properties3 := 0 }

/-- A sample tile with elements A, B, C of base heights 5, 3, 4. -/
def exampleTile : List rct_map_element :=
  [exampleElement 5 6 0, exampleElement 3 8 0, exampleElement 4 4 0x80]

/-- A sample state: every tile holds the sample run, five slots are free and the inspector
window shows tile `(0, 0)` with element 1 selected. -/
def exampleState : GameState :=
  { tiles := fun _ _ => exampleTile
    free_elements := 5
    tile_inspector_window := some { selected_list_item := 1, page := tile_inspector_page.default }
    windowTileInspectorTileX := 0
    windowTileInspectorTileY := 0
    windowTileInspectorElementCount := 3 }

/-- A sample run of 32767 elements: 32766 copies of an element of heights 3, 8 and a final
element that carries the terminal flag. -/
def longTile : List rct_map_element :=
  List.replicate 32766 (exampleElement 3 8 0) ++ [exampleElement 4 4 0x80]

/-- A sample run of 32768 elements: an element of heights 5, 6 followed by the run of 32767
elements. -/
def largeTile : List rct_map_element := exampleElement 5 6 0 :: longTile

/-- A sample state: every tile holds the run of 32767 elements and five slots are free. -/
def longState : GameState :=
  { tiles := fun _ _ => longTile
    free_elements := 5
    tile_inspector_window := none
    windowTileInspectorTileX := 0
    windowTileInspectorTileY := 0
    windowTileInspectorElementCount := 0 }

/-- A sample state: every tile holds the run of 32768 elements. -/
def largeState : GameState :=
  { tiles := fun _ _ => largeTile
    free_elements := 5
    tile_inspector_window := none
    windowTileInspectorTileX := 0
    windowTileInspectorTileY := 0
    windowTileInspectorElementCount := 0 }

/-- A sample tile with two elements of equal heights 3, 8, told apart by their first payload
byte, below and above an element of heights 2, 4 and an element of heights 5, 6. -/
def exampleTieTile : List rct_map_element :=
  [exampleElement 5 6 0, { exampleElement 3 8 0 with properties0 := 1 }, exampleElement 2 4 0,
   { exampleElement 3 8 0x80 with properties0 := 2 }]

/-- A sample state whose tiles hold the sample tile with equal heights. -/
def exampleTieState : GameState :=
  { tiles := fun _ _ => exampleTieTile
    free_elements := 5
    tile_inspector_window := none
    windowTileInspectorTileX := 0
    windowTileInspectorTileY := 0
    windowTileInspectorElementCount := 0 }

/-- A sample surface element: flat, base height 254. -/
def exampleHighSurface : rct_map_element :=
  { type := 0, flags := 0x80, base_height := 254, clearance_height := 254,
    properties0 := 0, properties1 := 0, properties2 := 0, properties3 := 0 }

/-- A sample state whose tiles hold the surface element of base height 254 only. -/
def exampleHighSurfaceState : GameState :=
  { tiles := fun _ _ => [exampleHighSurface]
    free_elements := 5
    tile_inspector_window := none
    windowTileInspectorTileX := 0
    windowTileInspectorTileY := 0
    windowTileInspectorElementCount := 0 }

/-- A sample surface element: diagonal slope with the corners 0, 1 and 2 raised, base height
10. -/
def exampleSurface : rct_map_element :=
  { type := 0, flags := 0x80, base_height := 10, clearance_height := 12,
    properties0 := 0x17, properties1 := 0, properties2 := 0, properties3 := 0 }

/-- A sample state whose tiles hold the sample surface element only. -/
def exampleSurfaceState : GameState :=
  { tiles := fun _ _ => [exampleSurface]
    free_elements := 5
    tile_inspector_window := none
    windowTileInspectorTileX := 0
    windowTileInspectorTileY := 0
    windowTileInspectorElementCount := 0 }

/-- A sample tile for the rotation: a surface element, a sloped Path element with edges byte
0x81, a Track element and a Banner element at position 3 with flags 0x09. -/
def exampleRotateTile : List rct_map_element :=
  [{ type := 0, flags := 0, base_height := 10, clearance_height := 10,
     properties0 := 0, properties1 := 0, properties2 := 0, properties3 := 0 },
   { type := 4, flags := 0, base_height := 10, clearance_height := 14,
     properties0 := 5, properties1 := 0, properties2 := 0x81, properties3 := 0 },
   { type := 0x8B, flags := 0, base_height := 12, clearance_height := 16,
     properties0 := 7, properties1 := 0, properties2 := 0, properties3 := 9 },
   { type := 28, flags := 0x80, base_height := 20, clearance_height := 24,
     properties0 := 1, properties1 := 3, properties2 := 0x09, properties3 := 0 }]

/-- A sample state whose tiles hold the sample tile for the rotation. -/
def exampleRotateState : GameState :=
  { tiles := fun _ _ => exampleRotateTile
    free_elements := 5
    tile_inspector_window := none
    windowTileInspectorTileX := 0
    windowTileInspectorTileY := 0
    windowTileInspectorElementCount := 0 }

/-! ## Sub-parts of a track piece -/

/-- The search of the track operations for the sub-part of a template entry, at the state
`s`: the slot found on the entry's tile. -/
def locateTrackPart (s : GameState) (originDirection : Nat) (originX originY originZ : Int)
    (rotation type : Nat) (trackBlock : rct_preview_track) : Except Failure (Option Nat) :=
  findTrackPart (toSint16 (originZ + trackBlock.z)) rotation trackBlock.index type
    (s.tiles ((trackElemPosition originDirection originX originY trackBlock).1 / 32)
      ((trackElemPosition originDirection originX originY trackBlock).2 / 32))

/-- The element that the search of the track operations finds for a template entry at the
state `s`, if it finds one. -/
def trackSubPart (s : GameState) (originDirection : Nat) (originX originY originZ : Int)
    (rotation type : Nat) (trackBlock : rct_preview_track) : Option rct_map_element :=
  match locateTrackPart s originDirection originX originY originZ rotation type trackBlock with
  | .ok (some k) =>
    (s.tiles ((trackElemPosition originDirection originX originY trackBlock).1 / 32)
      ((trackElemPosition originDirection originX originY trackBlock).2 / 32))[k]?
  | _ => none

/-- An element after chain-lift writes with the value `set_chain`: as it was, or with the
chain-lift write applied. -/
def chainLiftStep (set_chain : Bool) (e e1 : rct_map_element) : Prop :=
  e1 = e ∨ e1 = setChainLift set_chain e

/-- The state `s1` differs from `s` by chain-lift writes with the value `set_chain` only:
every element of every tile is as it was or has had the write applied, and nothing else
has changed. -/
def ChainLiftOnly (set_chain : Bool) (s s1 : GameState) : Prop :=
  (∀ a b, List.Forall₂ (chainLiftStep set_chain) (s.tiles a b) (s1.tiles a b)) ∧
  s1.free_elements = s.free_elements ∧
  s1.tile_inspector_window = s.tile_inspector_window ∧
  s1.windowTileInspectorTileX = s.windowTileInspectorTileX ∧
  s1.windowTileInspectorTileY = s.windowTileInspectorTileY ∧
  s1.windowTileInspectorElementCount = s.windowTileInspectorElementCount

/-- A sample template of two sub-parts, the second one tile to the west of the first. -/
def exampleTrackDef : Nat → Nat → List rct_preview_track :=
  fun _ _ => [{ index := 0, x := 0, y := 0, z := 0 }, { index := 1, x := -32, y := 0, z := 0 },
    { index := 255, x := 0, y := 0, z := 0 }]

/-- A sample state: tile `(0, 0)` holds a surface element and the first sub-part of a track
piece, without chain lift; every other tile holds a surface element only, so that the
second sub-part is missing. -/
def exampleTrackState : GameState :=
  { tiles := fun a b =>
      if a = 0 ∧ b = 0 then
        [{ type := 0, flags := 0, base_height := 2, clearance_height := 2,
           properties0 := 0, properties1 := 0, properties2 := 0, properties3 := 0 },
         { type := 8, flags := 0x80, base_height := 2, clearance_height := 3,
           properties0 := 7, properties1 := 0, properties2 := 0, properties3 := 9 }]
      else
        [{ type := 0, flags := 0x80, base_height := 2, clearance_height := 2,
           properties0 := 0, properties1 := 0, properties2 := 0, properties3 := 0 }]
    free_elements := 5
    tile_inspector_window := none
    windowTileInspectorTileX := 0
    windowTileInspectorTileY := 0
    windowTileInspectorElementCount := 0 }

/-! ## Sample Scenery and Fence elements -/

/-- A sample tile: a surface element, a Scenery element in quadrant 3 with direction 1 and
collision nibble 2, and a Fence element with slope bits 0x80 and direction 1 that carries
the terminal flag. -/
def exampleFenceTile : List rct_map_element :=
  [{ type := 0, flags := 0, base_height := 10, clearance_height := 10,
     properties0 := 0, properties1 := 0, properties2 := 0, properties3 := 0 },
   { type := 0xCD, flags := 0x42, base_height := 10, clearance_height := 12,
     properties0 := 3, properties1 := 0, properties2 := 0, properties3 := 0 },
   { type := 0x95, flags := 0x80, base_height := 10, clearance_height := 14,
     properties0 := 2, properties1 := 0, properties2 := 0, properties3 := 0 }]

/-- A sample state whose tiles hold the sample Scenery and Fence elements. -/
def exampleFenceState : GameState :=
  { tiles := fun _ _ => exampleFenceTile
    free_elements := 5
    tile_inspector_window := none
    windowTileInspectorTileX := 0
    windowTileInspectorTileY := 0
    windowTileInspectorElementCount := 0 }

/-! ## Dry runs -/

/-- A call at state `s` that, whenever it returns, returns the state `s` itself, so that
the call can be repeated with the same return value and the same state. -/
def LeavesState (f : GameState → Except Failure (Int × GameState)) (s : GameState) : Prop :=
  ∀ r s1, f s = .ok (r, s1) → s1 = s ∧ f s1 = .ok (r, s1)

/-- A call at state `s` that returns with the state `s` unchanged. -/
def ReturnsUnchanged (f : GameState → Except Failure (Int × GameState)) (s : GameState) :
    Prop :=
  ∃ r, f s = .ok (r, s)

/-! ## Terminal flag arithmetic -/

theorem and_last_flag (x : Nat) :
    (x &&& MAP_ELEMENT_FLAG_LAST_TILE != 0) = x.testBit 7 := by
  rw [show MAP_ELEMENT_FLAG_LAST_TILE = 2 ^ 7 by rfl, Nat.and_two_pow]
  cases x.testBit 7 <;> simp

theorem testBit_last_flag (k : Nat) :
    MAP_ELEMENT_FLAG_LAST_TILE.testBit k = decide (7 = k) := by
  rw [show MAP_ELEMENT_FLAG_LAST_TILE = 2 ^ 7 by rfl, Nat.testBit_two_pow]

theorem isLast_toggle (e : rct_map_element) :
    map_element_is_last_for_tile (toggleLastFlag e) = !map_element_is_last_for_tile e := by
  simp only [map_element_is_last_for_tile, toggleLastFlag, and_last_flag, Nat.testBit_xor,
    testBit_last_flag]
  simp

theorem toggle_toggle (e : rct_map_element) : toggleLastFlag (toggleLastFlag e) = e := by
  cases e
  simp [toggleLastFlag, Nat.xor_assoc]

theorem xor_or_last_flag (x : Nat) :
    (x ^^^ MAP_ELEMENT_FLAG_LAST_TILE) ||| MAP_ELEMENT_FLAG_LAST_TILE
      = x ||| MAP_ELEMENT_FLAG_LAST_TILE := by
  apply Nat.eq_of_testBit_eq
  intro k
  simp only [Nat.testBit_or, Nat.testBit_xor, testBit_last_flag]
  by_cases h : 7 = k <;> simp [h]

theorem sameExceptLastFlag_refl (e : rct_map_element) : sameExceptLastFlag e e := rfl

theorem sameExceptLastFlag_symm {a b : rct_map_element} (h : sameExceptLastFlag a b) :
    sameExceptLastFlag b a := Eq.symm h

theorem sameExceptLastFlag_trans {a b c : rct_map_element} (h : sameExceptLastFlag a b)
    (h2 : sameExceptLastFlag b c) : sameExceptLastFlag a c := Eq.trans h h2

theorem sameExceptLastFlag_toggle (e : rct_map_element) :
    sameExceptLastFlag (toggleLastFlag e) e := by
  cases e
  simp [sameExceptLastFlag, withLastFlag, toggleLastFlag, xor_or_last_flag]

/-- Elements that agree apart from the terminal flag and agree on the terminal flag are
equal. -/
theorem eq_of_sameExceptLastFlag {a b : rct_map_element} (h : sameExceptLastFlag a b)
    (hl : map_element_is_last_for_tile a = map_element_is_last_for_tile b) : a = b := by
  cases a with
  | mk ty fl bh ch p0 p1 p2 p3 =>
  cases b with
  | mk ty2 fl2 bh2 ch2 q0 q1 q2 q3 =>
  simp only [sameExceptLastFlag, withLastFlag, rct_map_element.mk.injEq] at h
  simp only [map_element_is_last_for_tile, and_last_flag] at hl
  obtain ⟨h1, h2, h3, h4, h5, h6, h7, h8⟩ := h
  subst h1 h3 h4 h5 h6 h7 h8
  have : fl = fl2 := by
    apply Nat.eq_of_testBit_eq
    intro k
    by_cases hk : 7 = k
    · subst hk; exact hl
    · have := congrArg (fun v => Nat.testBit v k) h2
      simpa [Nat.testBit_or, testBit_last_flag, hk] using this
  rw [this]

/-! ## Well-formed runs -/

theorem wellFormedTile_cons_cons (e e2 : rct_map_element) (rest : List rct_map_element) :
    wellFormedTile (e :: e2 :: rest)
      = (!map_element_is_last_for_tile e && wellFormedTile (e2 :: rest)) := rfl

theorem wellFormedTile_ne_nil {t : List rct_map_element} (h : wellFormedTile t = true) :
    t ≠ [] := by
  intro h0
  subst h0
  simp [wellFormedTile] at h

/-- Index form of the tile invariant. -/
theorem wellFormedTile_iff (t : List rct_map_element) :
    wellFormedTile t = true ↔
      t ≠ [] ∧ ∀ i (h : i < t.length),
        map_element_is_last_for_tile t[i] = decide (i + 1 = t.length) := by
  induction t with
  | nil => simp [wellFormedTile]
  | cons e rest ih =>
    cases rest with
    | nil =>
      simp only [wellFormedTile, List.length_singleton, ne_eq, List.cons_ne_self,
        not_false_eq_true, true_and]
      constructor
      · intro h i hi
        have : i = 0 := by omega
        subst this
        simpa using h
      · intro h
        simpa using h 0 (by simp)
    | cons e2 rest2 =>
      rw [wellFormedTile_cons_cons, Bool.and_eq_true, ih]
      simp only [ne_eq, reduceCtorEq, not_false_eq_true, true_and, List.length_cons]
      constructor
      · rintro ⟨h1, h2⟩ i hi
        cases i with
        | zero => simpa using h1
        | succ j =>
          have := h2 j (by simpa using hi)
          simpa using this
      · intro h
        refine ⟨?_, ?_⟩
        · simpa using h 0 (by simp)
        · intro i hi
          have := h (i + 1) (by simpa using hi)
          simpa using this

theorem wellFormedTile_isLast {t : List rct_map_element} (h : wellFormedTile t = true)
    (i : Nat) (hi : i < t.length) :
    map_element_is_last_for_tile t[i] = decide (i + 1 = t.length) :=
  ((wellFormedTile_iff t).1 h).2 i hi

theorem wellFormedTile_of_index {t : List rct_map_element} (h0 : 0 < t.length)
    (h : ∀ i (hi : i < t.length),
      map_element_is_last_for_tile t[i] = decide (i + 1 = t.length)) :
    wellFormedTile t = true :=
  (wellFormedTile_iff t).2 ⟨List.ne_nil_of_length_pos h0, h⟩

theorem toSint16_toSint16_add (a b : Int) : toSint16 (toSint16 a + b) = toSint16 (a + b) := by
  unfold toSint16
  omega

theorem toSint32_toSint32_add (a b : Int) : toSint32 (toSint32 a + b) = toSint32 (a + b) := by
  unfold toSint32
  omega

theorem toSint16_natCast (n : Nat) (h : n < 32768) : toSint16 (n : Int) = (n : Int) := by
  unfold toSint16
  omega

theorem toSint32_natCast (n : Nat) (h : n < 2147483648) : toSint32 (n : Int) = (n : Int) := by
  unfold toSint32
  omega

theorem elementCountLoop_of_wellFormed : ∀ (t : List rct_map_element) (c : Int),
    wellFormedTile t = true → elementCountLoop c t = some (toSint16 (c + t.length)) := by
  intro t
  induction t with
  | nil => intro c h; simp [wellFormedTile] at h
  | cons e rest ih =>
    intro c h
    cases rest with
    | nil =>
      simp only [wellFormedTile] at h
      simp [elementCountLoop, h]
    | cons e2 rest2 =>
      rw [wellFormedTile_cons_cons, Bool.and_eq_true] at h
      have h1 : map_element_is_last_for_tile e = false := by simpa using h.1
      rw [elementCountLoop, h1, if_neg (by simp), ih _ h.2, toSint16_toSint16_add]
      congr 2
      simp only [List.length_cons]
      push_cast
      omega

theorem numElementLoop_of_wellFormed : ∀ (t : List rct_map_element) (c : Int),
    wellFormedTile t = true → numElementLoop c t = some (toSint32 (c + t.length)) := by
  intro t
  induction t with
  | nil => intro c h; simp [wellFormedTile] at h
  | cons e rest ih =>
    intro c h
    cases rest with
    | nil =>
      simp only [wellFormedTile] at h
      simp [numElementLoop, h]
    | cons e2 rest2 =>
      rw [wellFormedTile_cons_cons, Bool.and_eq_true] at h
      have h1 : map_element_is_last_for_tile e = false := by simpa using h.1
      rw [numElementLoop, h1, if_neg (by simp), ih _ h.2, toSint32_toSint32_add]
      congr 2
      simp only [List.length_cons]
      push_cast
      omega

/-- The wrapped `sint16` count of a well-formed run. -/
theorem elementCount_of_wellFormed {t : List rct_map_element} (h : wellFormedTile t = true) :
    elementCount t = some (toSint16 (t.length : Int)) := by
  rw [elementCount, elementCountLoop_of_wellFormed t 0 h, Int.zero_add]

/-- The count of a well-formed run of at most 32767 elements is its length. -/
theorem elementCount_of_wellFormed_small {t : List rct_map_element}
    (h : wellFormedTile t = true) (hlen : t.length < 32768) :
    elementCount t = some (t.length : Int) := by
  rw [elementCount_of_wellFormed h, toSint16_natCast _ hlen]

/-- The `sint32` count of the sort on a well-formed run of at most 32767 elements. -/
theorem numElementLoop_of_wellFormed_small {t : List rct_map_element}
    (h : wellFormedTile t = true) (hlen : t.length < 32768) :
    numElementLoop 0 t = some (t.length : Int) := by
  rw [numElementLoop_of_wellFormed t 0 h, Int.zero_add, toSint32_natCast _ (by omega)]

/-- Two well-formed runs of the same length whose elements agree slot by slot, the terminal
flag aside, are equal. -/
theorem eq_of_wellFormed_of_same {t u : List rct_map_element} (ht : wellFormedTile t = true)
    (hu : wellFormedTile u = true) (hlen : t.length = u.length)
    (h : ∀ i (h1 : i < t.length) (h2 : i < u.length),
      sameExceptLastFlag t[i] u[i]) : t = u := by
  apply List.ext_getElem hlen
  intro i h1 h2
  apply eq_of_sameExceptLastFlag (h i h1 h2)
  have a := wellFormedTile_isLast ht i h1
  have b := wellFormedTile_isLast hu i h2
  rw [a, b, hlen]

theorem wellFormedTile_cons {e : rct_map_element} {t : List rct_map_element}
    (he : map_element_is_last_for_tile e = false) (ht : wellFormedTile t = true) :
    wellFormedTile (e :: t) = true := by
  cases t with
  | nil => simp [wellFormedTile] at ht
  | cons e2 rest => rw [wellFormedTile_cons_cons, he, ht]; rfl


/-! ## map_swap_elements_at on a well-formed run -/

theorem isLastAt_eq {t : List rct_map_element} (i : Nat) (hi : i < t.length) :
    isLastAt t i = map_element_is_last_for_tile t[i] := by
  simp [isLastAt, List.getElem?_eq_getElem hi]

theorem modifyAt_eq {t : List rct_map_element} (i : Nat) (hi : i < t.length)
    (g : rct_map_element → rct_map_element) : modifyAt t i g = t.set i (g t[i]) := by
  simp [modifyAt, List.getElem?_eq_getElem hi]

theorem modifyAt_length (t : List rct_map_element) (i : Nat)
    (g : rct_map_element → rct_map_element) : (modifyAt t i g).length = t.length := by
  unfold modifyAt
  split <;> simp

/-- The checks of `map_swap_elements_at` pass on a well-formed run of at most 32767 elements
with two valid indices, and the body runs on the values read from the two slots. -/
theorem map_swap_elements_at_body {t : List rct_map_element} (hwf : wellFormedTile t = true)
    (hlen : t.length < 32768)
    (f s : Nat) (hf : f < t.length) (hs : s < t.length) (h2 : 2 ≤ t.length) :
    map_swap_elements_at t (f : Int) (s : Int) =
      (if isLastAt ((t.set f t[s]).set s t[f]) f || isLastAt ((t.set f t[s]).set s t[f]) s then
        .ok (modifyAt (modifyAt ((t.set f t[s]).set s t[f]) f toggleLastFlag) s toggleLastFlag)
      else .ok ((t.set f t[s]).set s t[f])) := by
  cases t with
  | nil => simp at hf
  | cons e0 rest =>
    have h0 : map_element_is_last_for_tile e0 = false := by
      have := wellFormedTile_isLast hwf 0 (by simp)
      simp only [List.getElem_cons_zero] at this
      rw [this]
      have hl : (e0 :: rest).length = rest.length + 1 := rfl
      simp only [decide_eq_false_iff_not]
      omega
    have hmax : ((e0 :: rest).length : Int) > max (f : Int) (s : Int) := by
      have : max (f : Int) (s : Int) = ((max f s : Nat) : Int) := by
        simp [Nat.cast_max]
      rw [this]
      have : max f s < (e0 :: rest).length := by
        rcases Nat.le_total f s with h | h
        · rw [Nat.max_eq_right h]; exact hs
        · rw [Nat.max_eq_left h]; exact hf
      exact_mod_cast this
    have hneg : ¬ ((f : Int) < 0 ∨ (s : Int) < 0) := by omega
    have hf16 : toSint16 (f : Int) = (f : Int) := toSint16_natCast f (by omega)
    have hs16 : toSint16 (s : Int) = (s : Int) := toSint16_natCast s (by omega)
    simp only [map_swap_elements_at, h0, elementCount_of_wellFormed_small hwf hlen, hf16, hs16,
      hmax, hneg,
      Int.toNat_ofNat, List.getElem?_eq_getElem hf, List.getElem?_eq_getElem hs]
    simp

theorem map_swap_elements_at_self {t : List rct_map_element} (hwf : wellFormedTile t = true)
    (hlen : t.length < 32768) (f : Nat) (hf : f < t.length) (h2 : 2 ≤ t.length) :
    map_swap_elements_at t (f : Int) (f : Int) = .ok t := by
  rw [map_swap_elements_at_body hwf hlen f f hf hf h2]
  have e1 : (t.set f t[f]).set f t[f] = t := by
    apply List.ext_getElem (by simp)
    intro i h1 h2
    simp only [List.getElem_set]
    split <;> simp_all
  rw [e1]
  split
  · rw [modifyAt_eq f hf, modifyAt_eq f (by simpa using hf)]
    congr 1
    apply List.ext_getElem (by simp)
    intro i h1 h2
    simp only [List.getElem_set]
    split
    · simp_all [toggle_toggle]
    · rfl
  · rfl

/-- The run after `map_swap_elements_at` for two different valid indices. -/
theorem map_swap_elements_at_ne {t : List rct_map_element} (hwf : wellFormedTile t = true)
    (hlen : t.length < 32768) (f s : Nat) (hf : f < t.length) (hs : s < t.length) (hne : f ≠ s) :
    map_swap_elements_at t (f : Int) (s : Int) =
      .ok (if f + 1 = t.length ∨ s + 1 = t.length then
          (t.set f (toggleLastFlag t[s])).set s (toggleLastFlag t[f])
        else (t.set f t[s]).set s t[f]) := by
  have h2 : 2 ≤ t.length := by omega
  rw [map_swap_elements_at_body hwf hlen f s hf hs h2]
  have hcond : (isLastAt ((t.set f t[s]).set s t[f]) f || isLastAt ((t.set f t[s]).set s t[f]) s)
      = decide (f + 1 = t.length ∨ s + 1 = t.length) := by
    rw [isLastAt_eq f (by simpa using hf), isLastAt_eq s (by simpa using hs)]
    simp only [List.getElem_set, if_neg (Ne.symm hne), if_true, if_pos rfl]
    rw [wellFormedTile_isLast hwf s hs, wellFormedTile_isLast hwf f hf]
    by_cases a : f + 1 = t.length <;> by_cases b : s + 1 = t.length <;> simp [a, b]
  rw [hcond]
  by_cases hc : f + 1 = t.length ∨ s + 1 = t.length
  · simp only [hc, decide_True, if_true]
    congr 1
    rw [modifyAt_eq f (by simpa using hf), modifyAt_eq s (by simpa using hs)]
    apply List.ext_getElem (by simp)
    intro i h1 h2
    simp only [List.getElem_set]
    by_cases a : s = i <;> by_cases b : f = i <;> simp_all
  · simp [hc]

/-- What `map_swap_elements_at` does to a well-formed run of at least two elements. -/
theorem map_swap_elements_at_spec {t : List rct_map_element} (hwf : wellFormedTile t = true)
    (hlen : t.length < 32768) (f s : Nat) (hf : f < t.length) (hs : s < t.length) (h2 : 2 ≤ t.length) :
    ∃ t1, map_swap_elements_at t (f : Int) (s : Int) = .ok t1 ∧ t1.length = t.length ∧
      wellFormedTile t1 = true ∧
      (∀ i, i ≠ f → i ≠ s → t1[i]? = t[i]?) ∧
      (∃ a b, t1[f]? = some a ∧ t1[s]? = some b ∧
        sameExceptLastFlag a t[s] ∧ sameExceptLastFlag b t[f]) := by
  by_cases hne : f = s
  · subst hne
    exact ⟨t, map_swap_elements_at_self hwf hlen f hf h2, rfl, hwf, fun _ _ _ => rfl,
      t[f], t[f], List.getElem?_eq_getElem hf, List.getElem?_eq_getElem hf,
      sameExceptLastFlag_refl _, sameExceptLastFlag_refl _⟩
  · refine ⟨_, map_swap_elements_at_ne hwf hlen f s hf hs hne, ?_, ?_, ?_, ?_⟩
    · split <;> simp
    · apply wellFormedTile_of_index
      · split <;> simp <;> omega
      · intro i hi
        have hi2 : i < t.length := by
          split at hi <;> simpa using hi
        have hlen : ∀ c : Prop, ∀ [Decidable c], (if c then
            (t.set f (toggleLastFlag t[s])).set s (toggleLastFlag t[f])
            else (t.set f t[s]).set s t[f]).length = t.length := by
          intro c _; split <;> simp
        rw [hlen]
        have hF := wellFormedTile_isLast hwf f hf
        have hS := wellFormedTile_isLast hwf s hs
        have hI := wellFormedTile_isLast hwf i hi2
        by_cases hc : f + 1 = t.length ∨ s + 1 = t.length
        · simp only [hc, if_true, List.getElem_set]
          by_cases a : s = i
          · subst a
            simp only [if_true, isLast_toggle, hF]
            by_cases b : f + 1 = t.length <;> simp [b] <;> omega
          · by_cases b : f = i
            · subst b
              simp only [if_neg a, if_true, isLast_toggle, hS]
              by_cases c : s + 1 = t.length <;> simp [c] <;> omega
            · simp only [if_neg a, if_neg b, hI]
        · simp only [hc, if_false, List.getElem_set]
          by_cases a : s = i
          · subst a
            simp only [if_true, hF]
            simp only [not_or] at hc
            simp [hc.1, hc.2]
          · by_cases b : f = i
            · subst b
              simp only [if_neg a, if_true, hS]
              simp only [not_or] at hc
              simp [hc.1, hc.2]
            · simp only [if_neg a, if_neg b, hI]
    · intro i h1 h2
      split <;> simp [List.getElem?_set, Ne.symm h1, Ne.symm h2]
    · by_cases hc : f + 1 = t.length ∨ s + 1 = t.length
      · refine ⟨toggleLastFlag t[s], toggleLastFlag t[f], ?_, ?_,
          sameExceptLastFlag_toggle _, sameExceptLastFlag_toggle _⟩
        · simp [hc, List.getElem?_set, Ne.symm hne, hne, hf]
        · simp [hc, List.getElem?_set, hs]
      · refine ⟨t[s], t[f], ?_, ?_, sameExceptLastFlag_refl _, sameExceptLastFlag_refl _⟩
        · simp [hc, List.getElem?_set, Ne.symm hne, hne, hf]
        · simp [hc, List.getElem?_set, hs]

/-! ## Runs too long for the 16-bit counter -/

theorem wellFormedTile_replicate_append (e l : rct_map_element)
    (he : map_element_is_last_for_tile e = false)
    (hl : map_element_is_last_for_tile l = true) :
    ∀ n : Nat, wellFormedTile (List.replicate n e ++ [l]) = true := by
  intro n
  induction n with
  | zero => simpa [wellFormedTile] using hl
  | succ n ih =>
    rw [List.replicate_succ, List.cons_append]
    exact wellFormedTile_cons he ih

theorem longTile_wellFormed : wellFormedTile longTile = true :=
  wellFormedTile_replicate_append _ _ (by decide) (by decide) 32766

theorem longTile_length : longTile.length = 32767 := by
  unfold longTile
  rw [List.length_append, List.length_replicate, List.length_singleton]

theorem largeTile_wellFormed : wellFormedTile largeTile = true :=
  wellFormedTile_cons (by decide) longTile_wellFormed

theorem largeTile_length : largeTile.length = 32768 := by
  unfold largeTile
  rw [List.length_cons, longTile_length]

/-- On a well-formed run of at least two elements the range assertion of
`map_swap_elements_at` fails when the wrapped 16-bit count is not above both converted
indices. -/
theorem map_swap_elements_at_count_wrapped {t : List rct_map_element}
    (hwf : wellFormedTile t = true) (h2 : 2 ≤ t.length) (first second : Int)
    (h : ¬ (toSint16 (t.length : Int) > max (toSint16 first) (toSint16 second))) :
    map_swap_elements_at t first second = .error .assertion := by
  cases t with
  | nil => simp at h2
  | cons e0 rest =>
    have h0 : map_element_is_last_for_tile e0 = false := by
      have := wellFormedTile_isLast hwf 0 (by simp)
      simp only [List.getElem_cons_zero] at this
      rw [this]
      have hl : (e0 :: rest).length = rest.length + 1 := rfl
      simp only [decide_eq_false_iff_not]
      omega
    simp only [map_swap_elements_at, h0, Bool.false_eq_true, if_false,
      elementCount_of_wellFormed hwf, h, not_false_eq_true, if_true]

/-- On a well-formed run of 32768 elements the 16-bit count wraps to -32768 and every call
of `map_swap_elements_at` fails the range assertion. -/
theorem map_swap_elements_at_length_32768 {t : List rct_map_element}
    (hwf : wellFormedTile t = true) (hlen : t.length = 32768) (first second : Int) :
    map_swap_elements_at t first second = .error .assertion := by
  apply map_swap_elements_at_count_wrapped hwf (by omega)
  rw [hlen]
  have h1 : toSint16 ((32768 : Nat) : Int) = -32768 := by decide
  rw [h1]
  have h2 : -32768 ≤ toSint16 first := by unfold toSint16; omega
  have := le_max_left (toSint16 first) (toSint16 second)
  omega

theorem map_swap_elements_at_largeTile (first second : Int) :
    map_swap_elements_at largeTile first second = .error .assertion :=
  map_swap_elements_at_length_32768 largeTile_wellFormed largeTile_length first second

/-! ## Claims on map_swap_elements_at -/

/-- C1, counterexample: the run of 32768 elements is well-formed and 0 and 1 are positions
of it, but `map_swap_elements_at` with these indices fails the range assertion, the 16-bit
`elementCount` having wrapped to -32768. -/
theorem map_swap_elements_at_large_tile_fails :
    wellFormedTile largeTile = true ∧ largeTile.length = 32768 ∧
    elementCount largeTile = some (-32768) ∧
    map_swap_elements_at largeTile 0 1 = .error .assertion :=
  ⟨largeTile_wellFormed, largeTile_length,
    by rw [elementCount_of_wellFormed largeTile_wellFormed, largeTile_length]; rfl,
    map_swap_elements_at_largeTile 0 1⟩

/-- C1, amended: on a tile of at least two and at most 32767 elements whose final element
alone carries the terminal flag, `map_swap_elements_at` with two valid indices returns,
exchanges the contents of the two positions (terminal flag aside), leaves every other
position unchanged, and the final element alone still carries the terminal flag. -/
theorem map_swap_elements_at_keeps_terminal_flag (t : List rct_map_element)
    (first second : Nat) (hwf : wellFormedTile t = true) (hn : 2 ≤ t.length)
    (hlen : t.length ≤ 32767)
    (hfirst : first < t.length) (hsecond : second < t.length) :
    ∃ t1, map_swap_elements_at t (first : Int) (second : Int) = .ok t1 ∧
      t1.length = t.length ∧
      (∃ a b, t1[first]? = some a ∧ t1[second]? = some b ∧
        sameExceptLastFlag a t[second] ∧ sameExceptLastFlag b t[first]) ∧
      (∀ i, i ≠ first → i ≠ second → t1[i]? = t[i]?) ∧
      wellFormedTile t1 = true := by
  obtain ⟨t1, h1, h2, h3, h4, h5⟩ := map_swap_elements_at_spec hwf (by omega) first second hfirst hsecond hn
  exact ⟨t1, h1, h2, h5, h4, h3⟩

theorem map_swap_elements_at_keeps_terminal_flag_witness :
    wellFormedTile exampleTile = true ∧ 2 ≤ exampleTile.length ∧
    ∃ t1, map_swap_elements_at exampleTile 0 2 = .ok t1 ∧ t1.length = exampleTile.length ∧
      wellFormedTile t1 = true :=
  ⟨by decide, by decide,
    (map_swap_elements_at_keeps_terminal_flag exampleTile 0 2 (by decide) (by decide)
      (by decide) (by decide) (by decide)).imp
      (fun _ h => ⟨h.1, h.2.1, h.2.2.2.2⟩)⟩

/-- C2, counterexample: on the well-formed run of 32768 elements no pair of calls
`map_swap_elements_at(a, b)`, `map_swap_elements_at(b, a)` restores the tile, for the valid
indices 2 and 5 as for any other: the first call fails the range assertion. -/
theorem map_swap_elements_at_twice_large_tile_fails :
    wellFormedTile largeTile = true ∧ 2 < largeTile.length ∧ 5 < largeTile.length ∧
    map_swap_elements_at largeTile 2 5 = .error .assertion ∧
    ¬ ∃ t1, map_swap_elements_at largeTile 2 5 = .ok t1 ∧
      map_swap_elements_at t1 5 2 = .ok largeTile := by
  refine ⟨largeTile_wellFormed, by rw [largeTile_length]; decide,
    by rw [largeTile_length]; decide, map_swap_elements_at_largeTile 2 5, ?_⟩
  rintro ⟨t1, h1, _⟩
  rw [map_swap_elements_at_largeTile] at h1
  cases h1

/-- C2, amended: on a well-formed tile of at least two and at most 32767 elements,
`map_swap_elements_at(a, b)` followed by `map_swap_elements_at(b, a)` gives back exactly the
original run, terminal flag included. -/
theorem map_swap_elements_at_twice (t : List rct_map_element) (a b : Nat)
    (hwf : wellFormedTile t = true) (hn : 2 ≤ t.length) (hlen : t.length ≤ 32767)
    (ha : a < t.length) (hb : b < t.length) :
    ∃ t1, map_swap_elements_at t (a : Int) (b : Int) = .ok t1 ∧
      map_swap_elements_at t1 (b : Int) (a : Int) = .ok t := by
  obtain ⟨t1, h1, hl1, hw1, ho1, x, y, hx, hy, hxs, hys⟩ :=
    map_swap_elements_at_spec hwf (by omega) a b ha hb hn
  obtain ⟨t2, h2, hl2, hw2, ho2, u, v, hu, hv, hus, hvs⟩ :=
    map_swap_elements_at_spec hw1 (by omega) b a (by omega) (by omega) (by omega)
  refine ⟨t1, h1, ?_⟩
  rw [h2]
  congr 1
  apply eq_of_wellFormed_of_same hw2 hwf (by omega)
  intro i i1 i2
  have ha1 : a < t1.length := by omega
  have hb1 : b < t1.length := by omega
  rw [List.getElem?_eq_getElem ha1, Option.some.injEq] at hx
  rw [List.getElem?_eq_getElem hb1, Option.some.injEq] at hy
  by_cases ia : i = a
  · subst ia
    rw [List.getElem?_eq_getElem i1, Option.some.injEq] at hv
    rw [hv]
    have := sameExceptLastFlag_trans hvs (by rw [hy]; exact hys)
    exact this
  · by_cases ib : i = b
    · subst ib
      rw [List.getElem?_eq_getElem i1, Option.some.injEq] at hu
      rw [hu]
      exact sameExceptLastFlag_trans hus (by rw [hx]; exact hxs)
    · have e1 := ho2 i ib ia
      have e2 := ho1 i ia ib
      rw [e2, List.getElem?_eq_getElem i1, List.getElem?_eq_getElem i2,
        Option.some.injEq] at e1
      rw [e1]
      exact sameExceptLastFlag_refl _

theorem map_swap_elements_at_twice_witness :
    wellFormedTile exampleTile = true ∧ 2 ≤ exampleTile.length ∧
    ∃ t1, map_swap_elements_at exampleTile 0 2 = .ok t1 ∧
      map_swap_elements_at t1 2 0 = .ok exampleTile :=
  ⟨by decide, by decide,
    map_swap_elements_at_twice exampleTile 0 2 (by decide) (by decide) (by decide) (by decide)
      (by decide)⟩

/-! ## tile_inspector_insert_corrupt_at and tile_inspector_remove_element_at -/

theorem setTile_tiles_same (s : GameState) (x y : Int) (t : List rct_map_element) :
    (setTile s x y t).tiles x y = t := by
  simp [setTile]

theorem insertCorruptWindow_tiles (s : GameState) (x y : Int) (i : Int) :
    (insertCorruptWindow s x y i).tiles = s.tiles := by
  unfold insertCorruptWindow
  split <;> rfl

theorem removeElementWindow_tiles (s : GameState) (x y : Int) (i : Int) :
    (removeElementWindow s x y i).tiles = s.tiles := by
  unfold removeElementWindow
  split <;> rfl

/-- The swap loop of the insertion moves the element in slot `j` up by `r` slots, as long
as the final slot is not reached, on a run of at most 32767 elements. -/
theorem insertSwapLoop_spec (r : Nat) : ∀ (j : Nat) (t : List rct_map_element),
    wellFormedTile t = true → t.length < 32768 → j + r + 1 < t.length →
    ∃ t1, insertSwapLoop j r t = .ok t1 ∧ wellFormedTile t1 = true ∧ t1.length = t.length ∧
      ∀ k, t1[k]? = if k < j then t[k]? else if k < j + r then t[k + 1]?
        else if k = j + r then t[j]? else t[k]? := by
  induction r with
  | zero =>
    intro j t hwf _ _
    refine ⟨t, rfl, hwf, rfl, ?_⟩
    intro k
    by_cases h1 : k < j
    · simp [h1]
    · by_cases h2 : k = j
      · simp [h2]
      · simp [h1, h2]
  | succ r ih =>
    intro j t hwf hlen hj
    have hswap := map_swap_elements_at_ne hwf hlen j (j + 1) (by omega) (by omega) (by omega)
    have hc : ¬ (j + 1 = t.length ∨ j + 1 + 1 = t.length) := by omega
    rw [if_neg hc] at hswap
    obtain ⟨u, hu1, hu2, hu3, hu4, hu5⟩ := map_swap_elements_at_spec hwf hlen j (j + 1)
      (by omega) (by omega) (by omega)
    have hswap2 : map_swap_elements_at t (j : Int) ((j : Int) + 1) = .ok u := by
      have := hu1
      push_cast at this
      exact this
    have hueq : u = (t.set j (t[j + 1])).set (j + 1) (t[j]) := by
      have := hu1
      rw [hswap] at this
      exact (Except.ok.inj this).symm
    obtain ⟨t1, h1, h2, h3, h4⟩ := ih (j + 1) u hu3 (by omega) (by omega)
    refine ⟨t1, ?_, h2, by omega, ?_⟩
    · simp only [insertSwapLoop, hswap2]
      exact h1
    · intro k
      rw [h4 k, hueq]
      have hjl : j < t.length := by omega
      have hjl1 : j + 1 < t.length := by omega
      simp only [List.getElem?_set, List.length_set]
      by_cases a : k < j
      · have e1 : ¬ (j + 1 = k) := by omega
        have e2 : ¬ (j = k) := by omega
        have e3 : k < j + 1 := by omega
        simp [a, e1, e2, e3]
      · by_cases b : k = j
        · subst b
          have e3 : k < k + (r + 1) := by omega
          simp [e3, hjl, hjl1]
        · by_cases c : k < j + (r + 1)
          · have e1 : ¬ (k < j + 1) := by omega
            have e2 : k < j + 1 + r := by omega
            have e3 : ¬ (j + 1 = k + 1) := by omega
            have e4 : ¬ (j = k + 1) := by omega
            simp [a, c, e1, e2, e3, e4]
          · by_cases d : k = j + (r + 1)
            · have e1 : ¬ (k < j + 1) := by omega
              have e2 : ¬ (k < j + 1 + r) := by omega
              have e3 : k = j + 1 + r := by omega
              simp [a, c, e1, e2, e3, hjl, hjl1, List.getElem?_eq_getElem hjl]
              rw [if_neg (by omega), if_neg (by omega), if_pos (by omega)]
            · have e1 : ¬ (k < j + 1) := by omega
              have e2 : ¬ (k < j + 1 + r) := by omega
              have e3 : ¬ (k = j + 1 + r) := by omega
              have e4 : ¬ (j + 1 = k) := by omega
              have e5 : ¬ (j = k) := by omega
              simp [a, c, d, e1, e2, e3, e4, e5]

theorem map_element_insert_run_first (flags : Nat) (t : List rct_map_element) (h : t ≠ []) :
    map_element_insert_run (-1) flags t = (blankElement (-1) flags :: t, 0) := by
  cases t with
  | nil => exact absurd rfl h
  | cons e rest =>
    have : ¬ ((e.base_height : Int) ≤ -1) := by omega
    simp [map_element_insert_run, this]

theorem corruptElement_not_last (h : Nat) :
    map_element_is_last_for_tile (corruptElement h) = false := by
  simp [map_element_is_last_for_tile, corruptElement, blankElement]

/-- The run written by `insertCorruptRun` when the blank element was placed first: the
heights are read from position `i` of the run that already holds the new element. -/
theorem insertCorruptRun_spec (old : List rct_map_element) (i : Nat)
    (hwf : wellFormedTile old = true) (hlen : old.length < 32767) (hi : i < old.length) :
    ∃ t1 sel, insertCorruptRun (blankElement (-1) 0 :: old) 0 (i : Int) = .ok t1 ∧
      (corruptElement 255 :: old)[i]? = some sel ∧
      wellFormedTile t1 = true ∧ t1.length = old.length + 1 ∧
      ∀ k, t1[k]? = if k < i then old[k]? else if k = i then
          some (corruptElement sel.base_height)
        else old[k - 1]? := by
  have hi2 : i < (corruptElement 255 :: old).length := by
    simp; omega
  have hsel : (corruptElement 255 :: old)[i]? = some (corruptElement 255 :: old)[i] :=
    List.getElem?_eq_getElem hi2
  have hwf2 : wellFormedTile
      (corruptElement (corruptElement 255 :: old)[i].base_height :: old) = true :=
    wellFormedTile_cons (corruptElement_not_last _) hwf
  obtain ⟨t1, h1, h2, h3, h4⟩ := insertSwapLoop_spec i 0 _ hwf2 (by simp; omega) (by simp; omega)
  refine ⟨t1, (corruptElement 255 :: old)[i], ?_, hsel, h2, by simpa using h3, ?_⟩
  · have hneg : ¬ ((i : Int) < 0) := by omega
    simp only [insertCorruptRun, hneg, if_false, Int.toNat_ofNat]
    have e1 : modifyAt (blankElement (-1) 0 :: old) 0
        (fun e => { e with type := MAP_ELEMENT_TYPE_CORRUPT })
        = corruptElement 255 :: old := by
      simp [modifyAt, corruptElement, blankElement, toUint8]
    rw [e1, hsel]
    simp only [modifyAt, List.getElem?_cons_zero, List.set_cons_zero]
    exact h1
  · intro k
    rw [h4 k]
    by_cases a : k < i
    · simp [a]
    · by_cases b : k = i
      · simp [b]
      · have : k = (k - 1) + 1 := by omega
        simp only [a, b, if_false, Nat.not_lt_zero, Nat.zero_add]
        rw [this, List.getElem?_cons_succ]
        simp

/-- A committed `tile_inspector_insert_corrupt_at` on a well-formed tile of at most 32766
elements with a valid index:
return value and the run of the tile afterwards. -/
theorem tile_inspector_insert_corrupt_at_spec (s : GameState) (x y : Int) (i : Nat) (flags : Nat)
    (hwf : wellFormedTile (s.tiles x y) = true) (hlen : (s.tiles x y).length < 32767)
    (hi : i < (s.tiles x y).length)
    (happly : flags &&& GAME_COMMAND_FLAG_APPLY ≠ 0) (hfree : 0 < s.free_elements) :
    ∃ s1 sel, tile_inspector_insert_corrupt_at s x y (i : Int) flags = .ok (0, s1) ∧
      (corruptElement 255 :: s.tiles x y)[i]? = some sel ∧
      wellFormedTile (s1.tiles x y) = true ∧
      (s1.tiles x y).length = (s.tiles x y).length + 1 ∧
      (∀ k, (s1.tiles x y)[k]? = if k < i then (s.tiles x y)[k]? else if k = i then
          some (corruptElement sel.base_height)
        else (s.tiles x y)[k - 1]?) ∧
      s1.free_elements = s.free_elements - 1 := by
  obtain ⟨t1, sel, h1, h2, h3, h4, h5⟩ := insertCorruptRun_spec (s.tiles x y) i hwf hlen hi
  have hfree2 : map_check_free_elements_and_reorganise s 1 = true := by
    simp [map_check_free_elements_and_reorganise]; omega
  have hne : s.tiles x y ≠ [] := wellFormedTile_ne_nil hwf
  refine ⟨insertCorruptWindow (setTile { setTile s x y (blankElement (-1) 0 :: s.tiles x y) with
        free_elements := s.free_elements - 1 } x y t1) x y i, sel, ?_, h2, ?_, ?_, ?_, ?_⟩
  · simp only [tile_inspector_insert_corrupt_at, hfree2, Bool.not_true, Bool.false_eq_true,
      if_false, happly, ne_eq, not_false_eq_true, if_true, map_element_insert,
      map_element_insert_run_first 0 _ hne]
    rw [setTile_tiles_same, h1]
  · rw [insertCorruptWindow_tiles, setTile_tiles_same]; exact h3
  · rw [insertCorruptWindow_tiles, setTile_tiles_same]; exact h4
  · rw [insertCorruptWindow_tiles, setTile_tiles_same]; exact h5
  · unfold insertCorruptWindow
    split <;> rfl

/-- A committed `tile_inspector_insert_corrupt_at` with a valid index above 0 on a
well-formed tile of 32767 elements fails the range assertion of the first swap: the run
then holds 32768 elements and the 16-bit count wraps. -/
theorem tile_inspector_insert_corrupt_at_count_wrapped (s : GameState) (x y : Int) (i : Nat)
    (flags : Nat)
    (hwf : wellFormedTile (s.tiles x y) = true) (hlen : (s.tiles x y).length = 32767)
    (hi : i < (s.tiles x y).length) (hi1 : 1 ≤ i)
    (happly : flags &&& GAME_COMMAND_FLAG_APPLY ≠ 0) (hfree : 0 < s.free_elements) :
    tile_inspector_insert_corrupt_at s x y (i : Int) flags = .error .assertion := by
  have hfree2 : map_check_free_elements_and_reorganise s 1 = true := by
    simp [map_check_free_elements_and_reorganise]; omega
  have hne : s.tiles x y ≠ [] := wellFormedTile_ne_nil hwf
  have hi2 : i < (corruptElement 255 :: s.tiles x y).length := by
    simp; omega
  have hsel : (corruptElement 255 :: s.tiles x y)[i]?
      = some (corruptElement 255 :: s.tiles x y)[i] :=
    List.getElem?_eq_getElem hi2
  have hwf2 : wellFormedTile
      (corruptElement (corruptElement 255 :: s.tiles x y)[i].base_height :: s.tiles x y)
        = true :=
    wellFormedTile_cons (corruptElement_not_last _) hwf
  have hrun : insertCorruptRun (blankElement (-1) 0 :: s.tiles x y) 0 (i : Int)
      = .error .assertion := by
    have hneg : ¬ ((i : Int) < 0) := by omega
    simp only [insertCorruptRun, hneg, if_false, Int.toNat_ofNat]
    have e1 : modifyAt (blankElement (-1) 0 :: s.tiles x y) 0
        (fun e => { e with type := MAP_ELEMENT_TYPE_CORRUPT })
        = corruptElement 255 :: s.tiles x y := by
      simp [modifyAt, corruptElement, blankElement, toUint8]
    rw [e1, hsel]
    simp only [modifyAt, List.getElem?_cons_zero, List.set_cons_zero]
    obtain ⟨r, rfl⟩ : ∃ r, i = r + 1 := ⟨i - 1, by omega⟩
    have hsw : ∀ t : List rct_map_element, wellFormedTile t = true → t.length = 32768 →
        insertSwapLoop 0 (r + 1) t = .error .assertion := by
      intro t h1 h2
      simp only [insertSwapLoop, map_swap_elements_at_length_32768 h1 h2]
    exact hsw _ hwf2 (by simp [hlen])
  simp only [tile_inspector_insert_corrupt_at, hfree2, Bool.not_true, Bool.false_eq_true,
    if_false, happly, ne_eq, not_false_eq_true, if_true, map_element_insert,
    map_element_insert_run_first 0 _ hne]
  rw [setTile_tiles_same, hrun]

theorem or_last_flag_of_isLast {e : rct_map_element}
    (h : map_element_is_last_for_tile e = true) :
    { e with flags := e.flags ||| MAP_ELEMENT_FLAG_LAST_TILE } = e := by
  have h2 : e.flags ||| MAP_ELEMENT_FLAG_LAST_TILE = e.flags := by
    simp only [map_element_is_last_for_tile, and_last_flag] at h
    apply Nat.eq_of_testBit_eq
    intro k
    simp only [Nat.testBit_or, testBit_last_flag]
    by_cases hk : 7 = k
    · subst hk; simp [h]
    · simp [hk]
  rw [h2]

/-- Removing a slot whose removal leaves the flagged final element in place. -/
theorem map_element_remove_run_of_erase {t old : List rct_map_element} {i : Nat}
    (hold : wellFormedTile old = true) (h : t.eraseIdx i = old) :
    map_element_remove_run t i = old := by
  have hne := wellFormedTile_ne_nil hold
  have hpos : 0 < old.length := List.length_pos.2 hne
  have hl : old.length - 1 < old.length := by omega
  unfold map_element_remove_run
  rw [h, modifyAt_eq _ hl]
  have hlast := wellFormedTile_isLast hold (old.length - 1) hl
  have : map_element_is_last_for_tile old[old.length - 1] = true := by
    rw [hlast]; simp; omega
  rw [or_last_flag_of_isLast this]
  apply List.ext_getElem (by simp)
  intro k h1 h2
  simp only [List.getElem_set]
  split
  · next hk => subst hk; rfl
  · rfl

/-! ## Claims on insertion and removal -/

/-- C3, counterexample: on the well-formed tile of 32767 elements, with free slots, the
committed `tile_inspector_insert_corrupt_at` at the valid index 1 does not return: the run
holds 32768 elements once the new element is in, the 16-bit count of
`map_swap_elements_at` wraps and the first swap of the loop fails the range assertion. -/
theorem tile_inspector_insert_corrupt_at_long_tile_fails :
    wellFormedTile (longState.tiles 0 0) = true ∧ (longState.tiles 0 0).length = 32767 ∧
    tile_inspector_insert_corrupt_at longState 0 0 1 1 = .error .assertion :=
  ⟨longTile_wellFormed, longTile_length,
    tile_inspector_insert_corrupt_at_count_wrapped longState 0 0 1 1 longTile_wellFormed
      longTile_length
      (by rw [show longState.tiles 0 0 = longTile from rfl, longTile_length]; decide)
      (by decide) (by decide) (by decide)⟩

/-- C3, amended: a committed `tile_inspector_insert_corrupt_at` with a valid index `i` on a
well-formed tile of `n` elements, `n` at most 32766, with a free slot available, succeeds
and leaves `n + 1` elements: the new Corrupt element at index `i`, the former elements below
`i` where they were, the former elements `i..n-1` one slot higher in the same order, and the
terminal flag on the final element only. -/
theorem tile_inspector_insert_corrupt_at_places_beneath (s : GameState) (x y : Int) (i : Nat)
    (flags : Nat) (hwf : wellFormedTile (s.tiles x y) = true)
    (hlen : (s.tiles x y).length ≤ 32766)
    (hi : i < (s.tiles x y).length)
    (happly : flags &&& GAME_COMMAND_FLAG_APPLY ≠ 0) (hfree : 0 < s.free_elements) :
    ∃ s1, tile_inspector_insert_corrupt_at s x y (i : Int) flags = .ok (0, s1) ∧
      (s1.tiles x y).length = (s.tiles x y).length + 1 ∧
      (∃ e, (s1.tiles x y)[i]? = some e ∧ e.type = MAP_ELEMENT_TYPE_CORRUPT) ∧
      (∀ j, j < i → (s1.tiles x y)[j]? = (s.tiles x y)[j]?) ∧
      (∀ j, i ≤ j → j < (s.tiles x y).length → (s1.tiles x y)[j + 1]? = (s.tiles x y)[j]?) ∧
      wellFormedTile (s1.tiles x y) = true := by
  obtain ⟨s1, sel, h1, _, h3, h4, h5, _⟩ :=
    tile_inspector_insert_corrupt_at_spec s x y i flags hwf (by omega) hi happly hfree
  refine ⟨s1, h1, h4, ⟨corruptElement sel.base_height, ?_, rfl⟩, ?_, ?_, h3⟩
  · rw [h5 i]; simp
  · intro j hj
    rw [h5 j]; simp [hj]
  · intro j hj _
    rw [h5 (j + 1)]
    have a : ¬ (j + 1 < i) := by omega
    have b : ¬ (j + 1 = i) := by omega
    simp [a, b]

theorem tile_inspector_insert_corrupt_at_places_beneath_witness :
    wellFormedTile (exampleState.tiles 0 0) = true ∧
    ∃ s1, tile_inspector_insert_corrupt_at exampleState 0 0 1 1 = .ok (0, s1) ∧
      (s1.tiles 0 0).length = 4 ∧
      (∃ e, (s1.tiles 0 0)[1]? = some e ∧ e.type = MAP_ELEMENT_TYPE_CORRUPT) :=
  ⟨by decide,
    (tile_inspector_insert_corrupt_at_places_beneath exampleState 0 0 1 1 (by decide)
      (by decide) (by decide) (by decide) (by decide)).imp (fun _ h => ⟨h.1, h.2.1, h.2.2.1⟩)⟩

/-- C4: evaluation at the sample tile A, B, C (base heights 5, 3, 4).  Inserting beneath B
(index 1) gives the new element the heights 5 of A, the element below the target, not the
base height 3 of B; inserting beneath A (index 0) gives it the heights 255 of the blank
element itself. -/
theorem tile_inspector_insert_corrupt_at_heights_example :
    (exampleState.tiles 0 0)[1]? = some (exampleElement 3 8 0) ∧
    (∃ s1, tile_inspector_insert_corrupt_at exampleState 0 0 1 1 = .ok (0, s1) ∧
      (s1.tiles 0 0)[1]? = some (corruptElement 5)) ∧
    (exampleState.tiles 0 0)[0]? = some (exampleElement 5 6 0) ∧
    (∃ s1, tile_inspector_insert_corrupt_at exampleState 0 0 0 1 = .ok (0, s1) ∧
      (s1.tiles 0 0)[0]? = some (corruptElement 255)) :=
  ⟨rfl, ⟨_, rfl, rfl⟩, rfl, ⟨_, rfl, rfl⟩⟩

/-- C5, counterexample: on the well-formed tile of 32767 elements, with free slots, there is
no round trip at the valid index 2: the committed `tile_inspector_insert_corrupt_at` fails
the range assertion of its first swap, so no state is reached from which the removal could
restore the tile. -/
theorem tile_inspector_insert_then_remove_long_tile_fails :
    wellFormedTile (longState.tiles 0 0) = true ∧ 2 < (longState.tiles 0 0).length ∧
    0 < longState.free_elements ∧
    ¬ ∃ s1 s2, tile_inspector_insert_corrupt_at longState 0 0 2 1 = .ok (0, s1) ∧
      tile_inspector_remove_element_at s1 0 0 2 1 = .ok (0, s2) ∧
      s2.tiles 0 0 = longState.tiles 0 0 := by
  have hl : (longState.tiles 0 0).length = 32767 := longTile_length
  refine ⟨longTile_wellFormed, by rw [hl]; decide, by decide, ?_⟩
  rintro ⟨s1, s2, h1, _⟩
  have h := tile_inspector_insert_corrupt_at_count_wrapped longState 0 0 2 1
    longTile_wellFormed hl (by rw [hl]; decide) (by decide) (by decide) (by decide)
  have h2 : tile_inspector_insert_corrupt_at longState 0 0 ((2 : Nat) : Int) 1
      = .ok (0, s1) := h1
  rw [h] at h2
  cases h2

/-- C5, amended: on a well-formed tile of at most 32766 elements with a valid index `i` and
a free slot, a committed `tile_inspector_insert_corrupt_at` at `i` followed by a committed
`tile_inspector_remove_element_at` at `i` both succeed and leave the run of the tile equal
to the run before the insertion. -/
theorem tile_inspector_insert_then_remove (s : GameState) (x y : Int) (i : Nat)
    (flags : Nat) (hwf : wellFormedTile (s.tiles x y) = true)
    (hlen : (s.tiles x y).length ≤ 32766)
    (hi : i < (s.tiles x y).length)
    (happly : flags &&& GAME_COMMAND_FLAG_APPLY ≠ 0) (hfree : 0 < s.free_elements) :
    ∃ s1 s2, tile_inspector_insert_corrupt_at s x y (i : Int) flags = .ok (0, s1) ∧
      tile_inspector_remove_element_at s1 x y (i : Int) flags = .ok (0, s2) ∧
      s2.tiles x y = s.tiles x y := by
  obtain ⟨s1, sel, h1, _, h3, h4, h5, _⟩ :=
    tile_inspector_insert_corrupt_at_spec s x y i flags hwf (by omega) hi happly hfree
  have hrange : ¬ ((i : Int) < 0 ∨ (s1.tiles x y).length ≤ (i : Int).toNat) := by
    simp only [Int.toNat_ofNat]; omega
  refine ⟨s1, removeElementWindow (setTile s1 x y
    (map_element_remove_run (s1.tiles x y) (i : Int).toNat)) x y i, h1, ?_, ?_⟩
  · simp only [tile_inspector_remove_element_at, happly, ne_eq, not_false_eq_true, if_true,
      hrange, if_false]
  · rw [removeElementWindow_tiles, setTile_tiles_same, Int.toNat_ofNat]
    apply map_element_remove_run_of_erase hwf
    apply List.ext_getElem?
    intro k
    rw [List.getElem?_eraseIdx]
    by_cases a : k < i
    · rw [if_pos a, h5 k, if_pos a]
    · have b : ¬ (k + 1 < i) := by omega
      have c : ¬ (k + 1 = i) := by omega
      rw [if_neg a, h5 (k + 1), if_neg b, if_neg c]
      simp

theorem tile_inspector_insert_then_remove_witness :
    wellFormedTile (exampleState.tiles 0 0) = true ∧
    ∃ s1 s2, tile_inspector_insert_corrupt_at exampleState 0 0 1 1 = .ok (0, s1) ∧
      tile_inspector_remove_element_at s1 0 0 1 1 = .ok (0, s2) ∧
      s2.tiles 0 0 = exampleState.tiles 0 0 :=
  ⟨by decide,
    tile_inspector_insert_then_remove exampleState 0 0 1 1 (by decide) (by decide)
      (by decide) (by decide) (by decide)⟩

/-! ## tile_inspector_sort_elements_at -/

theorem sortElementsWindow_tiles (s : GameState) (x y : Int) :
    (sortElementsWindow s x y).tiles = s.tiles := by
  unfold sortElementsWindow
  split <;> rfl

theorem sortsAfter_eq_false_iff (a b : rct_map_element) :
    sortsAfter a b = false ↔ heightLe a b := by
  unfold sortsAfter heightLe
  simp only [Bool.or_eq_false_iff, Bool.and_eq_false_iff, decide_eq_false_iff_not]
  omega

theorem sortsAfter_withLastFlag (a b : rct_map_element) :
    sortsAfter (withLastFlag a) (withLastFlag b) = sortsAfter a b := rfl

theorem heightGe_withLastFlag (a b : rct_map_element) :
    heightGe (withLastFlag a) (withLastFlag b) ↔ heightGe a b := Iff.rfl

/-- A list that agrees with `pre ++ y :: x :: post` outside the two middle slots and holds
`x`, `y` there is `pre ++ x :: y :: post`. -/
theorem eq_swapped_of_getElem? {α : Type} (pre post : List α) (x y : α) (l : List α)
    (h1 : ∀ i, i ≠ pre.length → i ≠ pre.length + 1 → l[i]? = (pre ++ y :: x :: post)[i]?)
    (h2 : l[pre.length]? = some x) (h3 : l[pre.length + 1]? = some y) :
    l = pre ++ x :: y :: post := by
  apply List.ext_getElem?
  intro i
  by_cases a : i = pre.length
  · subst a
    rw [h2, List.getElem?_append_right (Nat.le_refl _)]
    simp
  · by_cases b : i = pre.length + 1
    · subst b
      rw [h3, List.getElem?_append_right (by omega)]
      simp
    · rw [h1 i a b]
      by_cases c : i < pre.length
      · rw [List.getElem?_append_left c, List.getElem?_append_left c]
      · have c2 : pre.length ≤ i := by omega
        rw [List.getElem?_append_right c2, List.getElem?_append_right c2]
        obtain ⟨d, hd⟩ : ∃ d, i - pre.length = d + 2 := ⟨i - pre.length - 2, by omega⟩
        rw [hd]
        simp

/-- An adjacent swap on a well-formed run of at most 32767 elements, seen on the contents
of the run. -/
theorem map_swap_elements_at_adjacent {t : List rct_map_element}
    (hwf : wellFormedTile t = true) (hshort : t.length < 32768) (pre post : List rct_map_element) (x y : rct_map_element)
    (hc : t.map withLastFlag = pre ++ y :: x :: post) :
    ∃ t1, map_swap_elements_at t (pre.length : Int) ((pre.length + 1 : Nat) : Int) = .ok t1 ∧
      wellFormedTile t1 = true ∧ t1.map withLastFlag = pre ++ x :: y :: post := by
  have hlen : t.length = pre.length + post.length + 2 := by
    have := congrArg List.length hc
    simp only [List.length_map, List.length_append, List.length_cons] at this
    omega
  have hk : pre.length < t.length := by omega
  have hk1 : pre.length + 1 < t.length := by omega
  obtain ⟨t1, h1, h2, h3, h4, a, b, ha, hb, hsa, hsb⟩ :=
    map_swap_elements_at_spec hwf hshort pre.length (pre.length + 1) hk hk1 (by omega)
  refine ⟨t1, h1, h3, ?_⟩
  have hy : withLastFlag t[pre.length] = y := by
    have := congrArg (fun l => l[pre.length]?) hc
    simp only [List.getElem?_map, List.getElem?_eq_getElem hk, Option.map_some'] at this
    rw [List.getElem?_append_right (Nat.le_refl _)] at this
    simpa using this
  have hx : withLastFlag t[pre.length + 1] = x := by
    have := congrArg (fun l => l[pre.length + 1]?) hc
    simp only [List.getElem?_map, List.getElem?_eq_getElem hk1, Option.map_some'] at this
    rw [List.getElem?_append_right (by omega)] at this
    simpa using this
  apply eq_swapped_of_getElem?
  · intro i i1 i2
    rw [← hc, List.getElem?_map, List.getElem?_map, h4 i i1 i2]
  · rw [List.getElem?_map, ha, Option.map_some', ← hx]
    exact congrArg some hsa
  · rw [List.getElem?_map, hb, Option.map_some', ← hy]
    exact congrArg some hsb

/-- The inner loop of the sort, seen on the contents of the run: the element in slot
`r.length` is inserted into the part of the run below it, which `r` lists from the top
down. -/
theorem sortInnerLoop_spec : ∀ (r : List rct_map_element) (x : rct_map_element)
    (post t : List rct_map_element), wellFormedTile t = true → t.length < 32768 →
    t.map withLastFlag = r.reverse ++ x :: post →
    ∃ t1, sortInnerLoop t r.length = .ok t1 ∧ wellFormedTile t1 = true ∧
      t1.map withLastFlag = (List.orderedInsert heightGe x r).reverse ++ post := by
  intro r
  induction r with
  | nil =>
    intro x post t hwf _ hc
    exact ⟨t, rfl, hwf, by simpa using hc⟩
  | cons y r ih =>
    intro x post t hwf hshort hc
    have hc2 : t.map withLastFlag = r.reverse ++ y :: x :: post := by
      rw [hc]; simp
    have hlen : t.length = r.length + post.length + 2 := by
      have := congrArg List.length hc2
      simp only [List.length_map, List.length_append, List.length_cons,
        List.length_reverse] at this
      omega
    have hk : r.length < t.length := by omega
    have hk1 : r.length + 1 < t.length := by omega
    have hy : withLastFlag t[r.length] = y := by
      have := congrArg (fun l => l[r.length]?) hc2
      simp only [List.getElem?_map, List.getElem?_eq_getElem hk, Option.map_some'] at this
      rw [List.getElem?_append_right (by simp)] at this
      simpa using this
    have hx : withLastFlag t[r.length + 1] = x := by
      have := congrArg (fun l => l[r.length + 1]?) hc2
      simp only [List.getElem?_map, List.getElem?_eq_getElem hk1, Option.map_some'] at this
      rw [List.getElem?_append_right (by simp)] at this
      simpa using this
    have hcmp : sortsAfter t[r.length] t[r.length + 1] = sortsAfter y x := by
      rw [← hy, ← hx, sortsAfter_withLastFlag]
    simp only [List.length_cons, sortInnerLoop, List.getElem?_eq_getElem hk,
      List.getElem?_eq_getElem hk1, hcmp]
    by_cases hs : sortsAfter y x = true
    · obtain ⟨t1, h1, h2, h3⟩ := map_swap_elements_at_adjacent hwf hshort r.reverse post x y
        (by simpa using hc2)
      have hshort1 : t1.length < 32768 := by
        have := congrArg List.length h3
        simp only [List.length_map, List.length_append, List.length_cons,
          List.length_reverse] at this
        omega
      simp only [List.length_reverse] at h1
      have h1b : map_swap_elements_at t (((r.length + 1 : Nat) : Int) - 1)
          ((r.length + 1 : Nat) : Int) = .ok t1 := by
        rw [← h1]
        congr 1
        push_cast
        omega
      obtain ⟨t2, g1, g2, g3⟩ := ih x (y :: post) t1 h2 hshort1 h3
      refine ⟨t2, ?_, g2, ?_⟩
      · simp only [hs, if_true, h1b]
        exact g1
      · have hn : ¬ heightGe x y := by
          intro hge
          have := (sortsAfter_eq_false_iff y x).2 hge
          rw [hs] at this
          exact absurd this (by decide)
        rw [g3, List.orderedInsert, if_neg hn]
        simp
    · have hs2 : sortsAfter y x = false := by simpa using hs
      refine ⟨t, ?_, hwf, ?_⟩
      · simp [hs2]
      · have hge : heightGe x y := (sortsAfter_eq_false_iff y x).1 hs2
        rw [List.orderedInsert, if_pos hge, hc]
        simp

/-- The outer loop of the sort, seen on the contents of the run. -/
theorem sortOuterLoop_spec : ∀ (rest r t : List rct_map_element),
    wellFormedTile t = true → t.length < 32768 → t.map withLastFlag = r.reverse ++ rest →
    ∃ t1, sortOuterLoop r.length rest.length t = .ok t1 ∧ wellFormedTile t1 = true ∧
      t1.map withLastFlag
        = (rest.foldl (fun acc x => List.orderedInsert heightGe x acc) r).reverse := by
  intro rest
  induction rest with
  | nil =>
    intro r t hwf _ hc
    exact ⟨t, rfl, hwf, by simpa using hc⟩
  | cons x rest ih =>
    intro r t hwf hshort hc
    obtain ⟨t1, h1, h2, h3⟩ := sortInnerLoop_spec r x rest t hwf hshort hc
    have hshort1 : t1.length < 32768 := by
      have a := congrArg List.length h3
      have b := congrArg List.length hc
      simp only [List.length_map, List.length_append, List.length_cons,
        List.length_reverse, List.orderedInsert_length] at a b
      omega
    obtain ⟨t2, g1, g2, g3⟩ := ih (List.orderedInsert heightGe x r) t1 h2 hshort1 h3
    rw [List.orderedInsert_length] at g1
    refine ⟨t2, ?_, g2, ?_⟩
    · simp only [List.length_cons, sortOuterLoop, h1]
      exact g1
    · rw [g3]; rfl

/-- The sort of one well-formed run of at most 32767 elements returns a well-formed run
whose contents are those of the insertion sort. -/
theorem sortRun_spec {t : List rct_map_element} (hwf : wellFormedTile t = true)
    (hshort : t.length < 32768) :
    ∃ t1, sortRun t = .ok t1 ∧ wellFormedTile t1 = true ∧
      t1.map withLastFlag = ((t.map withLastFlag).foldl
        (fun acc x => List.orderedInsert heightGe x acc) []).reverse := by
  cases t with
  | nil => simp [wellFormedTile] at hwf
  | cons e rest =>
    obtain ⟨t1, h1, h2, h3⟩ := sortOuterLoop_spec (rest.map withLastFlag) [withLastFlag e]
      (e :: rest) hwf hshort (by simp)
    refine ⟨t1, ?_, h2, ?_⟩
    · simp only [sortRun, numElementLoop_of_wellFormed_small hwf hshort, List.length_cons]
      have hcount : (((rest.length + 1 : Nat) : Int) - 1).toNat = rest.length := by
        push_cast
        omega
      rw [hcount]
      simpa using h1
    · rw [h3]; rfl

/-! ### The insertion sort on contents -/

theorem foldl_orderedInsert_sorted : ∀ (c r : List rct_map_element),
    List.Sorted heightGe r →
    List.Sorted heightGe (c.foldl (fun acc x => List.orderedInsert heightGe x acc) r) := by
  intro c
  induction c with
  | nil => intro r h; exact h
  | cons x c ih =>
    intro r h
    exact ih _ (List.Sorted.orderedInsert x r h)

theorem filter_orderedInsert (b c : Nat) (x : rct_map_element) :
    ∀ r : List rct_map_element,
    (List.orderedInsert heightGe x r).filter (hasHeights b c)
      = if hasHeights b c x then x :: r.filter (hasHeights b c)
        else r.filter (hasHeights b c) := by
  intro r
  induction r with
  | nil => simp [List.filter_cons]
  | cons y r ih =>
    by_cases hge : heightGe x y
    · rw [List.orderedInsert, if_pos hge, List.filter_cons]
    · rw [List.orderedInsert, if_neg hge, List.filter_cons, ih]
      by_cases hy : hasHeights b c y = true
      · have hx : hasHeights b c x = false := by
          by_contra hx
          have hx2 : hasHeights b c x = true := by simpa using hx
          apply hge
          simp only [hasHeights, Bool.and_eq_true, decide_eq_true_eq] at hx2 hy
          unfold heightGe heightLe
          omega
        simp [hx, hy, List.filter_cons]
      · have hy2 : hasHeights b c y = false := by simpa using hy
        simp [hy2, List.filter_cons]

theorem filter_foldl_orderedInsert (b c : Nat) : ∀ (l r : List rct_map_element),
    ((l.foldl (fun acc x => List.orderedInsert heightGe x acc) r).reverse).filter
        (hasHeights b c)
      = (r.reverse).filter (hasHeights b c) ++ l.filter (hasHeights b c) := by
  intro l
  induction l with
  | nil => intro r; simp
  | cons x l ih =>
    intro r
    rw [List.foldl_cons, ih, List.filter_reverse, filter_orderedInsert, List.filter_reverse,
      List.filter_cons]
    by_cases hx : hasHeights b c x = true
    · simp [hx]
    · have hx2 : hasHeights b c x = false := by simpa using hx
      simp [hx2]

theorem foldl_orderedInsert_of_sorted : ∀ (l r : List rct_map_element),
    List.Pairwise heightLe (r.reverse ++ l) →
    l.foldl (fun acc x => List.orderedInsert heightGe x acc) r = l.reverse ++ r := by
  intro l
  induction l with
  | nil => intro r _; simp
  | cons x l ih =>
    intro r h
    have hins : List.orderedInsert heightGe x r = x :: r := by
      cases r with
      | nil => rfl
      | cons y r =>
        apply List.orderedInsert_of_le
        have h2 := List.pairwise_append.1 h
        exact h2.2.2 y (by simp) x (by simp)
    rw [List.foldl_cons, hins, ih (x :: r) (by simpa using h)]
    simp

theorem hasHeights_withLastFlag (b c : Nat) (e : rct_map_element) :
    hasHeights b c (withLastFlag e) = hasHeights b c e := rfl

theorem heightLe_withLastFlag (a b : rct_map_element) :
    heightLe (withLastFlag a) (withLastFlag b) ↔ heightLe a b := Iff.rfl

/-- Well-formed runs with the same contents are equal. -/
theorem eq_of_wellFormed_of_map {t u : List rct_map_element} (ht : wellFormedTile t = true)
    (hu : wellFormedTile u = true) (h : t.map withLastFlag = u.map withLastFlag) : t = u := by
  have hlen : t.length = u.length := by
    have := congrArg List.length h
    simpa using this
  apply eq_of_wellFormed_of_same ht hu hlen
  intro i h1 h2
  have := congrArg (fun l => l[i]?) h
  simp only [List.getElem?_map, List.getElem?_eq_getElem h1, List.getElem?_eq_getElem h2,
    Option.map_some', Option.some.injEq] at this
  exact this

/-- A committed `tile_inspector_sort_elements_at` on a well-formed tile of at most 32767
elements: it returns success and the tile's run is well-formed with the contents of the
insertion sort. -/
theorem tile_inspector_sort_elements_at_spec (s : GameState) (x y : Int) (flags : Nat)
    (hwf : wellFormedTile (s.tiles x y) = true) (hshort : (s.tiles x y).length < 32768)
    (happly : flags &&& GAME_COMMAND_FLAG_APPLY ≠ 0) :
    ∃ s1, tile_inspector_sort_elements_at s x y flags = .ok (0, s1) ∧
      wellFormedTile (s1.tiles x y) = true ∧
      (s1.tiles x y).map withLastFlag = (((s.tiles x y).map withLastFlag).foldl
        (fun acc x => List.orderedInsert heightGe x acc) []).reverse := by
  obtain ⟨t1, h1, h2, h3⟩ := sortRun_spec hwf hshort
  refine ⟨sortElementsWindow (setTile s x y t1) x y, ?_, ?_, ?_⟩
  · simp only [tile_inspector_sort_elements_at, happly, ne_eq, not_false_eq_true, if_true, h1]
  · rw [sortElementsWindow_tiles, setTile_tiles_same]; exact h2
  · rw [sortElementsWindow_tiles, setTile_tiles_same]; exact h3

theorem sorted_contents_pairwise (c : List rct_map_element) :
    List.Pairwise heightLe
      ((c.foldl (fun acc x => List.orderedInsert heightGe x acc) []).reverse) := by
  rw [List.pairwise_reverse]
  exact foldl_orderedInsert_sorted c [] List.sorted_nil

theorem foldl_orderedInsert_length : ∀ (l acc : List rct_map_element),
    (l.foldl (fun acc x => List.orderedInsert heightGe x acc) acc).length
      = l.length + acc.length := by
  intro l
  induction l with
  | nil => intro acc; simp
  | cons x l ih =>
    intro acc
    rw [List.foldl_cons, ih, List.orderedInsert_length, List.length_cons]
    omega

/-- The sort keeps the number of elements of the tile. -/
theorem sorted_contents_length {t t1 : List rct_map_element}
    (h : t1.map withLastFlag = ((t.map withLastFlag).foldl
      (fun acc x => List.orderedInsert heightGe x acc) []).reverse) :
    t1.length = t.length := by
  have := congrArg List.length h
  simpa [foldl_orderedInsert_length] using this

/-! ### The sort on a run too long for the 16-bit counter -/

/-- On a well-formed run of 32768 elements whose first two elements are out of order the
sort fails the range assertion of its first swap. -/
theorem sortRun_count_wrapped (a b : rct_map_element) (rest : List rct_map_element)
    (hwf : wellFormedTile (a :: b :: rest) = true)
    (hlen : (a :: b :: rest).length = 32768) (hs : sortsAfter a b = true) :
    sortRun (a :: b :: rest) = .error .assertion ∧
    (a :: b :: rest, (0 : Int), (1 : Int)) ∈ sortRunCalls (a :: b :: rest) := by
  have hcount : numElementLoop 0 (a :: b :: rest) = some 32768 := by
    rw [numElementLoop_of_wellFormed _ 0 hwf, hlen]
    rfl
  have hn : ((32768 : Int) - 1).toNat = 32766 + 1 := by decide
  have hswap := map_swap_elements_at_length_32768 hwf hlen ((0 + 1 : Nat) - 1 : Int)
    ((0 + 1 : Nat) : Int)
  have hinner : sortInnerLoop (a :: b :: rest) 1 = .error .assertion := by
    simp only [sortInnerLoop, List.getElem?_cons_zero, List.getElem?_cons_succ, hs, if_true,
      hswap]
  constructor
  · simp only [sortRun, hcount, hn, sortOuterLoop, hinner]
  · simp only [sortRunCalls, hcount, hn, sortOuterLoopCalls, hinner, List.append_nil]
    simp only [sortInnerLoopCalls, List.getElem?_cons_zero, List.getElem?_cons_succ, hs,
      if_true, hswap]
    exact List.mem_singleton.2 rfl

theorem largeTile_eq : largeTile = exampleElement 5 6 0 :: exampleElement 3 8 0 ::
    (List.replicate 32765 (exampleElement 3 8 0) ++ [exampleElement 4 4 0x80]) := by
  unfold largeTile longTile
  rw [show (32766 : Nat) = 32765 + 1 from rfl, List.replicate_succ, List.cons_append]

theorem sortRun_largeTile : sortRun largeTile = .error .assertion := by
  have hwf := largeTile_wellFormed
  have hlen := largeTile_length
  rw [largeTile_eq] at hwf hlen ⊢
  exact (sortRun_count_wrapped _ _ _ hwf hlen (by decide)).1

/-- The committed sort of the run of 32768 elements, whose first two elements have base
heights 5 and 3, fails the range assertion of `map_swap_elements_at`. -/
theorem tile_inspector_sort_elements_at_largeState :
    tile_inspector_sort_elements_at largeState 0 0 1 = .error .assertion := by
  have h : sortRun (largeState.tiles 0 0) = .error .assertion := sortRun_largeTile
  have happly : (1 : Nat) &&& GAME_COMMAND_FLAG_APPLY ≠ 0 := by decide
  simp only [tile_inspector_sort_elements_at, happly, ne_eq, not_false_eq_true, if_true, h]

/-! ### Claims on the sort -/

/-- C6, counterexample: the tile of 32768 elements is well-formed and its first two elements
have base heights 5 and 3, but the committed `tile_inspector_sort_elements_at` does not sort
it: the first swap fails the range assertion of `map_swap_elements_at`, whose 16-bit count
has wrapped. -/
theorem tile_inspector_sort_elements_at_large_tile_unsorted :
    wellFormedTile (largeState.tiles 0 0) = true ∧ (largeState.tiles 0 0).length = 32768 ∧
    (largeState.tiles 0 0)[0]?.map (fun e => e.base_height) = some 5 ∧
    (largeState.tiles 0 0)[1]?.map (fun e => e.base_height) = some 3 ∧
    tile_inspector_sort_elements_at largeState 0 0 1 = .error .assertion := by
  refine ⟨largeTile_wellFormed, largeTile_length, ?_, ?_,
    tile_inspector_sort_elements_at_largeState⟩
  · rw [show largeState.tiles 0 0 = largeTile from rfl, largeTile_eq,
      List.getElem?_cons_zero, Option.map_some']
    exact congrArg some (show (exampleElement 5 6 0).base_height = 5 from rfl)
  · rw [show largeState.tiles 0 0 = largeTile from rfl, largeTile_eq,
      List.getElem?_cons_succ, List.getElem?_cons_zero, Option.map_some']
    exact congrArg some (show (exampleElement 3 8 0).base_height = 3 from rfl)

/-- C6, amended: a committed `tile_inspector_sort_elements_at` on a well-formed tile of at
most 32767 elements succeeds and leaves the run in non-decreasing order of (base height,
then clearance height): every adjacent pair, and so every pair, is in that order; a tile
A, B, C with base heights 5, 3, 4 ends as B, C, A (terminal flag aside). -/
theorem tile_inspector_sort_elements_at_sorts (s : GameState) (x y : Int) (flags : Nat)
    (hwf : wellFormedTile (s.tiles x y) = true) (hlen : (s.tiles x y).length ≤ 32767)
    (happly : flags &&& GAME_COMMAND_FLAG_APPLY ≠ 0) :
    ∃ s1, tile_inspector_sort_elements_at s x y flags = .ok (0, s1) ∧
      (∀ i (h : i + 1 < (s1.tiles x y).length),
        heightLe (s1.tiles x y)[i] (s1.tiles x y)[i + 1]) ∧
      List.Pairwise heightLe (s1.tiles x y) ∧
      (∀ a b c, s.tiles x y = [a, b, c] → a.base_height = 5 → b.base_height = 3 →
        c.base_height = 4 →
        (s1.tiles x y).map withLastFlag = [withLastFlag b, withLastFlag c, withLastFlag a]) := by
  obtain ⟨s1, h1, _, h3⟩ :=
    tile_inspector_sort_elements_at_spec s x y flags hwf (by omega) happly
  have hp : List.Pairwise heightLe (s1.tiles x y) := by
    have := sorted_contents_pairwise ((s.tiles x y).map withLastFlag)
    rw [← h3, List.pairwise_map] at this
    exact this
  refine ⟨s1, h1, ?_, hp, ?_⟩
  · intro i h
    exact (List.pairwise_iff_getElem.1 hp) i (i + 1) (by omega) h (by omega)
  · intro a b c habc ha hb hc
    rw [h3, habc]
    have e1 : ¬ heightGe (withLastFlag b) (withLastFlag a) := by
      unfold heightGe heightLe withLastFlag; simp only; omega
    have e2 : ¬ heightGe (withLastFlag c) (withLastFlag a) := by
      unfold heightGe heightLe withLastFlag; simp only; omega
    have e3 : heightGe (withLastFlag c) (withLastFlag b) := by
      unfold heightGe heightLe withLastFlag; simp only; omega
    simp [List.orderedInsert, e1, e2, e3]

theorem tile_inspector_sort_elements_at_sorts_witness :
    wellFormedTile (exampleState.tiles 0 0) = true ∧
    ∃ s1, tile_inspector_sort_elements_at exampleState 0 0 1 = .ok (0, s1) ∧
      List.Pairwise heightLe (s1.tiles 0 0) :=
  ⟨by decide,
    (tile_inspector_sort_elements_at_sorts exampleState 0 0 1 (by decide) (by decide)
      (by decide)).imp
      (fun _ h => ⟨h.1, h.2.2.1⟩)⟩

/-- C7, counterexample: on the well-formed tile of 32768 elements the committed
`tile_inspector_sort_elements_at` reaches no state at all, so there is no tile after the
sort in which the elements of equal heights could have kept their order: the first swap
fails the range assertion. -/
theorem tile_inspector_sort_elements_at_stable_large_tile_fails :
    wellFormedTile (largeState.tiles 0 0) = true ∧
    ¬ ∃ s1, tile_inspector_sort_elements_at largeState 0 0 1 = .ok (0, s1) ∧
      ∀ base clearance,
        ((s1.tiles 0 0).filter (hasHeights base clearance)).map withLastFlag
          = ((largeState.tiles 0 0).filter (hasHeights base clearance)).map withLastFlag := by
  refine ⟨largeTile_wellFormed, ?_⟩
  rintro ⟨s1, h1, _⟩
  rw [tile_inspector_sort_elements_at_largeState] at h1
  cases h1

/-- C7, amended: a committed `tile_inspector_sort_elements_at` on a well-formed tile of at
most 32767 elements is stable: for every base height and clearance height, the elements with
these heights appear after the sort in the same order as before it (terminal flag aside). -/
theorem tile_inspector_sort_elements_at_stable (s : GameState) (x y : Int) (flags : Nat)
    (hwf : wellFormedTile (s.tiles x y) = true) (hlen : (s.tiles x y).length ≤ 32767)
    (happly : flags &&& GAME_COMMAND_FLAG_APPLY ≠ 0) :
    ∃ s1, tile_inspector_sort_elements_at s x y flags = .ok (0, s1) ∧
      ∀ base clearance,
        ((s1.tiles x y).filter (hasHeights base clearance)).map withLastFlag
          = ((s.tiles x y).filter (hasHeights base clearance)).map withLastFlag := by
  obtain ⟨s1, h1, _, h3⟩ :=
    tile_inspector_sort_elements_at_spec s x y flags hwf (by omega) happly
  refine ⟨s1, h1, ?_⟩
  intro b c
  have hf : ∀ l : List rct_map_element,
      (l.filter (hasHeights b c)).map withLastFlag
        = (l.map withLastFlag).filter (hasHeights b c) := by
    intro l
    rw [List.filter_map]
    rfl
  rw [hf, hf, h3, filter_foldl_orderedInsert]
  simp

theorem tile_inspector_sort_elements_at_stable_witness :
    wellFormedTile (exampleTieState.tiles 0 0) = true ∧
    ((exampleTieState.tiles 0 0).filter (hasHeights 3 8)).map (fun e => e.properties0)
      = [1, 2] ∧
    ∃ s1, tile_inspector_sort_elements_at exampleTieState 0 0 1 = .ok (0, s1) ∧
      ((s1.tiles 0 0).filter (hasHeights 3 8)).map withLastFlag
        = [withLastFlag { exampleElement 3 8 0 with properties0 := 1 },
           withLastFlag { exampleElement 3 8 0 with properties0 := 2 }] :=
  ⟨by decide, by decide,
    (tile_inspector_sort_elements_at_stable exampleTieState 0 0 1 (by decide) (by decide)
      (by decide)).imp
      (fun _ h => ⟨h.1, (h.2 3 8).trans (by decide)⟩)⟩

/-- C8, counterexample: on the well-formed tile of 32768 elements no two committed calls of
`tile_inspector_sort_elements_at` in a row return: the first one fails the range assertion
of its first swap. -/
theorem tile_inspector_sort_elements_at_idempotent_large_tile_fails :
    wellFormedTile (largeState.tiles 0 0) = true ∧
    ¬ ∃ s1 s2, tile_inspector_sort_elements_at largeState 0 0 1 = .ok (0, s1) ∧
      tile_inspector_sort_elements_at s1 0 0 1 = .ok (0, s2) ∧
      s2.tiles 0 0 = s1.tiles 0 0 := by
  refine ⟨largeTile_wellFormed, ?_⟩
  rintro ⟨s1, s2, h1, _⟩
  rw [tile_inspector_sort_elements_at_largeState] at h1
  cases h1

/-- C8, amended: committing `tile_inspector_sort_elements_at` twice on a well-formed tile of
at most 32767 elements gives exactly the run, terminal flag included, that committing it
once gives. -/
theorem tile_inspector_sort_elements_at_idempotent (s : GameState) (x y : Int) (flags : Nat)
    (hwf : wellFormedTile (s.tiles x y) = true) (hlen : (s.tiles x y).length ≤ 32767)
    (happly : flags &&& GAME_COMMAND_FLAG_APPLY ≠ 0) :
    ∃ s1 s2, tile_inspector_sort_elements_at s x y flags = .ok (0, s1) ∧
      tile_inspector_sort_elements_at s1 x y flags = .ok (0, s2) ∧
      s2.tiles x y = s1.tiles x y := by
  obtain ⟨s1, h1, h2, h3⟩ :=
    tile_inspector_sort_elements_at_spec s x y flags hwf (by omega) happly
  have hlen1 : (s1.tiles x y).length = (s.tiles x y).length := sorted_contents_length h3
  obtain ⟨s2, g1, g2, g3⟩ :=
    tile_inspector_sort_elements_at_spec s1 x y flags h2 (by omega) happly
  refine ⟨s1, s2, h1, g1, ?_⟩
  apply eq_of_wellFormed_of_map g2 h2
  rw [g3]
  have hp : List.Pairwise heightLe ((s1.tiles x y).map withLastFlag) := by
    rw [h3]; exact sorted_contents_pairwise _
  rw [foldl_orderedInsert_of_sorted _ [] (by simpa using hp)]
  simp

theorem tile_inspector_sort_elements_at_idempotent_witness :
    wellFormedTile (exampleState.tiles 0 0) = true ∧
    ∃ s1 s2, tile_inspector_sort_elements_at exampleState 0 0 1 = .ok (0, s1) ∧
      tile_inspector_sort_elements_at s1 0 0 1 = .ok (0, s2) ∧
      s2.tiles 0 0 = s1.tiles 0 0 :=
  ⟨by decide,
    tile_inspector_sort_elements_at_idempotent exampleState 0 0 1 (by decide) (by decide)
      (by decide)⟩

/-! ## tile_inspector_any_base_height_offset -/

theorem toSint16_of_small {v : Int} (h1 : -32768 ≤ v) (h2 : v < 32768) : toSint16 v = v := by
  unfold toSint16; omega

theorem money32_undefined_ne_zero : (0 : Int) ≠ MONEY32_UNDEFINED := by decide

/-- C9: for an element with byte-sized heights and a `sint8` offset,
`tile_inspector_any_base_height_offset` returns, and it returns the failure sentinel
`MONEY32_UNDEFINED` exactly when base height + offset or clearance height + offset lies
outside `[0, 255]`; when it returns the sentinel the state, and with it the element's
heights, is unchanged, whatever the apply flag. -/
theorem tile_inspector_any_base_height_offset_fails_iff (s : GameState) (x y : Int) (i : Nat)
    (offset : Int) (flags : Nat) (e : rct_map_element)
    (he : (s.tiles x y)[i]? = some e)
    (hb : e.base_height < 256) (hc : e.clearance_height < 256)
    (ho1 : -128 ≤ offset) (ho2 : offset ≤ 127) :
    ∃ r s1, tile_inspector_any_base_height_offset s x y (i : Int) offset flags = .ok (r, s1) ∧
      (r = MONEY32_UNDEFINED ↔
        ((e.base_height : Int) + offset < 0 ∨ (e.base_height : Int) + offset > 255 ∨
          (e.clearance_height : Int) + offset < 0 ∨ (e.clearance_height : Int) + offset > 255)) ∧
      (r = MONEY32_UNDEFINED → s1 = s) := by
  have hneg : ¬ ((i : Int) < 0) := by omega
  have hsb : toSint16 ((e.base_height : Int) + offset) = (e.base_height : Int) + offset :=
    toSint16_of_small (by omega) (by omega)
  have hsc : toSint16 ((e.clearance_height : Int) + offset)
      = (e.clearance_height : Int) + offset := toSint16_of_small (by omega) (by omega)
  simp only [tile_inspector_any_base_height_offset, hneg, if_false, Int.toNat_ofNat, he, hsb,
    hsc]
  by_cases hr : (e.base_height : Int) + offset < 0 ∨ (e.base_height : Int) + offset > 255 ∨
      (e.clearance_height : Int) + offset < 0 ∨ (e.clearance_height : Int) + offset > 255
  · refine ⟨MONEY32_UNDEFINED, s, ?_, ?_, fun _ => rfl⟩
    · rw [if_pos (by simpa using hr)]
    · exact ⟨fun _ => hr, fun _ => rfl⟩
  · by_cases ha : flags &&& GAME_COMMAND_FLAG_APPLY ≠ 0
    · refine ⟨0, (setTile s x y ((s.tiles x y).set i
        { e with
          base_height := toUint8 ((e.base_height : Int) + offset)
          clearance_height := toUint8 ((e.clearance_height : Int) + offset) })), ?_, ?_, ?_⟩
      · rw [if_neg (by simpa using hr), if_pos ha]
      · exact ⟨fun h => absurd h money32_undefined_ne_zero, fun h => absurd h hr⟩
      · intro h; exact absurd h money32_undefined_ne_zero
    · refine ⟨0, s, ?_, ?_, fun _ => rfl⟩
      · rw [if_neg (by simpa using hr), if_neg ha]
      · exact ⟨fun h => absurd h money32_undefined_ne_zero, fun h => absurd h hr⟩

theorem tile_inspector_any_base_height_offset_fails_iff_witness :
    (exampleState.tiles 0 0)[1]? = some (exampleElement 3 8 0) ∧
    ∃ r s1, tile_inspector_any_base_height_offset exampleState 0 0 1 (-4) 1 = .ok (r, s1) ∧
      (r = MONEY32_UNDEFINED → s1 = exampleState) :=
  ⟨rfl,
    (tile_inspector_any_base_height_offset_fails_iff exampleState 0 0 1 (-4) 1
      (exampleElement 3 8 0) rfl (by decide) (by decide) (by decide) (by decide)).imp
      (fun _ h => h.imp (fun _ h2 => ⟨h2.1, h2.2.2⟩))⟩

/-- C10: for an element and an offset that keeps both heights within `[0, 255]`, a
committed `tile_inspector_any_base_height_offset` succeeds; the
element's new base and clearance heights are the old ones plus the offset as integers, its
other fields are unchanged, and so is every other element of the tile and every other
tile. -/
theorem tile_inspector_any_base_height_offset_exact (s : GameState) (x y : Int) (i : Nat)
    (offset : Int) (flags : Nat) (e : rct_map_element)
    (he : (s.tiles x y)[i]? = some e)
    (hb1 : 0 ≤ (e.base_height : Int) + offset) (hb2 : (e.base_height : Int) + offset ≤ 255)
    (hc1 : 0 ≤ (e.clearance_height : Int) + offset)
    (hc2 : (e.clearance_height : Int) + offset ≤ 255)
    (happly : flags &&& GAME_COMMAND_FLAG_APPLY ≠ 0) :
    ∃ s1 e1, tile_inspector_any_base_height_offset s x y (i : Int) offset flags = .ok (0, s1) ∧
      (s1.tiles x y)[i]? = some e1 ∧
      (e1.base_height : Int) = (e.base_height : Int) + offset ∧
      (e1.clearance_height : Int) = (e.clearance_height : Int) + offset ∧
      e1 = { e with base_height := e1.base_height, clearance_height := e1.clearance_height } ∧
      (s1.tiles x y).length = (s.tiles x y).length ∧
      (∀ j, j ≠ i → (s1.tiles x y)[j]? = (s.tiles x y)[j]?) ∧
      (∀ a b, ¬ (a = x ∧ b = y) → s1.tiles a b = s.tiles a b) := by
  have hneg : ¬ ((i : Int) < 0) := by omega
  have hsb : toSint16 ((e.base_height : Int) + offset) = (e.base_height : Int) + offset :=
    toSint16_of_small (by omega) (by omega)
  have hsc : toSint16 ((e.clearance_height : Int) + offset)
      = (e.clearance_height : Int) + offset := toSint16_of_small (by omega) (by omega)
  have hr : ¬ ((e.base_height : Int) + offset < 0 ∨ (e.base_height : Int) + offset > 255 ∨
      (e.clearance_height : Int) + offset < 0 ∨ (e.clearance_height : Int) + offset > 255) := by
    omega
  have hi : i < (s.tiles x y).length := by
    rcases Nat.lt_or_ge i (s.tiles x y).length with h | h
    · exact h
    · rw [List.getElem?_eq_none h] at he
      exact absurd he (by simp)
  refine ⟨(setTile s x y ((s.tiles x y).set i
        { e with
          base_height := toUint8 ((e.base_height : Int) + offset)
          clearance_height := toUint8 ((e.clearance_height : Int) + offset) })), { e with
      base_height := toUint8 ((e.base_height : Int) + offset)
      clearance_height := toUint8 ((e.clearance_height : Int) + offset) }, ?_, ?_, ?_, ?_, rfl,
    ?_, ?_, ?_⟩
  · simp only [tile_inspector_any_base_height_offset, hneg, if_false, Int.toNat_ofNat, he, hsb,
      hsc]
    rw [if_neg (by simpa using hr), if_pos happly]
  · rw [setTile_tiles_same]
    simp [List.getElem?_set, hi]
  · simp only [toUint8]; omega
  · simp only [toUint8]; omega
  · rw [setTile_tiles_same]; simp
  · intro j hj
    rw [setTile_tiles_same]
    simp [List.getElem?_set, Ne.symm hj]
  · intro a b hab
    simp [setTile, hab]

theorem tile_inspector_any_base_height_offset_exact_witness :
    (exampleState.tiles 0 0)[1]? = some (exampleElement 3 8 0) ∧
    ∃ s1 e1, tile_inspector_any_base_height_offset exampleState 0 0 1 (-3) 1 = .ok (0, s1) ∧
      (s1.tiles 0 0)[1]? = some e1 ∧ (e1.base_height : Int) = 3 + -3 ∧
      (e1.clearance_height : Int) = 8 + -3 :=
  ⟨rfl,
    (tile_inspector_any_base_height_offset_exact exampleState 0 0 1 (-3) 1
      (exampleElement 3 8 0) rfl (by decide) (by decide) (by decide) (by decide)
      (by decide)).imp
      (fun _ h => h.imp (fun _ h2 => ⟨h2.1, h2.2.1, h2.2.2.1, h2.2.2.2.1⟩))⟩

/-! ## Dry runs -/

theorem leavesState_of_forall {f : GameState → Except Failure (Int × GameState)}
    {s : GameState} (h : ∀ r s1, f s = .ok (r, s1) → s1 = s) : LeavesState f s := by
  intro r s1 h1
  have h2 := h r s1 h1
  subst h2
  exact ⟨rfl, h1⟩

theorem ok_state_eq {v r : Int} {s s1 : GameState}
    (h : (Except.ok (v, s) : Except Failure (Int × GameState)) = .ok (r, s1)) : s1 = s := by
  simp only [Except.ok.injEq, Prod.mk.injEq] at h
  exact h.2.symm

theorem leavesState_of_returnsUnchanged {f : GameState → Except Failure (Int × GameState)}
    {s : GameState} (h : ReturnsUnchanged f s) : LeavesState f s := by
  obtain ⟨r0, h0⟩ := h
  apply leavesState_of_forall
  intro r s1 h1
  rw [h0] at h1
  exact ok_state_eq h1

theorem dry_insert_corrupt (s : GameState) (x y i : Int) (flags : Nat)
    (hdry : flags &&& GAME_COMMAND_FLAG_APPLY = 0) :
    ReturnsUnchanged (fun s => tile_inspector_insert_corrupt_at s x y i flags) s := by
  unfold ReturnsUnchanged tile_inspector_insert_corrupt_at
  simp only [hdry, ne_eq, not_true_eq_false, if_false]
  split
  · exact ⟨_, rfl⟩
  · exact ⟨_, rfl⟩

theorem dry_paste (s : GameState) (x y : Int) (element : rct_map_element) (flags : Nat)
    (hdry : flags &&& GAME_COMMAND_FLAG_APPLY = 0) :
    ReturnsUnchanged (fun s => tile_inspector_paste_element_at s x y element flags) s := by
  unfold ReturnsUnchanged tile_inspector_paste_element_at
  simp only [hdry, ne_eq, not_true_eq_false, if_false]
  split
  · exact ⟨_, rfl⟩
  · exact ⟨_, rfl⟩

theorem dry_surface_show_park_fences (upf : GameState → Int → Int → GameState)
    (s : GameState) (x y : Int) (show_fences : Bool) (flags : Nat)
    (hdry : flags &&& GAME_COMMAND_FLAG_APPLY = 0) :
    ReturnsUnchanged
      (fun s => tile_inspector_surface_show_park_fences upf s x y show_fences flags) s := by
  unfold ReturnsUnchanged tile_inspector_surface_show_park_fences
  simp only [hdry, ne_eq, not_true_eq_false, if_false]
  split
  · exact ⟨_, rfl⟩
  · exact ⟨_, rfl⟩

theorem dry_surface_toggle_corner (s : GameState) (x y : Int) (corner_index : Nat)
    (flags : Nat) (hdry : flags &&& GAME_COMMAND_FLAG_APPLY = 0) :
    ReturnsUnchanged (fun s => tile_inspector_surface_toggle_corner s x y corner_index flags)
      s := by
  unfold ReturnsUnchanged tile_inspector_surface_toggle_corner
  simp only [hdry, ne_eq, not_true_eq_false, if_false]
  split
  · exact ⟨_, rfl⟩
  · exact ⟨_, rfl⟩

theorem dry_surface_toggle_diagonal (s : GameState) (x y : Int) (flags : Nat)
    (hdry : flags &&& GAME_COMMAND_FLAG_APPLY = 0) :
    ReturnsUnchanged (fun s => tile_inspector_surface_toggle_diagonal s x y flags) s := by
  unfold ReturnsUnchanged tile_inspector_surface_toggle_diagonal
  simp only [hdry, ne_eq, not_true_eq_false, if_false]
  split
  · exact ⟨_, rfl⟩
  · exact ⟨_, rfl⟩

theorem dry_any_base_height_offset (s : GameState) (x y i offset : Int) (flags : Nat)
    (hdry : flags &&& GAME_COMMAND_FLAG_APPLY = 0) :
    LeavesState (fun s => tile_inspector_any_base_height_offset s x y i offset flags) s ∧
    (∀ e, 0 ≤ i → (s.tiles x y)[i.toNat]? = some e →
      ReturnsUnchanged
        (fun s => tile_inspector_any_base_height_offset s x y i offset flags) s) := by
  constructor
  · apply leavesState_of_forall
    intro r s1 h
    simp only [tile_inspector_any_base_height_offset, hdry, ne_eq, not_true_eq_false,
      if_false] at h
    repeat' split at h
    all_goals first | exact ok_state_eq h | exact absurd h (by simp)
  · intro e hi he
    have hneg : ¬ i < 0 := by omega
    unfold ReturnsUnchanged
    simp only [tile_inspector_any_base_height_offset, hdry, ne_eq, not_true_eq_false,
      if_false, hneg, he]
    split
    · exact ⟨_, rfl⟩
    · exact ⟨_, rfl⟩

theorem dry_path_set_sloped (s : GameState) (x y i : Int) (sloped : Bool) (flags : Nat)
    (hdry : flags &&& GAME_COMMAND_FLAG_APPLY = 0) :
    LeavesState (fun s => tile_inspector_path_set_sloped s x y i sloped flags) s ∧
    (∀ e, 0 ≤ i → (s.tiles x y)[i.toNat]? = some e →
      ReturnsUnchanged (fun s => tile_inspector_path_set_sloped s x y i sloped flags) s) := by
  constructor
  · apply leavesState_of_forall
    intro r s1 h
    simp only [tile_inspector_path_set_sloped, hdry, ne_eq, not_true_eq_false,
      if_false] at h
    repeat' split at h
    all_goals first | exact ok_state_eq h | exact absurd h (by simp)
  · intro e hi he
    have hneg : ¬ i < 0 := by omega
    unfold ReturnsUnchanged
    simp only [tile_inspector_path_set_sloped, hdry, ne_eq, not_true_eq_false,
      if_false, hneg, he]
    split
    · exact ⟨_, rfl⟩
    · exact ⟨_, rfl⟩

theorem dry_fence_set_slope (s : GameState) (x y i slope_value : Int) (flags : Nat)
    (hdry : flags &&& GAME_COMMAND_FLAG_APPLY = 0) :
    LeavesState (fun s => tile_inspector_fence_set_slope s x y i slope_value flags) s ∧
    (∀ e, 0 ≤ i → (s.tiles x y)[i.toNat]? = some e →
      ReturnsUnchanged (fun s => tile_inspector_fence_set_slope s x y i slope_value flags)
        s) := by
  constructor
  · apply leavesState_of_forall
    intro r s1 h
    simp only [tile_inspector_fence_set_slope, hdry, ne_eq, not_true_eq_false,
      if_false] at h
    repeat' split at h
    all_goals first | exact ok_state_eq h | exact absurd h (by simp)
  · intro e hi he
    have hneg : ¬ i < 0 := by omega
    unfold ReturnsUnchanged
    simp only [tile_inspector_fence_set_slope, hdry, ne_eq, not_true_eq_false,
      if_false, hneg, he]
    split
    · exact ⟨_, rfl⟩
    · exact ⟨_, rfl⟩

theorem dry_scenery_set_quarter_location (s : GameState) (x y i quarter_index : Int)
    (flags : Nat) (hdry : flags &&& GAME_COMMAND_FLAG_APPLY = 0) :
    LeavesState
      (fun s => tile_inspector_scenery_set_quarter_location s x y i quarter_index flags) s ∧
    (∀ e, 0 ≤ i → (s.tiles x y)[i.toNat]? = some e →
      ReturnsUnchanged
        (fun s => tile_inspector_scenery_set_quarter_location s x y i quarter_index flags)
        s) := by
  constructor
  · apply leavesState_of_forall
    intro r s1 h
    simp only [tile_inspector_scenery_set_quarter_location, hdry, ne_eq, not_true_eq_false,
      if_false] at h
    repeat' split at h
    all_goals first | exact ok_state_eq h | exact absurd h (by simp)
  · intro e hi he
    have hneg : ¬ i < 0 := by omega
    unfold ReturnsUnchanged
    simp only [tile_inspector_scenery_set_quarter_location, hdry, ne_eq, not_true_eq_false,
      if_false, hneg, he]
    split
    · exact ⟨_, rfl⟩
    · exact ⟨_, rfl⟩

theorem dry_track_base_height_offset (gtd : Nat → Nat → List rct_preview_track)
    (s : GameState) (x y i offset : Int) (flags : Nat)
    (hdry : flags &&& GAME_COMMAND_FLAG_APPLY = 0) :
    LeavesState (fun s => tile_inspector_track_base_height_offset gtd s x y i offset flags)
      s ∧
    (∀ e, 0 ≤ i → (s.tiles x y)[i.toNat]? = some e →
      ReturnsUnchanged
        (fun s => tile_inspector_track_base_height_offset gtd s x y i offset flags) s) := by
  constructor
  · apply leavesState_of_forall
    intro r s1 h
    simp only [tile_inspector_track_base_height_offset, hdry, ne_eq, not_true_eq_false,
      if_false] at h
    repeat' split at h
    all_goals first | exact ok_state_eq h | exact absurd h (by simp)
  · intro e hi he
    have hneg : ¬ i < 0 := by omega
    unfold ReturnsUnchanged
    simp only [tile_inspector_track_base_height_offset, hdry, ne_eq, not_true_eq_false,
      if_false, hneg, he]
    split
    · exact ⟨_, rfl⟩
    · split
      · exact ⟨_, rfl⟩
      · exact ⟨_, rfl⟩

theorem dry_track_set_chain (gtd : Nat → Nat → List rct_preview_track)
    (s : GameState) (x y i : Int) (entire_track_block set_chain : Bool) (flags : Nat)
    (hdry : flags &&& GAME_COMMAND_FLAG_APPLY = 0) :
    LeavesState
      (fun s => tile_inspector_track_set_chain gtd s x y i entire_track_block set_chain flags)
      s ∧
    (∀ e, 0 ≤ i → (s.tiles x y)[i.toNat]? = some e →
      ReturnsUnchanged
        (fun s =>
          tile_inspector_track_set_chain gtd s x y i entire_track_block set_chain flags)
        s) := by
  constructor
  · apply leavesState_of_forall
    intro r s1 h
    simp only [tile_inspector_track_set_chain, hdry, ne_eq, not_true_eq_false,
      if_false] at h
    repeat' split at h
    all_goals first | exact ok_state_eq h | exact absurd h (by simp)
  · intro e hi he
    have hneg : ¬ i < 0 := by omega
    unfold ReturnsUnchanged
    simp only [tile_inspector_track_set_chain, hdry, ne_eq, not_true_eq_false,
      if_false, hneg, he]
    split
    · exact ⟨_, rfl⟩
    · exact ⟨_, rfl⟩

theorem dry_remove (s : GameState) (x y i : Int) (flags : Nat)
    (hdry : flags &&& GAME_COMMAND_FLAG_APPLY = 0) :
    ReturnsUnchanged (fun s => tile_inspector_remove_element_at s x y i flags) s :=
  ⟨0, by simp [tile_inspector_remove_element_at, hdry]⟩

theorem dry_swap (s : GameState) (x y first second : Int) (flags : Nat)
    (hdry : flags &&& GAME_COMMAND_FLAG_APPLY = 0) :
    ReturnsUnchanged (fun s => tile_inspector_swap_elements_at s x y first second flags) s :=
  ⟨0, by simp [tile_inspector_swap_elements_at, hdry]⟩

theorem dry_rotate (s : GameState) (x y i : Int) (flags : Nat)
    (hdry : flags &&& GAME_COMMAND_FLAG_APPLY = 0) :
    ReturnsUnchanged (fun s => tile_inspector_rotate_element_at s x y i flags) s :=
  ⟨0, by simp [tile_inspector_rotate_element_at, hdry]⟩

theorem dry_sort (s : GameState) (x y : Int) (flags : Nat)
    (hdry : flags &&& GAME_COMMAND_FLAG_APPLY = 0) :
    ReturnsUnchanged (fun s => tile_inspector_sort_elements_at s x y flags) s :=
  ⟨0, by simp [tile_inspector_sort_elements_at, hdry]⟩

theorem dry_path_toggle_edge (s : GameState) (x y i : Int) (edge_index : Nat) (flags : Nat)
    (hdry : flags &&& GAME_COMMAND_FLAG_APPLY = 0) :
    ReturnsUnchanged (fun s => tile_inspector_path_toggle_edge s x y i edge_index flags) s :=
  ⟨0, by simp [tile_inspector_path_toggle_edge, hdry]⟩

/-- C11: with the apply flag unset, every mutator of the tile inspector leaves the whole
state (every tile's run, the selected index, the cached element count and the page) as it
is whenever it returns, so that the call can be repeated with the same return value and the
same state; the mutators that do not read the target element in a dry run always return,
and the others return whenever `element_index` is a position of the tile. -/
theorem dry_runs_are_pure (update_park_fences : GameState → Int → Int → GameState)
    (get_track_def_from_ride : Nat → Nat → List rct_preview_track)
    (s : GameState) (x y element_index second height_offset slope_value quarter_index : Int)
    (corner_index edge_index : Nat) (show_fences sloped entire_track_block set_chain : Bool)
    (element : rct_map_element) (flags : Nat)
    (hdry : flags &&& GAME_COMMAND_FLAG_APPLY = 0) :
    (LeavesState (fun s => tile_inspector_insert_corrupt_at s x y element_index flags) s ∧
     LeavesState (fun s => tile_inspector_remove_element_at s x y element_index flags) s ∧
     LeavesState
       (fun s => tile_inspector_swap_elements_at s x y element_index second flags) s ∧
     LeavesState (fun s => tile_inspector_rotate_element_at s x y element_index flags) s ∧
     LeavesState (fun s => tile_inspector_paste_element_at s x y element flags) s ∧
     LeavesState (fun s => tile_inspector_sort_elements_at s x y flags) s ∧
     LeavesState
       (fun s => tile_inspector_any_base_height_offset s x y element_index height_offset flags)
       s ∧
     LeavesState
       (fun s => tile_inspector_track_base_height_offset get_track_def_from_ride s x y
         element_index height_offset flags) s ∧
     LeavesState
       (fun s => tile_inspector_surface_show_park_fences update_park_fences s x y show_fences
         flags) s ∧
     LeavesState (fun s => tile_inspector_surface_toggle_corner s x y corner_index flags) s ∧
     LeavesState (fun s => tile_inspector_surface_toggle_diagonal s x y flags) s ∧
     LeavesState (fun s => tile_inspector_path_set_sloped s x y element_index sloped flags) s ∧
     LeavesState
       (fun s => tile_inspector_path_toggle_edge s x y element_index edge_index flags) s ∧
     LeavesState
       (fun s => tile_inspector_fence_set_slope s x y element_index slope_value flags) s ∧
     LeavesState
       (fun s => tile_inspector_track_set_chain get_track_def_from_ride s x y element_index
         entire_track_block set_chain flags) s ∧
     LeavesState
       (fun s => tile_inspector_scenery_set_quarter_location s x y element_index quarter_index
         flags) s) ∧
    (ReturnsUnchanged (fun s => tile_inspector_insert_corrupt_at s x y element_index flags) s ∧
     ReturnsUnchanged (fun s => tile_inspector_remove_element_at s x y element_index flags) s ∧
     ReturnsUnchanged
       (fun s => tile_inspector_swap_elements_at s x y element_index second flags) s ∧
     ReturnsUnchanged (fun s => tile_inspector_rotate_element_at s x y element_index flags) s ∧
     ReturnsUnchanged (fun s => tile_inspector_paste_element_at s x y element flags) s ∧
     ReturnsUnchanged (fun s => tile_inspector_sort_elements_at s x y flags) s ∧
     ReturnsUnchanged
       (fun s => tile_inspector_surface_show_park_fences update_park_fences s x y show_fences
         flags) s ∧
     ReturnsUnchanged
       (fun s => tile_inspector_surface_toggle_corner s x y corner_index flags) s ∧
     ReturnsUnchanged (fun s => tile_inspector_surface_toggle_diagonal s x y flags) s ∧
     ReturnsUnchanged
       (fun s => tile_inspector_path_toggle_edge s x y element_index edge_index flags) s) ∧
    (∀ e, 0 ≤ element_index → (s.tiles x y)[element_index.toNat]? = some e →
      ReturnsUnchanged
        (fun s => tile_inspector_any_base_height_offset s x y element_index height_offset
          flags) s ∧
      ReturnsUnchanged
        (fun s => tile_inspector_track_base_height_offset get_track_def_from_ride s x y
          element_index height_offset flags) s ∧
      ReturnsUnchanged
        (fun s => tile_inspector_path_set_sloped s x y element_index sloped flags) s ∧
      ReturnsUnchanged
        (fun s => tile_inspector_fence_set_slope s x y element_index slope_value flags) s ∧
      ReturnsUnchanged
        (fun s => tile_inspector_track_set_chain get_track_def_from_ride s x y element_index
          entire_track_block set_chain flags) s ∧
      ReturnsUnchanged
        (fun s => tile_inspector_scenery_set_quarter_location s x y element_index
          quarter_index flags) s) := by
  have r1 := dry_insert_corrupt s x y element_index flags hdry
  have r2 := dry_remove s x y element_index flags hdry
  have r3 := dry_swap s x y element_index second flags hdry
  have r4 := dry_rotate s x y element_index flags hdry
  have r5 := dry_paste s x y element flags hdry
  have r6 := dry_sort s x y flags hdry
  have r7 := dry_surface_show_park_fences update_park_fences s x y show_fences flags hdry
  have r8 := dry_surface_toggle_corner s x y corner_index flags hdry
  have r9 := dry_surface_toggle_diagonal s x y flags hdry
  have r10 := dry_path_toggle_edge s x y element_index edge_index flags hdry
  have q1 := dry_any_base_height_offset s x y element_index height_offset flags hdry
  have q2 := dry_track_base_height_offset get_track_def_from_ride s x y element_index
    height_offset flags hdry
  have q3 := dry_path_set_sloped s x y element_index sloped flags hdry
  have q4 := dry_fence_set_slope s x y element_index slope_value flags hdry
  have q5 := dry_track_set_chain get_track_def_from_ride s x y element_index
    entire_track_block set_chain flags hdry
  have q6 := dry_scenery_set_quarter_location s x y element_index quarter_index flags hdry
  refine ⟨⟨leavesState_of_returnsUnchanged r1, leavesState_of_returnsUnchanged r2,
    leavesState_of_returnsUnchanged r3, leavesState_of_returnsUnchanged r4,
    leavesState_of_returnsUnchanged r5, leavesState_of_returnsUnchanged r6, q1.1, q2.1,
    leavesState_of_returnsUnchanged r7, leavesState_of_returnsUnchanged r8,
    leavesState_of_returnsUnchanged r9, q3.1, leavesState_of_returnsUnchanged r10, q4.1, q5.1,
    q6.1⟩, ⟨r1, r2, r3, r4, r5, r6, r7, r8, r9, r10⟩, ?_⟩
  intro e h0 he
  exact ⟨q1.2 e h0 he, q2.2 e h0 he, q3.2 e h0 he, q4.2 e h0 he, q5.2 e h0 he, q6.2 e h0 he⟩

theorem dry_runs_are_pure_witness :
    (0 : Nat) &&& GAME_COMMAND_FLAG_APPLY = 0 ∧
    LeavesState (fun s => tile_inspector_insert_corrupt_at s 0 0 1 0) exampleState ∧
    ReturnsUnchanged (fun s => tile_inspector_sort_elements_at s 0 0 0) exampleState :=
  ⟨by decide,
    (dry_runs_are_pure (fun s _ _ => s) (fun _ _ => []) exampleState 0 0 1 2 1 0 0 0 0
      true true true true (exampleElement 1 1 0) 0 (by decide)).1.1,
    (dry_runs_are_pure (fun s _ _ => s) (fun _ _ => []) exampleState 0 0 1 2 1 0 0 0 0
      true true true true (exampleElement 1 1 0) 0 (by decide)).2.1.2.2.2.2.2.1⟩

/-! ## Variant checks -/

/-- The mutators that test the variant of the target element return the failure sentinel and
leave the state as it is when the element is of another variant, whatever the apply flag. -/
theorem variant_checked_mutators (get_track_def_from_ride : Nat → Nat → List rct_preview_track)
    (s : GameState) (x y : Int) (i : Nat) (e : rct_map_element) (flags : Nat)
    (sloped entire_track_block set_chain : Bool) (slope_value quarter_index offset : Int)
    (he : (s.tiles x y)[i]? = some e) :
    (map_element_get_type e ≠ MAP_ELEMENT_TYPE_PATH →
      tile_inspector_path_set_sloped s x y (i : Int) sloped flags
        = .ok (MONEY32_UNDEFINED, s)) ∧
    (map_element_get_type e ≠ MAP_ELEMENT_TYPE_FENCE →
      tile_inspector_fence_set_slope s x y (i : Int) slope_value flags
        = .ok (MONEY32_UNDEFINED, s)) ∧
    (map_element_get_type e ≠ MAP_ELEMENT_TYPE_SCENERY →
      tile_inspector_scenery_set_quarter_location s x y (i : Int) quarter_index flags
        = .ok (MONEY32_UNDEFINED, s)) ∧
    (map_element_get_type e ≠ MAP_ELEMENT_TYPE_TRACK →
      tile_inspector_track_base_height_offset get_track_def_from_ride s x y (i : Int) offset
        flags = .ok (MONEY32_UNDEFINED, s)) ∧
    (map_element_get_type e ≠ MAP_ELEMENT_TYPE_TRACK →
      tile_inspector_track_set_chain get_track_def_from_ride s x y (i : Int)
        entire_track_block set_chain flags = .ok (MONEY32_UNDEFINED, s)) := by
  have hneg : ¬ ((i : Int) < 0) := by omega
  refine ⟨?_, ?_, ?_, ?_, ?_⟩
  · intro h
    simp [tile_inspector_path_set_sloped, hneg, he, h]
  · intro h
    simp [tile_inspector_fence_set_slope, hneg, he, h]
  · intro h
    simp [tile_inspector_scenery_set_quarter_location, hneg, he, h]
  · intro h
    by_cases ho : offset = 0
    · simp [tile_inspector_track_base_height_offset, ho]
    · simp [tile_inspector_track_base_height_offset, ho, hneg, he, h]
  · intro h
    simp [tile_inspector_track_set_chain, hneg, he, h]

/-- C12: evaluation of `tile_inspector_path_toggle_edge` on the sample tile, whose element 0
is not a Path element: the committed call returns 0, not `MONEY32_UNDEFINED`, and has
toggled bit 0 of the element's third payload byte; the dry run returns 0 as well. -/
theorem tile_inspector_path_toggle_edge_unchecked :
    (exampleState.tiles 0 0)[0]? = some (exampleElement 5 6 0) ∧
    map_element_get_type (exampleElement 5 6 0) ≠ MAP_ELEMENT_TYPE_PATH ∧
    (∃ s1, tile_inspector_path_toggle_edge exampleState 0 0 0 0 1 = .ok (0, s1) ∧
      (s1.tiles 0 0)[0]? = some { exampleElement 5 6 0 with properties2 := 1 }) ∧
    tile_inspector_path_toggle_edge exampleState 0 0 0 0 0 = .ok (0, exampleState) :=
  ⟨rfl, by decide, ⟨_, rfl, rfl⟩, rfl⟩

/-! ## Selection after a removal -/

/-- C14: a committed `tile_inspector_remove_element_at` of a valid index `r` on the
inspected tile decreases the cached element count by one; a selection equal to `r` becomes
`-1` with the default page, a selection above `r` goes down by one and a selection below
`r` stays. -/
theorem tile_inspector_remove_element_at_selection (s : GameState) (x y : Int) (r : Nat)
    (flags : Nat) (w : rct_window)
    (happly : flags &&& GAME_COMMAND_FLAG_APPLY ≠ 0)
    (hr : r < (s.tiles x y).length)
    (hw : s.tile_inspector_window = some w)
    (hx : toUint32 x = s.windowTileInspectorTileX)
    (hy : toUint32 y = s.windowTileInspectorTileY) :
    ∃ s1, tile_inspector_remove_element_at s x y (r : Int) flags = .ok (0, s1) ∧
      s1.windowTileInspectorElementCount = s.windowTileInspectorElementCount - 1 ∧
      (w.selected_list_item = (r : Int) →
        s1.tile_inspector_window
          = some { selected_list_item := -1, page := tile_inspector_page.default }) ∧
      (w.selected_list_item > (r : Int) →
        s1.tile_inspector_window
          = some { selected_list_item := w.selected_list_item - 1, page := w.page }) ∧
      (w.selected_list_item < (r : Int) → s1.tile_inspector_window = some w) := by
  have hrange : ¬ ((r : Int) < 0 ∨ (s.tiles x y).length ≤ (r : Int).toNat) := by
    simp only [Int.toNat_ofNat]; omega
  have hin : inspectedWindow
      (setTile s x y (map_element_remove_run (s.tiles x y) (r : Int).toNat)) x y = some w := by
    simp [inspectedWindow, setTile, hw, hx, hy]
  refine ⟨removeElementWindow
    (setTile s x y (map_element_remove_run (s.tiles x y) (r : Int).toNat)) x y r, ?_, ?_, ?_,
    ?_, ?_⟩
  · simp only [tile_inspector_remove_element_at, happly, ne_eq, not_false_eq_true, if_true,
      hrange, if_false]
  · simp only [removeElementWindow, hin]
    rfl
  · intro h
    have h2 : ¬ (w.selected_list_item > (r : Int)) := by omega
    simp only [removeElementWindow, hin, if_neg h2, if_pos h]
  · intro h
    simp only [removeElementWindow, hin, h, if_true]
  · intro h
    have h2 : ¬ (w.selected_list_item > (r : Int)) := by omega
    have h3 : ¬ (w.selected_list_item = (r : Int)) := by omega
    simp only [removeElementWindow, hin, h2, h3, if_false]

theorem tile_inspector_remove_element_at_selection_witness :
    exampleState.tile_inspector_window
      = some { selected_list_item := 1, page := tile_inspector_page.default } ∧
    ∃ s1, tile_inspector_remove_element_at exampleState 0 0 0 1 = .ok (0, s1) ∧
      s1.windowTileInspectorElementCount = 3 - 1 ∧
      s1.tile_inspector_window
        = some { selected_list_item := 1 - 1, page := tile_inspector_page.default } :=
  ⟨rfl,
    (tile_inspector_remove_element_at_selection exampleState 0 0 0 1
      { selected_list_item := 1, page := tile_inspector_page.default } (by decide) (by decide)
      rfl rfl rfl).imp
      (fun _ h => ⟨h.1, h.2.1, h.2.2.2.1 (by decide)⟩)⟩

/-! ## Surface operations -/

theorem map_get_surface_element_at_some {t : List rct_map_element} {k : Nat}
    (h : map_get_surface_element_at t = some k) :
    ∃ e, t[k]? = some e ∧ map_element_get_type e = MAP_ELEMENT_TYPE_SURFACE := by
  induction t generalizing k with
  | nil => simp [map_get_surface_element_at] at h
  | cons e rest ih =>
    unfold map_get_surface_element_at at h
    split at h
    · next hs =>
      simp only [Option.some.injEq] at h
      subst h
      exact ⟨e, by simp, hs⟩
    · split at h
      · simp at h
      · cases hr : map_get_surface_element_at rest with
        | none => simp [hr] at h
        | some j =>
          simp only [hr, Option.some.injEq] at h
          subst h
          obtain ⟨e2, h1, h2⟩ := ih hr
          exact ⟨e2, by simpa using h1, h2⟩

/-- A committed `tile_inspector_surface_toggle_corner` on a tile whose surface element is
`surface` in slot `k` returns 0 and writes `surfaceToggleCorner surface corner_index` to
that slot. -/
theorem tile_inspector_surface_toggle_corner_spec (s : GameState) (x y : Int)
    (corner_index : Nat) (flags : Nat) (k : Nat) (surface : rct_map_element)
    (happly : flags &&& GAME_COMMAND_FLAG_APPLY ≠ 0)
    (hk : map_get_surface_element_at (s.tiles x y) = some k)
    (hs : (s.tiles x y)[k]? = some surface) :
    tile_inspector_surface_toggle_corner s x y corner_index flags
      = .ok (0, setTile s x y ((s.tiles x y).set k (surfaceToggleCorner surface corner_index))) := by
  simp only [tile_inspector_surface_toggle_corner, hk, happly, ne_eq, not_false_eq_true,
    if_true, modifyAt, hs]

theorem tile_inspector_surface_toggle_diagonal_spec (s : GameState) (x y : Int)
    (flags : Nat) (k : Nat) (surface : rct_map_element)
    (happly : flags &&& GAME_COMMAND_FLAG_APPLY ≠ 0)
    (hk : map_get_surface_element_at (s.tiles x y) = some k)
    (hs : (s.tiles x y)[k]? = some surface) :
    tile_inspector_surface_toggle_diagonal s x y flags
      = .ok (0, setTile s x y ((s.tiles x y).set k (surfaceToggleDiagonal surface))) := by
  simp only [tile_inspector_surface_toggle_diagonal, hk, happly, ne_eq, not_false_eq_true,
    if_true, modifyAt, hs]

theorem getElem?_set_self_of_some {t : List rct_map_element} {k : Nat}
    {e : rct_map_element} (h : t[k]? = some e) (v : rct_map_element) :
    (t.set k v)[k]? = some v := by
  have hk : k < t.length := by
    rcases Nat.lt_or_ge k t.length with h1 | h1
    · exact h1
    · rw [List.getElem?_eq_none h1] at h
      exact absurd h (by simp)
  simp [List.getElem?_set, hk]


set_option maxRecDepth 100000 in
theorem corner_promotion_slope : ∀ sl, sl < 256 → ∀ c, c < 4 →
    sl &&& 0x0F = 0x0F ^^^ (1 <<< c) →
    cornerToggledSlope sl c &&& 0x0F = 0x0F ∧
    allCornersSlope sl (cornerToggledSlope sl c) &&& 0x10 = 0 ∧
    allCornersSlope sl (cornerToggledSlope sl c) &&& 0xE0 = sl &&& 0xE0 := by
  decide

set_option maxRecDepth 100000 in
theorem corner_promotion_flat : ∀ sl, sl < 256 → ∀ c, c < 4 →
    sl &&& 0x0F = 0x0F ^^^ (1 <<< c) → sl &&& 0x10 = 0 →
    surfaceDiagonal sl = false ∧
      allCornersSlope sl (cornerToggledSlope sl c) &&& 0x0F = 0 := by
  decide

set_option maxRecDepth 100000 in
theorem surfaceDiagonal_of_bit : ∀ sl, sl < 256 → sl &&& 0x10 ≠ 0 →
    surfaceDiagonal sl = true := by
  decide

set_option maxRecDepth 100000 in
theorem corner_promotion_row0 : ∀ sl, sl < 256 → ∀ c, c < 4 → sl &&& 0x10 ≠ 0 →
    sl &&& 0x0F = 0b1011 → allCornersSlope sl (cornerToggledSlope sl c) &&& 0x0F = 1 <<< 0 := by
  decide

set_option maxRecDepth 100000 in
theorem corner_promotion_row1 : ∀ sl, sl < 256 → ∀ c, c < 4 → sl &&& 0x10 ≠ 0 →
    sl &&& 0x0F = 0b0111 → allCornersSlope sl (cornerToggledSlope sl c) &&& 0x0F = 1 <<< 1 := by
  decide

set_option maxRecDepth 100000 in
theorem corner_promotion_row2 : ∀ sl, sl < 256 → ∀ c, c < 4 → sl &&& 0x10 ≠ 0 →
    sl &&& 0x0F = 0b1110 → allCornersSlope sl (cornerToggledSlope sl c) &&& 0x0F = 1 <<< 2 := by
  decide

set_option maxRecDepth 100000 in
theorem corner_promotion_row3 : ∀ sl, sl < 256 → ∀ c, c < 4 → sl &&& 0x10 ≠ 0 →
    sl &&& 0x0F = 0b1101 → allCornersSlope sl (cornerToggledSlope sl c) &&& 0x0F = 1 <<< 3 := by
  decide

set_option maxRecDepth 100000 in
theorem corner_toggle_byte : ∀ sl, sl < 256 → ∀ c, c < 4 →
    cornerToggledSlope sl c = sl ^^^ (1 <<< c) := by
  decide

/-- C16: a committed `tile_inspector_surface_toggle_corner` on a surface element with byte
slope whose corner bits are all raised but bit `corner_index` returns 0, adds 2 to the base
height (mod 256), clears the diagonal bit, keeps the three top bits of the slope and changes
no other field; if the diagonal bit was clear, no corner bit is set and the clearance height
is the new base height; if it was set, the corner bits are the single bit given by the table
1011 -> bit 0, 0111 -> bit 1, 1110 -> bit 2, 1101 -> bit 3 and the clearance height is the new
base height plus 2 as a byte sum (mod 256), which is the new base height plus 2 itself
whenever that fits in a byte. -/
theorem tile_inspector_surface_toggle_corner_promotion (s : GameState) (x y : Int)
    (corner_index : Nat) (flags : Nat) (k : Nat) (surface : rct_map_element)
    (happly : flags &&& GAME_COMMAND_FLAG_APPLY ≠ 0)
    (hk : map_get_surface_element_at (s.tiles x y) = some k)
    (hs : (s.tiles x y)[k]? = some surface)
    (hbyte : surface.properties0 < 256) (hc : corner_index < 4)
    (hthree : surface.properties0 &&& 0x0F = 0x0F ^^^ (1 <<< corner_index)) :
    ∃ s1 e1, tile_inspector_surface_toggle_corner s x y corner_index flags = .ok (0, s1) ∧
      (s1.tiles x y)[k]? = some e1 ∧
      e1 = { surface with
        properties0 := e1.properties0
        base_height := e1.base_height
        clearance_height := e1.clearance_height } ∧
      e1.base_height = (surface.base_height + 2) % 256 ∧
      e1.properties0 &&& 0x10 = 0 ∧
      e1.properties0 &&& 0xE0 = surface.properties0 &&& 0xE0 ∧
      (surface.properties0 &&& 0x10 = 0 →
        e1.properties0 &&& 0x0F = 0 ∧ e1.clearance_height = e1.base_height) ∧
      (surface.properties0 &&& 0x10 ≠ 0 →
        e1.clearance_height = (e1.base_height + 2) % 256 ∧
        (e1.base_height + 2 < 256 → e1.clearance_height = e1.base_height + 2) ∧
        (surface.properties0 &&& 0x0F = 0b1011 → e1.properties0 &&& 0x0F = 1 <<< 0) ∧
        (surface.properties0 &&& 0x0F = 0b0111 → e1.properties0 &&& 0x0F = 1 <<< 1) ∧
        (surface.properties0 &&& 0x0F = 0b1110 → e1.properties0 &&& 0x0F = 1 <<< 2) ∧
        (surface.properties0 &&& 0x0F = 0b1101 → e1.properties0 &&& 0x0F = 1 <<< 3)) := by
  obtain ⟨h1, h2, h3⟩ := corner_promotion_slope _ hbyte _ hc hthree
  have hval : surfaceToggleCorner surface corner_index =
      { surface with
        properties0 := allCornersSlope surface.properties0
          (cornerToggledSlope surface.properties0 corner_index)
        base_height := (surface.base_height + 2) % 256
        clearance_height := ((surface.base_height + 2) % 256 +
          (if surfaceDiagonal surface.properties0 then 2 else 0)) % 256 } := by
    unfold surfaceToggleCorner
    rw [if_pos h1]
  refine ⟨_, surfaceToggleCorner surface corner_index,
    tile_inspector_surface_toggle_corner_spec s x y corner_index flags k surface
    happly hk hs, ?_, ?_, ?_, ?_, ?_, ?_, ?_⟩
  · rw [setTile_tiles_same]
    exact getElem?_set_self_of_some hs _
  · rw [hval]
  · rw [hval]
  · rw [hval]; exact h2
  · rw [hval]; exact h3
  · intro hd
    obtain ⟨g1, g2⟩ := corner_promotion_flat _ hbyte _ hc hthree hd
    rw [hval]
    refine ⟨g2, ?_⟩
    simp [g1]
  · intro hd
    have g1 := surfaceDiagonal_of_bit _ hbyte hd
    rw [hval]
    refine ⟨by simp [g1], ?_, corner_promotion_row0 _ hbyte _ hc hd,
      corner_promotion_row1 _ hbyte _ hc hd, corner_promotion_row2 _ hbyte _ hc hd,
      corner_promotion_row3 _ hbyte _ hc hd⟩
    intro hfit
    simp only [g1, if_true] at hfit ⊢
    exact Nat.mod_eq_of_lt hfit

theorem tile_inspector_surface_toggle_corner_promotion_witness :
    map_get_surface_element_at (exampleSurfaceState.tiles 0 0) = some 0 ∧
    exampleSurface.properties0 &&& 0x0F = 0x0F ^^^ (1 <<< 3) ∧
    ∃ s1 e1, tile_inspector_surface_toggle_corner exampleSurfaceState 0 0 3 1 = .ok (0, s1) ∧
      (s1.tiles 0 0)[0]? = some e1 ∧ e1.base_height = (10 + 2) % 256 :=
  ⟨rfl, by decide,
    (tile_inspector_surface_toggle_corner_promotion exampleSurfaceState 0 0 3 1 0
      exampleSurface (by decide) rfl rfl (by decide) (by decide) (by decide)).imp
      (fun _ h => h.imp (fun _ h2 => ⟨h2.1, h2.2.1, h2.2.2.2.1⟩))⟩

/-- C17, counterexample: on the flat surface element of base height 254 the committed
`tile_inspector_surface_toggle_corner` of corner 0 raises one corner, not all four, keeps the
base height 254 and stores the clearance height 0, the byte sum of 254 and 2, not
base + 2 = 256. -/
theorem tile_inspector_surface_toggle_corner_clearance_wraps :
    map_get_surface_element_at (exampleHighSurfaceState.tiles 0 0) = some 0 ∧
    (exampleHighSurfaceState.tiles 0 0)[0]? = some exampleHighSurface ∧
    (exampleHighSurface.properties0 ^^^ (1 <<< 0)) &&& 0x0F ≠ 0x0F ∧
    ∃ (s1 : GameState) (e1 : rct_map_element),
      tile_inspector_surface_toggle_corner exampleHighSurfaceState 0 0 0 1 = .ok (0, s1) ∧
      (s1.tiles 0 0)[0]? = some e1 ∧
      e1.properties0 = 1 ∧ e1.base_height = 254 ∧ e1.clearance_height = 0 ∧
      e1.clearance_height ≠ e1.base_height + 2 :=
  ⟨rfl, rfl, by decide, _, _, rfl, rfl, rfl, rfl, rfl, by decide⟩

/-- C17, amended: a committed `tile_inspector_surface_toggle_corner` with `corner_index` in
0..3 on a surface element with byte slope, when the toggle does not leave all four corner
bits raised, returns 0, flips exactly bit `corner_index` of the slope byte, leaves the base
height and every other field unchanged and sets the clearance height to the byte sum
(base + 2) mod 256 if a corner bit is now raised and to base otherwise; the byte sum is
base + 2 itself whenever that fits in a byte. -/
theorem tile_inspector_surface_toggle_corner_ordinary (s : GameState) (x y : Int)
    (corner_index : Nat) (flags : Nat) (k : Nat) (surface : rct_map_element)
    (happly : flags &&& GAME_COMMAND_FLAG_APPLY ≠ 0)
    (hk : map_get_surface_element_at (s.tiles x y) = some k)
    (hs : (s.tiles x y)[k]? = some surface)
    (hbyte : surface.properties0 < 256) (hc : corner_index < 4)
    (hnot : (surface.properties0 ^^^ (1 <<< corner_index)) &&& 0x0F ≠ 0x0F) :
    ∃ s1 e1, tile_inspector_surface_toggle_corner s x y corner_index flags = .ok (0, s1) ∧
      (s1.tiles x y)[k]? = some e1 ∧
      e1 = { surface with
        properties0 := e1.properties0
        clearance_height := e1.clearance_height } ∧
      e1.properties0 = surface.properties0 ^^^ (1 <<< corner_index) ∧
      e1.base_height = surface.base_height ∧
      e1.clearance_height =
        (if e1.properties0 &&& 0x0F ≠ 0 then (surface.base_height + 2) % 256
         else surface.base_height) ∧
      (surface.base_height + 2 < 256 →
        e1.clearance_height =
          (if e1.properties0 &&& 0x0F ≠ 0 then surface.base_height + 2
           else surface.base_height)) := by
  have hb := corner_toggle_byte _ hbyte _ hc
  have hval : surfaceToggleCorner surface corner_index =
      { surface with
        properties0 := surface.properties0 ^^^ (1 <<< corner_index)
        clearance_height :=
          if (surface.properties0 ^^^ (1 <<< corner_index)) &&& 0x0F ≠ 0 then
            (surface.base_height + 2) % 256
          else surface.base_height } := by
    unfold surfaceToggleCorner
    rw [hb, if_neg hnot]
  refine ⟨_, surfaceToggleCorner surface corner_index,
    tile_inspector_surface_toggle_corner_spec s x y corner_index flags k surface
    happly hk hs, ?_, ?_, ?_, ?_, ?_, ?_⟩
  · rw [setTile_tiles_same]
    exact getElem?_set_self_of_some hs _
  · rw [hval]
  · rw [hval]
  · rw [hval]
  · rw [hval]
  · intro hfit
    rw [hval]
    simp only [Nat.mod_eq_of_lt hfit]

theorem tile_inspector_surface_toggle_corner_ordinary_witness :
    map_get_surface_element_at (exampleSurfaceState.tiles 0 0) = some 0 ∧
    (exampleSurface.properties0 ^^^ (1 <<< 0)) &&& 0x0F ≠ 0x0F ∧
    ∃ s1 e1, tile_inspector_surface_toggle_corner exampleSurfaceState 0 0 0 1 = .ok (0, s1) ∧
      (s1.tiles 0 0)[0]? = some e1 ∧ e1.properties0 = 0x17 ^^^ (1 <<< 0) :=
  ⟨rfl, by decide,
    (tile_inspector_surface_toggle_corner_ordinary exampleSurfaceState 0 0 0 1 0
      exampleSurface (by decide) rfl rfl (by decide) (by decide) (by decide)).imp
      (fun _ h => h.imp (fun _ h2 => ⟨h2.1, h2.2.1, h2.2.2.2.1⟩))⟩

/-- C18: a committed `tile_inspector_surface_toggle_diagonal` on a tile with a surface
element returns 0, flips exactly the diagonal bit (0x10) of the slope byte, leaves the base
height and every other field unchanged and sets the clearance height to base + 4 if the
diagonal bit is now set, otherwise to base + 2 if a corner bit is set, otherwise to base
(sums mod 256). -/
theorem tile_inspector_surface_toggle_diagonal_flips (s : GameState) (x y : Int)
    (flags : Nat) (k : Nat) (surface : rct_map_element)
    (happly : flags &&& GAME_COMMAND_FLAG_APPLY ≠ 0)
    (hk : map_get_surface_element_at (s.tiles x y) = some k)
    (hs : (s.tiles x y)[k]? = some surface) :
    ∃ s1 e1, tile_inspector_surface_toggle_diagonal s x y flags = .ok (0, s1) ∧
      (s1.tiles x y)[k]? = some e1 ∧
      e1 = { surface with
        properties0 := e1.properties0
        clearance_height := e1.clearance_height } ∧
      e1.properties0 = surface.properties0 ^^^ 0x10 ∧
      e1.base_height = surface.base_height ∧
      e1.clearance_height =
        (if e1.properties0 &&& 0x10 ≠ 0 then (surface.base_height + 4) % 256
         else if e1.properties0 &&& 0x0F ≠ 0 then (surface.base_height + 2) % 256
         else surface.base_height) := by
  refine ⟨_, surfaceToggleDiagonal surface,
    tile_inspector_surface_toggle_diagonal_spec s x y flags k surface
    happly hk hs, ?_, rfl, rfl, rfl, rfl⟩
  rw [setTile_tiles_same]
  exact getElem?_set_self_of_some hs _

theorem tile_inspector_surface_toggle_diagonal_flips_witness :
    map_get_surface_element_at (exampleSurfaceState.tiles 0 0) = some 0 ∧
    ∃ s1 e1, tile_inspector_surface_toggle_diagonal exampleSurfaceState 0 0 1 = .ok (0, s1) ∧
      (s1.tiles 0 0)[0]? = some e1 ∧ e1.properties0 = 0x17 ^^^ 0x10 :=
  ⟨rfl,
    (tile_inspector_surface_toggle_diagonal_flips exampleSurfaceState 0 0 1 0
      exampleSurface (by decide) rfl rfl).imp
      (fun _ h => h.imp (fun _ h2 => ⟨h2.1, h2.2.1, h2.2.2.2.1⟩))⟩

/-! ## tile_inspector_rotate_element_at -/

/-- A committed `tile_inspector_rotate_element_at` on a position of the tile returns 0 and
writes the rotated element to that position. -/
theorem tile_inspector_rotate_element_at_spec (s : GameState) (x y : Int) (i : Nat)
    (flags : Nat) (e : rct_map_element)
    (happly : flags &&& GAME_COMMAND_FLAG_APPLY ≠ 0)
    (he : (s.tiles x y)[i]? = some e) :
    tile_inspector_rotate_element_at s x y (i : Int) flags
      = .ok (0, setTile s x y ((s.tiles x y).set i (rotateElement e))) := by
  have hneg : ¬ ((i : Int) < 0) := by omega
  simp only [tile_inspector_rotate_element_at, happly, ne_eq, not_false_eq_true, if_true,
    hneg, if_false, Int.toNat_ofNat, he]

theorem rotateElement_path {e : rct_map_element}
    (h : map_element_get_type e = MAP_ELEMENT_TYPE_PATH) :
    rotateElement e = { e with
      properties0 := rotatedPathType e.properties0
      properties2 := rotatedPathEdges e.properties2 } := by
  unfold rotateElement
  rw [if_pos h]
  rfl

set_option maxRecDepth 100000 in
theorem rotatedPathEdges_bits : ∀ e, e < 256 → ∀ j, j < 4 →
    (rotatedPathEdges e).testBit ((j + 1) % 4) = e.testBit j ∧
    (rotatedPathEdges e).testBit (4 + (j + 1) % 4) = e.testBit (4 + j) := by
  decide

set_option maxRecDepth 100000 in
theorem rotatedPathEdges_nibbles : ∀ e, e < 256 →
    rotatedPathEdges e < 256 ∧
    rotatedPathEdges e % 16 = ((e % 16) * 2) % 16 + (e % 16) / 8 ∧
    rotatedPathEdges e / 16 = ((e / 16) * 2) % 16 + (e / 16) / 8 := by
  decide

/-- C19: a committed `tile_inspector_rotate_element_at` on a Path element with edges byte
`e` returns 0 and leaves an edges byte whose low nibble is the low nibble of `e` rotated
left by one position within 4 bits and whose high nibble is the high nibble of `e` rotated
left by one position within its own 4 bits: bit `j` of either nibble moves to bit
`(j + 1) mod 4` of the same nibble; 0b0001 becomes 0b0010 and 0b1000 becomes 0b0001. -/
theorem tile_inspector_rotate_element_at_path_edges (s : GameState) (x y : Int) (i : Nat)
    (flags : Nat) (e : rct_map_element)
    (happly : flags &&& GAME_COMMAND_FLAG_APPLY ≠ 0)
    (he : (s.tiles x y)[i]? = some e)
    (hpath : map_element_get_type e = MAP_ELEMENT_TYPE_PATH)
    (hbyte : e.properties2 < 256) :
    ∃ s1 e1, tile_inspector_rotate_element_at s x y (i : Int) flags = .ok (0, s1) ∧
      (s1.tiles x y)[i]? = some e1 ∧
      e1.properties2 < 256 ∧
      (∀ j, j < 4 →
        e1.properties2.testBit ((j + 1) % 4) = e.properties2.testBit j ∧
        e1.properties2.testBit (4 + (j + 1) % 4) = e.properties2.testBit (4 + j)) ∧
      e1.properties2 % 16 = ((e.properties2 % 16) * 2) % 16 + (e.properties2 % 16) / 8 ∧
      e1.properties2 / 16 = ((e.properties2 / 16) * 2) % 16 + (e.properties2 / 16) / 8 ∧
      (e.properties2 = 0b0001 → e1.properties2 = 0b0010) ∧
      (e.properties2 = 0b1000 → e1.properties2 = 0b0001) := by
  have hn := rotatedPathEdges_nibbles _ hbyte
  refine ⟨_, rotateElement e, tile_inspector_rotate_element_at_spec s x y i flags e happly he,
    ?_, ?_, ?_, ?_, ?_, ?_, ?_⟩
  · rw [setTile_tiles_same]
    exact getElem?_set_self_of_some he _
  · rw [rotateElement_path hpath]; exact hn.1
  · intro j hj
    rw [rotateElement_path hpath]
    exact rotatedPathEdges_bits _ hbyte j hj
  · rw [rotateElement_path hpath]; exact hn.2.1
  · rw [rotateElement_path hpath]; exact hn.2.2
  · intro h
    rw [rotateElement_path hpath]
    simp only [h]
    decide
  · intro h
    rw [rotateElement_path hpath]
    simp only [h]
    decide

theorem tile_inspector_rotate_element_at_path_edges_witness :
    (exampleRotateState.tiles 0 0)[1]?.map map_element_get_type = some MAP_ELEMENT_TYPE_PATH ∧
    ∃ s1 e1, tile_inspector_rotate_element_at exampleRotateState 0 0 1 1 = .ok (0, s1) ∧
      (s1.tiles 0 0)[1]? = some e1 ∧
      e1.properties2 % 16 = ((0x81 % 16) * 2) % 16 + (0x81 % 16) / 8 ∧
      e1.properties2 / 16 = ((0x81 / 16) * 2) % 16 + (0x81 / 16) / 8 :=
  ⟨rfl,
    (tile_inspector_rotate_element_at_path_edges exampleRotateState 0 0 1 1
      { type := 4, flags := 0, base_height := 10, clearance_height := 14,
        properties0 := 5, properties1 := 0, properties2 := 0x81, properties3 := 0 }
      (by decide) rfl rfl (by decide)).imp
      (fun _ h => h.imp (fun _ h2 => ⟨h2.1, h2.2.1, h2.2.2.2.2.1, h2.2.2.2.2.2.1⟩))⟩

/-! ### Four rotations -/

set_option maxRecDepth 100000 in
theorem rotatedPathType_four : ∀ p, p < 256 →
    rotatedPathType (rotatedPathType (rotatedPathType (rotatedPathType p))) = p := by
  decide

set_option maxRecDepth 100000 in
theorem rotatedPathEdges_four : ∀ e, e < 256 →
    rotatedPathEdges (rotatedPathEdges (rotatedPathEdges (rotatedPathEdges e))) = e := by
  decide

set_option maxRecDepth 100000 in
theorem rotatedDirectionType_four : ∀ ty, ty < 256 →
    rotatedDirectionType (rotatedDirectionType (rotatedDirectionType (rotatedDirectionType ty)))
      = ty := by
  decide

theorem rotatedDirectionType_variant (ty : Nat) :
    rotatedDirectionType ty &&& MAP_ELEMENT_TYPE_MASK = ty &&& MAP_ELEMENT_TYPE_MASK := by
  apply Nat.eq_of_testBit_eq
  intro k
  simp only [rotatedDirectionType, Nat.testBit_and, Nat.testBit_or]
  have h3 : ∀ k, (MAP_ELEMENT_DIRECTION_MASK).testBit k = decide (k < 2) := by
    intro k
    rw [show MAP_ELEMENT_DIRECTION_MASK = 2 ^ 2 - 1 by rfl, Nat.testBit_two_pow_sub_one]
  have hm : ∀ k, k < 2 → (MAP_ELEMENT_TYPE_MASK).testBit k = false := by
    intro k hk
    interval_cases k <;> rfl
  have hfc : ∀ k, 2 ≤ k → k < 8 → (0xFC : Nat).testBit k = true := by
    intro k h1 h2
    interval_cases k <;> rfl
  have hm8 : ∀ k, 8 ≤ k → (MAP_ELEMENT_TYPE_MASK).testBit k = false := by
    intro k hk
    apply Nat.testBit_lt_two_pow
    calc MAP_ELEMENT_TYPE_MASK < 2 ^ 8 := by decide
      _ ≤ 2 ^ k := Nat.pow_le_pow_right (by decide) hk
  rw [h3]
  by_cases h2 : k < 2
  · simp [hm k h2]
  · by_cases h8 : k < 8
    · simp [h2, hfc k (by omega) h8]
    · simp [hm8 k (by omega)]

set_option maxRecDepth 100000 in
theorem rotatedBanner_four : ∀ f, f < 256 → ∀ p, p < 4 →
    rotatedBannerPosition (rotatedBannerPosition (rotatedBannerPosition
      (rotatedBannerPosition p))) = p ∧
    rotatedBannerFlags
      (rotatedBannerFlags
        (rotatedBannerFlags (rotatedBannerFlags f p) (rotatedBannerPosition p))
        (rotatedBannerPosition (rotatedBannerPosition p)))
      (rotatedBannerPosition (rotatedBannerPosition (rotatedBannerPosition p))) = f := by
  decide

theorem map_element_get_type_eq_of_type {a b : rct_map_element} (h : a.type = b.type) :
    map_element_get_type a = map_element_get_type b := by
  unfold map_element_get_type
  rw [h]

/-- Four applications of the rotation to an element with byte fields, a Banner element
having its position in 0..3, give back the element. -/
theorem rotateElement_four (e : rct_map_element)
    (hty : e.type < 256) (hp0 : e.properties0 < 256) (hp2 : e.properties2 < 256)
    (hbanner : map_element_get_type e = MAP_ELEMENT_TYPE_BANNER → e.properties1 ≤ 3) :
    rotateElement (rotateElement (rotateElement (rotateElement e))) = e := by
  by_cases hpath : map_element_get_type e = MAP_ELEMENT_TYPE_PATH
  · have step : ∀ a : rct_map_element, map_element_get_type a = MAP_ELEMENT_TYPE_PATH →
        rotateElement a = { a with
          properties0 := rotatedPathType a.properties0
          properties2 := rotatedPathEdges a.properties2 } ∧
        map_element_get_type (rotateElement a) = MAP_ELEMENT_TYPE_PATH := by
      intro a ha
      have := rotateElement_path ha
      refine ⟨this, ?_⟩
      rw [this]
      exact ha
    obtain ⟨e1, t1⟩ := step e hpath
    obtain ⟨e2, t2⟩ := step _ t1
    obtain ⟨e3, t3⟩ := step _ t2
    obtain ⟨e4, _⟩ := step _ t3
    rw [e4, e3, e2, e1]
    simp only [rotatedPathType_four _ hp0, rotatedPathEdges_four _ hp2]
  · by_cases hdir : map_element_get_type e = MAP_ELEMENT_TYPE_TRACK ∨
        map_element_get_type e = MAP_ELEMENT_TYPE_SCENERY ∨
        map_element_get_type e = MAP_ELEMENT_TYPE_ENTRANCE ∨
        map_element_get_type e = MAP_ELEMENT_TYPE_FENCE
    · have step : ∀ a : rct_map_element,
          map_element_get_type a = map_element_get_type e →
          rotateElement a = { a with type := rotatedDirectionType a.type } ∧
          map_element_get_type (rotateElement a) = map_element_get_type e := by
        intro a ha
        have hr : rotateElement a = { a with type := rotatedDirectionType a.type } := by
          unfold rotateElement
          rw [ha, if_neg hpath, if_pos hdir]
        refine ⟨hr, ?_⟩
        rw [hr, ← ha]
        exact rotatedDirectionType_variant a.type
      obtain ⟨e1, t1⟩ := step e rfl
      obtain ⟨e2, t2⟩ := step _ t1
      obtain ⟨e3, t3⟩ := step _ t2
      obtain ⟨e4, _⟩ := step _ t3
      rw [e4, e3, e2, e1]
      simp only [rotatedDirectionType_four _ hty]
    · by_cases hban : map_element_get_type e = MAP_ELEMENT_TYPE_BANNER
      · have step : ∀ a : rct_map_element,
            map_element_get_type a = map_element_get_type e →
            rotateElement a = { a with
              properties1 := rotatedBannerPosition a.properties1
              properties2 := rotatedBannerFlags a.properties2 a.properties1 } ∧
            map_element_get_type (rotateElement a) = map_element_get_type e := by
          intro a ha
          have hr : rotateElement a = { a with
              properties1 := rotatedBannerPosition a.properties1
              properties2 := rotatedBannerFlags a.properties2 a.properties1 } := by
            unfold rotateElement
            rw [ha, if_neg hpath, if_neg hdir, if_pos hban]
          refine ⟨hr, ?_⟩
          rw [hr, ← ha]
          rfl
        obtain ⟨e1, t1⟩ := step e rfl
        obtain ⟨e2, t2⟩ := step _ t1
        obtain ⟨e3, t3⟩ := step _ t2
        obtain ⟨e4, _⟩ := step _ t3
        have hb := rotatedBanner_four _ hp2 _ (Nat.lt_succ_of_le (hbanner hban))
        rw [e4, e3, e2, e1]
        simp only [hb.1, hb.2]
      · have hr : ∀ a : rct_map_element, map_element_get_type a = map_element_get_type e →
            rotateElement a = a := by
          intro a ha
          unfold rotateElement
          rw [ha, if_neg hpath, if_neg hdir, if_neg hban]
        rw [hr e rfl, hr e rfl, hr e rfl, hr e rfl]

/-- C20: for an element with byte fields that is not a Banner element with a position above
3 (so for every Path, Track, Scenery, Entrance or Fence element and every Banner element
with position at most 3), four committed calls of `tile_inspector_rotate_element_at` in a
row all return 0 and leave the element, and the whole run of the tile, exactly as it was. -/
theorem tile_inspector_rotate_element_at_four_times (s : GameState) (x y : Int) (i : Nat)
    (flags : Nat) (e : rct_map_element)
    (happly : flags &&& GAME_COMMAND_FLAG_APPLY ≠ 0)
    (he : (s.tiles x y)[i]? = some e)
    (hty : e.type < 256) (hp0 : e.properties0 < 256) (hp2 : e.properties2 < 256)
    (hbanner : map_element_get_type e = MAP_ELEMENT_TYPE_BANNER → e.properties1 ≤ 3) :
    ∃ s1 s2 s3 s4,
      tile_inspector_rotate_element_at s x y (i : Int) flags = .ok (0, s1) ∧
      tile_inspector_rotate_element_at s1 x y (i : Int) flags = .ok (0, s2) ∧
      tile_inspector_rotate_element_at s2 x y (i : Int) flags = .ok (0, s3) ∧
      tile_inspector_rotate_element_at s3 x y (i : Int) flags = .ok (0, s4) ∧
      (s4.tiles x y)[i]? = some e ∧ s4.tiles x y = s.tiles x y := by
  have step : ∀ (u : GameState) (a : rct_map_element), (u.tiles x y)[i]? = some a →
      tile_inspector_rotate_element_at u x y (i : Int) flags
        = .ok (0, setTile u x y ((u.tiles x y).set i (rotateElement a))) ∧
      ((setTile u x y ((u.tiles x y).set i (rotateElement a))).tiles x y)[i]?
        = some (rotateElement a) ∧
      (setTile u x y ((u.tiles x y).set i (rotateElement a))).tiles x y
        = (u.tiles x y).set i (rotateElement a) := by
    intro u a ha
    refine ⟨tile_inspector_rotate_element_at_spec u x y i flags a happly ha, ?_, ?_⟩
    · rw [setTile_tiles_same]
      exact getElem?_set_self_of_some ha _
    · rw [setTile_tiles_same]
  obtain ⟨c1, g1, t1⟩ := step s e he
  obtain ⟨c2, g2, t2⟩ := step _ _ g1
  obtain ⟨c3, g3, t3⟩ := step _ _ g2
  obtain ⟨c4, g4, t4⟩ := step _ _ g3
  have h4 := rotateElement_four e hty hp0 hp2 hbanner
  refine ⟨_, _, _, _, c1, c2, c3, c4, ?_, ?_⟩
  · rw [g4, h4]
  · rw [t4, t3, t2, t1, h4]
    simp only [List.set_set]
    apply List.ext_getElem? 
    intro k
    rw [List.getElem?_set]
    split
    · next hk =>
      subst hk
      split
      · exact he.symm
      · next hl => rw [List.getElem?_eq_none (by omega)]
    · rfl

theorem tile_inspector_rotate_element_at_four_times_witness :
    (exampleRotateState.tiles 0 0)[3]?.map map_element_get_type
      = some MAP_ELEMENT_TYPE_BANNER ∧
    ∃ s1 s2 s3 s4,
      tile_inspector_rotate_element_at exampleRotateState 0 0 3 1 = .ok (0, s1) ∧
      tile_inspector_rotate_element_at s1 0 0 3 1 = .ok (0, s2) ∧
      tile_inspector_rotate_element_at s2 0 0 3 1 = .ok (0, s3) ∧
      tile_inspector_rotate_element_at s3 0 0 3 1 = .ok (0, s4) ∧
      s4.tiles 0 0 = exampleRotateState.tiles 0 0 :=
  ⟨rfl,
    (tile_inspector_rotate_element_at_four_times exampleRotateState 0 0 3 1
      { type := 28, flags := 0x80, base_height := 20, clearance_height := 24,
        properties0 := 1, properties1 := 3, properties2 := 0x09, properties3 := 0 }
      (by decide) rfl (by decide) (by decide) (by decide) (by decide)).imp
      (fun _ h => h.imp (fun _ h2 => h2.imp (fun _ h3 => h3.imp (fun _ h4 =>
        ⟨h4.1, h4.2.1, h4.2.2.1, h4.2.2.2.1, h4.2.2.2.2.2⟩))))⟩

/-! ## tile_inspector_paste_element_at -/

theorem pasteElementWindow_tiles (s : GameState) (x y : Int) (i : Int) :
    (pasteElementWindow s x y i).tiles = s.tiles := by
  unfold pasteElementWindow
  split <;> rfl

theorem isLast_and_7F (e : rct_map_element) :
    map_element_is_last_for_tile { e with flags := e.flags &&& 0x7F } = false := by
  simp only [map_element_is_last_for_tile, and_last_flag, Nat.testBit_and]
  have : (0x7F : Nat).testBit 7 = false := by decide
  simp [this]

theorem isLast_pastedElement (element : rct_map_element) (b : Bool) :
    map_element_is_last_for_tile (pastedElement element b) = b := by
  cases b
  · simp only [pastedElement, Bool.false_eq_true, if_false]
    exact isLast_and_7F element
  · simp only [pastedElement, if_true, map_element_is_last_for_tile, and_last_flag,
      Nat.testBit_or, testBit_last_flag]
    simp

set_option maxRecDepth 100000 in
theorem and_7F_or_last_flag : ∀ f, f < 256 →
    ((f &&& 0x7F) ||| 0x80) ||| 0x80 = f ||| 0x80 ∧ (f &&& 0x7F) ||| 0x80 = f ||| 0x80 := by
  decide

theorem sameExceptLastFlag_pastedElement (element : rct_map_element) (b : Bool)
    (h : element.flags < 256) : sameExceptLastFlag (pastedElement element b) element := by
  have h2 := and_7F_or_last_flag _ h
  cases b
  · simp only [sameExceptLastFlag, withLastFlag, pastedElement, Bool.false_eq_true, if_false,
      MAP_ELEMENT_FLAG_LAST_TILE]
    rw [h2.2]
  · simp only [sameExceptLastFlag, withLastFlag, pastedElement, if_true,
      MAP_ELEMENT_FLAG_LAST_TILE]
    rw [h2.1]

theorem blankElement_isLast (z : Int) (flags : Nat) :
    map_element_is_last_for_tile (blankElement z (flags ||| MAP_ELEMENT_FLAG_LAST_TILE))
      = true := by
  simp only [map_element_is_last_for_tile, blankElement, and_last_flag, Nat.testBit_or,
    testBit_last_flag]
  simp

theorem blankElement_zero_not_last (z : Int) :
    map_element_is_last_for_tile (blankElement z 0) = false := by
  simp [map_element_is_last_for_tile, blankElement]

theorem wellFormedTile_tail {e : rct_map_element} {rest : List rct_map_element}
    (h : wellFormedTile (e :: rest) = true) (he : map_element_is_last_for_tile e = false) :
    wellFormedTile rest = true := by
  cases rest with
  | nil => simp [wellFormedTile, he] at h
  | cons e2 rest2 =>
    rw [wellFormedTile_cons_cons, Bool.and_eq_true] at h
    exact h.2

/-- The modelled insertion keeps the tile invariant: on a well-formed run the new run is
well-formed, one element longer, and the slot of the blank element lies in it. -/
theorem map_element_insert_run_wellFormed (z : Int) : ∀ t : List rct_map_element,
    wellFormedTile t = true →
    wellFormedTile (map_element_insert_run z 0 t).1 = true ∧
    (map_element_insert_run z 0 t).1.length = t.length + 1 ∧
    (map_element_insert_run z 0 t).2 < (map_element_insert_run z 0 t).1.length := by
  intro t
  induction t with
  | nil => intro h; simp [wellFormedTile] at h
  | cons e rest ih =>
    intro hwf
    by_cases hz : (e.base_height : Int) ≤ z
    · by_cases hl : map_element_is_last_for_tile e = true
      · have hrest : rest = [] := by
          cases rest with
          | nil => rfl
          | cons e2 rest2 =>
            rw [wellFormedTile_cons_cons, hl] at hwf
            simp at hwf
        subst hrest
        simp only [map_element_insert_run, hz, if_true, hl, List.length_cons,
          List.length_nil]
        refine ⟨?_, by simp, by simp⟩
        simp only [wellFormedTile, isLast_and_7F, blankElement_isLast, Bool.not_false,
          Bool.and_self]
      · have hl2 : map_element_is_last_for_tile e = false := by simpa using hl
        obtain ⟨g1, g2, g3⟩ := ih (wellFormedTile_tail hwf hl2)
        simp only [map_element_insert_run, hz, if_true, hl2, Bool.false_eq_true, if_false,
          List.length_cons]
        exact ⟨wellFormedTile_cons hl2 g1, by simpa using g2, by simpa using g3⟩
    · simp only [map_element_insert_run, hz, if_false, List.length_cons]
      exact ⟨wellFormedTile_cons (blankElement_zero_not_last z) hwf, by simp, by simp⟩

/-- C15: a committed `tile_inspector_paste_element_at` of an element with a byte flags field
onto a well-formed tile with a free slot returns 0; the tile is one element longer, the slot
given by the insertion holds the supplied element in every bit except the terminal flag,
that slot's terminal flag is set exactly when it is the final slot, and the final element
alone carries the terminal flag. -/
theorem tile_inspector_paste_element_at_terminal_flag (s : GameState) (x y : Int)
    (element : rct_map_element) (flags : Nat)
    (hwf : wellFormedTile (s.tiles x y) = true)
    (happly : flags &&& GAME_COMMAND_FLAG_APPLY ≠ 0) (hfree : 0 < s.free_elements)
    (hbyte : element.flags < 256) :
    ∃ s1 slot pasted, tile_inspector_paste_element_at s x y element flags = .ok (0, s1) ∧
      slot = (map_element_insert_run (element.base_height : Int) 0 (s.tiles x y)).2 ∧
      (s1.tiles x y).length = (s.tiles x y).length + 1 ∧
      (s1.tiles x y)[slot]? = some pasted ∧
      sameExceptLastFlag pasted element ∧
      (map_element_is_last_for_tile pasted = true ↔ slot + 1 = (s1.tiles x y).length) ∧
      wellFormedTile (s1.tiles x y) = true := by
  obtain ⟨g1, g2, g3⟩ := map_element_insert_run_wellFormed (element.base_height : Int)
    (s.tiles x y) hwf
  have hfree2 : map_check_free_elements_and_reorganise s 1 = true := by
    simp [map_check_free_elements_and_reorganise]; omega
  generalize hrun : map_element_insert_run (element.base_height : Int) 0 (s.tiles x y) = run
    at g1 g2 g3
  have hlast : isLastAt run.1 run.2 = decide (run.2 + 1 = run.1.length) := by
    rw [isLastAt_eq run.2 g3]
    exact wellFormedTile_isLast g1 run.2 g3
  refine ⟨pasteElementWindow
      (setTile { setTile s x y run.1 with free_elements := s.free_elements - 1 } x y
        (run.1.set run.2 (pastedElement element (isLastAt run.1 run.2))))
      x y (toSint16 (run.2 : Int)),
    run.2, pastedElement element (isLastAt run.1 run.2), ?_, rfl, ?_, ?_, ?_, ?_, ?_⟩
  · simp only [tile_inspector_paste_element_at, hfree2, Bool.not_true, Bool.false_eq_true,
      if_false, happly, ne_eq, not_false_eq_true, if_true, map_element_insert, hrun]
    rw [setTile_tiles_same]
  · rw [pasteElementWindow_tiles, setTile_tiles_same, List.length_set, g2]
  · rw [pasteElementWindow_tiles, setTile_tiles_same]
    simp [List.getElem?_set, g3]
  · exact sameExceptLastFlag_pastedElement element _ hbyte
  · rw [pasteElementWindow_tiles, setTile_tiles_same, List.length_set, isLast_pastedElement,
      hlast]
    simp
  · rw [pasteElementWindow_tiles, setTile_tiles_same]
    apply wellFormedTile_of_index
    · rw [List.length_set]; omega
    · intro i hi
      rw [List.length_set] at hi ⊢
      rw [List.getElem_set]
      split
      · next h =>
        subst h
        rw [isLast_pastedElement, hlast]
      · exact wellFormedTile_isLast g1 i hi

theorem tile_inspector_paste_element_at_terminal_flag_witness :
    wellFormedTile (exampleState.tiles 0 0) = true ∧
    ∃ (s1 : GameState) (slot : Nat) (pasted : rct_map_element),
      tile_inspector_paste_element_at exampleState 0 0 (exampleElement 9 9 0x81) 1
        = .ok (0, s1) ∧
      (s1.tiles 0 0)[slot]? = some pasted ∧
      sameExceptLastFlag pasted (exampleElement 9 9 0x81) ∧
      wellFormedTile (s1.tiles 0 0) = true :=
  ⟨by decide, by
    obtain ⟨s1, slot, pasted, h⟩ :=
      tile_inspector_paste_element_at_terminal_flag exampleState 0 0 (exampleElement 9 9 0x81)
        1 (by decide) (by decide) (by decide) (by decide)
    exact ⟨s1, slot, pasted, h.1, h.2.2.2.1, h.2.2.2.2.1, h.2.2.2.2.2.2⟩⟩

/-! ## Chain lift on a whole track piece -/

theorem testBit_chain_lift (k : Nat) :
    TRACK_ELEMENT_FLAG_CHAIN_LIFT.testBit k = decide (7 = k) := by
  rw [show TRACK_ELEMENT_FLAG_CHAIN_LIFT = 2 ^ 7 by rfl, Nat.testBit_two_pow]

theorem and_chain_lift (x : Nat) :
    (x &&& TRACK_ELEMENT_FLAG_CHAIN_LIFT != 0) = x.testBit 7 := by
  rw [show TRACK_ELEMENT_FLAG_CHAIN_LIFT = 2 ^ 7 by rfl, Nat.and_two_pow]
  cases x.testBit 7 <;> simp

/-- Masking with a byte mask whose bit 7 is clear does not see the chain-lift bit. -/
theorem xor_chain_lift_and (x m : Nat) (hm : m.testBit 7 = false) :
    (x ^^^ TRACK_ELEMENT_FLAG_CHAIN_LIFT) &&& m = x &&& m := by
  apply Nat.eq_of_testBit_eq
  intro k
  simp only [Nat.testBit_and, Nat.testBit_xor, testBit_chain_lift]
  by_cases hk : 7 = k
  · subst hk; simp [hm]
  · simp [hk]

theorem isLiftHill_setChainLift (c : Bool) (e : rct_map_element) :
    track_element_is_lift_hill (setChainLift c e) = c := by
  unfold setChainLift
  by_cases h : track_element_is_lift_hill e = c
  · simp [h]
  · have h2 : (track_element_is_lift_hill e != c) = true := by simpa using h
    rw [if_pos h2]
    simp only [track_element_is_lift_hill, and_chain_lift, Nat.testBit_xor,
      testBit_chain_lift] at h ⊢
    cases hb : e.type.testBit 7 <;> cases c <;> simp_all

theorem setChainLift_of_isLiftHill {c : Bool} {e : rct_map_element}
    (h : track_element_is_lift_hill e = c) : setChainLift c e = e := by
  unfold setChainLift
  simp [h]

theorem setChainLift_idem (c : Bool) (e : rct_map_element) :
    setChainLift c (setChainLift c e) = setChainLift c e :=
  setChainLift_of_isLiftHill (isLiftHill_setChainLift c e)

theorem setChainLift_flags (c : Bool) (e : rct_map_element) :
    map_element_is_last_for_tile (setChainLift c e) = map_element_is_last_for_tile e := by
  unfold setChainLift
  split <;> rfl

theorem setChainLift_type (c : Bool) (e : rct_map_element) :
    map_element_get_type (setChainLift c e) = map_element_get_type e := by
  unfold setChainLift
  split
  · exact xor_chain_lift_and e.type MAP_ELEMENT_TYPE_MASK (by decide)
  · rfl

theorem setChainLift_matches (c : Bool) (elem_z : Int) (rotation index type : Nat)
    (e : rct_map_element) :
    trackPartMatches elem_z rotation index type (setChainLift c e)
      = trackPartMatches elem_z rotation index type e := by
  unfold trackPartMatches
  rw [setChainLift_type]
  unfold setChainLift
  split
  · simp only [xor_chain_lift_and e.type MAP_ELEMENT_DIRECTION_MASK (by decide)]
  · rfl

theorem chainLiftStep_refl (c : Bool) (e : rct_map_element) : chainLiftStep c e e :=
  Or.inl rfl

theorem chainLiftStep_trans {c : Bool} {e e1 e2 : rct_map_element}
    (h1 : chainLiftStep c e e1) (h2 : chainLiftStep c e1 e2) : chainLiftStep c e e2 := by
  rcases h1 with h1 | h1 <;> rcases h2 with h2 | h2
  · left; rw [h2, h1]
  · right; rw [h2, h1]
  · right; rw [h2, h1]
  · right; rw [h2, h1, setChainLift_idem]

theorem chainLiftStep_isLiftHill {c : Bool} {e e1 : rct_map_element}
    (h : chainLiftStep c e e1) (he : track_element_is_lift_hill e = c) :
    track_element_is_lift_hill e1 = c := by
  rcases h with h | h
  · rw [h]; exact he
  · rw [h]; exact isLiftHill_setChainLift c e

theorem chainLiftStep_matches {c : Bool} {e e1 : rct_map_element}
    (h : chainLiftStep c e e1) (elem_z : Int) (rotation index type : Nat) :
    trackPartMatches elem_z rotation index type e1
      = trackPartMatches elem_z rotation index type e := by
  rcases h with h | h
  · rw [h]
  · rw [h, setChainLift_matches]

theorem chainLiftStep_isLast {c : Bool} {e e1 : rct_map_element}
    (h : chainLiftStep c e e1) :
    map_element_is_last_for_tile e1 = map_element_is_last_for_tile e := by
  rcases h with h | h
  · rw [h]
  · rw [h, setChainLift_flags]

theorem forall₂_chainLiftStep_refl (c : Bool) (t : List rct_map_element) :
    List.Forall₂ (chainLiftStep c) t t := by
  induction t with
  | nil => exact List.Forall₂.nil
  | cons e rest ih => exact List.Forall₂.cons (chainLiftStep_refl c e) ih

theorem forall₂_chainLiftStep_trans {c : Bool} : ∀ {t t1 t2 : List rct_map_element},
    List.Forall₂ (chainLiftStep c) t t1 → List.Forall₂ (chainLiftStep c) t1 t2 →
    List.Forall₂ (chainLiftStep c) t t2 := by
  intro t t1 t2 h1
  induction h1 generalizing t2 with
  | nil => intro h2; cases h2; exact List.Forall₂.nil
  | cons hr _ ih =>
    intro h2
    cases h2 with
    | cons hr2 hrest2 => exact List.Forall₂.cons (chainLiftStep_trans hr hr2) (ih hrest2)

theorem forall₂_chainLiftStep_getElem? {c : Bool} : ∀ {t t1 : List rct_map_element},
    List.Forall₂ (chainLiftStep c) t t1 → ∀ (k : Nat) (e : rct_map_element),
    t[k]? = some e → ∃ e1, t1[k]? = some e1 ∧ chainLiftStep c e e1 := by
  intro t t1 h
  induction h with
  | nil => intro k e he; simp at he
  | cons hr _ ih =>
    intro k e he
    cases k with
    | zero =>
      simp only [List.getElem?_cons_zero, Option.some.injEq] at he
      subst he
      exact ⟨_, by simp, hr⟩
    | succ j =>
      simp only [List.getElem?_cons_succ] at he
      obtain ⟨e1, g1, g2⟩ := ih j e he
      exact ⟨e1, by simpa using g1, g2⟩

theorem forall₂_chainLiftStep_modifyAt (c : Bool) : ∀ (t : List rct_map_element) (k : Nat),
    List.Forall₂ (chainLiftStep c) t (modifyAt t k (setChainLift c)) := by
  intro t
  induction t with
  | nil => intro k; simp [modifyAt]
  | cons e rest ih =>
    intro k
    cases k with
    | zero =>
      simp only [modifyAt, List.getElem?_cons_zero, List.set_cons_zero]
      exact List.Forall₂.cons (Or.inr rfl) (forall₂_chainLiftStep_refl c rest)
    | succ j =>
      have h := ih j
      unfold modifyAt at h ⊢
      simp only [List.getElem?_cons_succ]
      cases hj : rest[j]? with
      | none => exact forall₂_chainLiftStep_refl c _
      | some v =>
        simp only [hj] at h
        simp only [List.set_cons_succ]
        exact List.Forall₂.cons (chainLiftStep_refl c e) h

theorem findTrackPart_of_forall₂ {c : Bool} (elem_z : Int) (rotation index type : Nat) :
    ∀ {t t1 : List rct_map_element}, List.Forall₂ (chainLiftStep c) t t1 →
    findTrackPart elem_z rotation index type t1 = findTrackPart elem_z rotation index type t := by
  intro t t1 h
  induction h with
  | nil => rfl
  | cons hr _ ih =>
    simp only [findTrackPart, chainLiftStep_matches hr, chainLiftStep_isLast hr, ih]

theorem findTrackPart_lt (elem_z : Int) (rotation index type : Nat) :
    ∀ (t : List rct_map_element) (k : Nat),
    findTrackPart elem_z rotation index type t = .ok (some k) → k < t.length := by
  intro t
  induction t with
  | nil => intro k h; simp [findTrackPart] at h
  | cons e rest ih =>
    intro k h
    unfold findTrackPart at h
    split at h
    · simp only [Except.ok.injEq, Option.some.injEq] at h
      subst h
      simp
    · split at h
      · simp at h
      · cases hr : findTrackPart elem_z rotation index type rest with
        | error err => simp [hr] at h
        | ok o =>
          cases o with
          | none => simp [hr] at h
          | some j =>
            simp only [hr, Except.ok.injEq, Option.some.injEq] at h
            subst h
            have := ih j hr
            simp only [List.length_cons]
            omega

theorem chainLiftOnly_refl (c : Bool) (s : GameState) : ChainLiftOnly c s s :=
  ⟨fun a b => forall₂_chainLiftStep_refl c (s.tiles a b), rfl, rfl, rfl, rfl, rfl⟩

theorem chainLiftOnly_trans {c : Bool} {s s1 s2 : GameState} (h1 : ChainLiftOnly c s s1)
    (h2 : ChainLiftOnly c s1 s2) : ChainLiftOnly c s s2 := by
  obtain ⟨a1, a2, a3, a4, a5, a6⟩ := h1
  obtain ⟨b1, b2, b3, b4, b5, b6⟩ := h2
  exact ⟨fun a b => forall₂_chainLiftStep_trans (a1 a b) (b1 a b), b2.trans a2, b3.trans a3,
    b4.trans a4, b5.trans a5, b6.trans a6⟩

theorem chainLiftOnly_setTile (c : Bool) (s : GameState) (x y : Int) (k : Nat) :
    ChainLiftOnly c s (setTile s x y (modifyAt (s.tiles x y) k (setChainLift c))) := by
  refine ⟨?_, rfl, rfl, rfl, rfl, rfl⟩
  intro a b
  by_cases h : a = x ∧ b = y
  · obtain ⟨ha, hb⟩ := h
    subst ha hb
    rw [setTile_tiles_same]
    exact forall₂_chainLiftStep_modifyAt c _ k
  · simp only [setTile, h, if_false]
    exact forall₂_chainLiftStep_refl c _

theorem locateTrackPart_of_chainLiftOnly {c : Bool} {s s1 : GameState}
    (h : ChainLiftOnly c s s1) (originDirection : Nat) (originX originY originZ : Int)
    (rotation type : Nat) (trackBlock : rct_preview_track) :
    locateTrackPart s1 originDirection originX originY originZ rotation type trackBlock
      = locateTrackPart s originDirection originX originY originZ rotation type trackBlock := by
  unfold locateTrackPart
  exact findTrackPart_of_forall₂ _ _ _ _ (h.1 _ _)

/-- A sub-part that carries the chain-lift value `c` keeps it through further chain-lift
writes with the value `c`. -/
theorem trackSubPart_of_chainLiftOnly {c : Bool} {s s1 : GameState}
    (h : ChainLiftOnly c s s1) (originDirection : Nat) (originX originY originZ : Int)
    (rotation type : Nat) (trackBlock : rct_preview_track)
    (hs : ∃ e, trackSubPart s originDirection originX originY originZ rotation type trackBlock
      = some e ∧ track_element_is_lift_hill e = c) :
    ∃ e, trackSubPart s1 originDirection originX originY originZ rotation type trackBlock
      = some e ∧ track_element_is_lift_hill e = c := by
  obtain ⟨e, he, hl⟩ := hs
  unfold trackSubPart at he ⊢
  rw [locateTrackPart_of_chainLiftOnly h]
  cases hloc : locateTrackPart s originDirection originX originY originZ rotation type
      trackBlock with
  | error err => simp [hloc] at he
  | ok o =>
    cases o with
    | none => simp [hloc] at he
    | some k =>
      simp only [hloc] at he ⊢
      obtain ⟨e1, g1, g2⟩ := forall₂_chainLiftStep_getElem? (h.1 _ _) k e he
      exact ⟨e1, g1, chainLiftStep_isLiftHill g2 hl⟩

theorem money32_undefined_ne_zero2 : MONEY32_UNDEFINED ≠ (0 : Int) := by decide

/-- The loop of `tile_inspector_track_set_chain` over the template: when it returns, only
chain-lift writes have happened; on success every entry before the end mark has its sub-part
carrying the value `set_chain`; on failure the return value is the sentinel, the sub-part of
some entry is missing, and the entries before that one have their sub-parts carrying the
value `set_chain`. -/
theorem trackBlockLoop_setChainLift (c : Bool) (dir : Nat) (ox oy oz : Int) (rot ty : Nat) :
    ∀ (entries : List rct_preview_track) (s : GameState) (r : Int) (s1 : GameState),
    trackBlockLoop (setChainLift c) dir ox oy oz rot ty entries s = .ok (r, s1) →
    ChainLiftOnly c s s1 ∧
    (r = 0 → ∀ b ∈ entries.takeWhile (fun b => decide (b.index ≠ 255)),
      ∃ e, trackSubPart s1 dir ox oy oz rot ty b = some e ∧
        track_element_is_lift_hill e = c) ∧
    (r ≠ 0 → r = MONEY32_UNDEFINED ∧
      ∃ pre b post, entries = pre ++ b :: post ∧ (∀ b1 ∈ pre, b1.index ≠ 255) ∧
        b.index ≠ 255 ∧ locateTrackPart s1 dir ox oy oz rot ty b = .ok none ∧
        ∀ b1 ∈ pre, ∃ e, trackSubPart s1 dir ox oy oz rot ty b1 = some e ∧
          track_element_is_lift_hill e = c) := by
  intro entries
  induction entries with
  | nil =>
    intro s r s1 h
    simp [trackBlockLoop] at h
  | cons b rest ih =>
    intro s r s1 h
    unfold trackBlockLoop at h
    by_cases hend : b.index = 255
    · rw [if_pos hend] at h
      simp only [Except.ok.injEq, Prod.mk.injEq] at h
      obtain ⟨hr, hs⟩ := h
      subst hr hs
      refine ⟨chainLiftOnly_refl c s, ?_, fun h0 => absurd rfl h0⟩
      intro _ b1 hb1
      simp [List.takeWhile, hend] at hb1
    · rw [if_neg hend] at h
      simp only [] at h
      have hloc_def : locateTrackPart s dir ox oy oz rot ty b
          = findTrackPart (toSint16 (oz + b.z)) rot b.index ty
            (s.tiles ((trackElemPosition dir ox oy b).1 / 32)
              ((trackElemPosition dir ox oy b).2 / 32)) := rfl
      rw [← hloc_def] at h
      cases hloc : locateTrackPart s dir ox oy oz rot ty b with
      | error err => simp [hloc] at h
      | ok o =>
        cases o with
        | none =>
          simp only [hloc, Except.ok.injEq, Prod.mk.injEq] at h
          obtain ⟨hr, hs⟩ := h
          subst hr hs
          refine ⟨chainLiftOnly_refl c s, fun h0 => absurd h0 money32_undefined_ne_zero2,
            fun _ => ⟨rfl, [], b, rest, rfl, ?_, hend, hloc, ?_⟩⟩
          · intro b1 hb1; simp at hb1
          · intro b1 hb1; simp at hb1
        | some k =>
          simp only [hloc] at h
          cases hsurf : map_get_surface_element_at
              (s.tiles ((trackElemPosition dir ox oy b).1 / 32)
                ((trackElemPosition dir ox oy b).2 / 32)) with
          | none => simp [hsurf] at h
          | some j =>
            simp only [hsurf] at h
            obtain ⟨g1, g2, g3⟩ := ih _ r s1 h
            have hstep := chainLiftOnly_setTile c s ((trackElemPosition dir ox oy b).1 / 32)
              ((trackElemPosition dir ox oy b).2 / 32) k
            have hk : k < (s.tiles ((trackElemPosition dir ox oy b).1 / 32)
                ((trackElemPosition dir ox oy b).2 / 32)).length :=
              findTrackPart_lt _ _ _ _ _ k (hloc_def ▸ hloc)
            -- the sub-part of `b` carries the value after its own write
            have hb_mid : ∃ e, trackSubPart
                (setTile s ((trackElemPosition dir ox oy b).1 / 32)
                  ((trackElemPosition dir ox oy b).2 / 32)
                  (modifyAt (s.tiles ((trackElemPosition dir ox oy b).1 / 32)
                    ((trackElemPosition dir ox oy b).2 / 32)) k (setChainLift c)))
                dir ox oy oz rot ty b = some e ∧ track_element_is_lift_hill e = c := by
              unfold trackSubPart
              rw [locateTrackPart_of_chainLiftOnly hstep, hloc]
              simp only [setTile_tiles_same]
              rw [modifyAt_eq k hk]
              exact ⟨_, getElem?_set_self_of_some (List.getElem?_eq_getElem hk) _,
                isLiftHill_setChainLift c _⟩
            have hb_fin := trackSubPart_of_chainLiftOnly g1 dir ox oy oz rot ty b hb_mid
            refine ⟨chainLiftOnly_trans hstep g1, ?_, ?_⟩
            · intro h0 b1 hb1
              have htw : List.takeWhile (fun b => decide (b.index ≠ 255)) (b :: rest)
                  = b :: List.takeWhile (fun b => decide (b.index ≠ 255)) rest := by
                simp [List.takeWhile, hend]
              rw [htw] at hb1
              rcases List.mem_cons.1 hb1 with hb1 | hb1
              · subst hb1; exact hb_fin
              · exact g2 h0 b1 hb1
            · intro h0
              obtain ⟨hr, pre, b0, post, e1, e2, e3, e4, e5⟩ := g3 h0
              refine ⟨hr, b :: pre, b0, post, by rw [e1]; rfl, ?_, e3, e4, ?_⟩
              · intro b1 hb1
                rcases List.mem_cons.1 hb1 with hb1 | hb1
                · subst hb1; exact hend
                · exact e2 b1 hb1
              · intro b1 hb1
                rcases List.mem_cons.1 hb1 with hb1 | hb1
                · subst hb1; exact hb_fin
                · exact e5 b1 hb1

theorem chainLiftStep_type {c : Bool} {e e1 : rct_map_element} (h : chainLiftStep c e e1) :
    map_element_get_type e1 = map_element_get_type e := by
  rcases h with h | h
  · rw [h]
  · rw [h, setChainLift_type]

theorem wellFormedTile_of_forall₂ {c : Bool} : ∀ {t t1 : List rct_map_element},
    List.Forall₂ (chainLiftStep c) t t1 → wellFormedTile t1 = wellFormedTile t := by
  intro t t1 h
  induction h with
  | nil => rfl
  | cons hr hrest ih =>
    cases hrest with
    | nil => simp only [wellFormedTile, chainLiftStep_isLast hr]
    | cons hr2 hrest2 =>
      rw [wellFormedTile_cons_cons, wellFormedTile_cons_cons, chainLiftStep_isLast hr, ih]

theorem map_get_surface_element_at_of_forall₂ {c : Bool} : ∀ {t t1 : List rct_map_element},
    List.Forall₂ (chainLiftStep c) t t1 →
    map_get_surface_element_at t1 = map_get_surface_element_at t := by
  intro t t1 h
  induction h with
  | nil => rfl
  | cons hr _ ih =>
    simp only [map_get_surface_element_at, chainLiftStep_type hr, chainLiftStep_isLast hr, ih]

theorem findTrackPart_ok_of_wellFormed (elem_z : Int) (rotation index type : Nat) :
    ∀ t : List rct_map_element, wellFormedTile t = true →
    ∃ o, findTrackPart elem_z rotation index type t = .ok o := by
  intro t
  induction t with
  | nil => intro h; simp [wellFormedTile] at h
  | cons e rest ih =>
    intro hwf
    unfold findTrackPart
    split
    · exact ⟨_, rfl⟩
    · split
      · exact ⟨_, rfl⟩
      · next hl =>
        have hl2 : map_element_is_last_for_tile e = false := by simpa using hl
        obtain ⟨o, ho⟩ := ih (wellFormedTile_tail hwf hl2)
        rw [ho]
        cases o with
        | none => exact ⟨_, rfl⟩
        | some k => exact ⟨_, rfl⟩

/-- The loop of `tile_inspector_track_set_chain` returns when every tile is well-formed and
has a surface element and the template has its end mark. -/
theorem trackBlockLoop_setChainLift_returns (c : Bool) (dir : Nat) (ox oy oz : Int)
    (rot ty : Nat) : ∀ (entries : List rct_preview_track) (s : GameState),
    (∀ a b, wellFormedTile (s.tiles a b) = true) →
    (∀ a b, map_get_surface_element_at (s.tiles a b) ≠ none) →
    (∃ b ∈ entries, b.index = 255) →
    ∃ r s1, trackBlockLoop (setChainLift c) dir ox oy oz rot ty entries s = .ok (r, s1) := by
  intro entries
  induction entries with
  | nil => intro s _ _ h; simp at h
  | cons b rest ih =>
    intro s hwf hsurf hend
    unfold trackBlockLoop
    by_cases hb : b.index = 255
    · rw [if_pos hb]; exact ⟨_, _, rfl⟩
    · rw [if_neg hb]
      simp only []
      obtain ⟨o, ho⟩ := findTrackPart_ok_of_wellFormed (toSint16 (oz + b.z)) rot b.index ty _
        (hwf ((trackElemPosition dir ox oy b).1 / 32) ((trackElemPosition dir ox oy b).2 / 32))
      rw [ho]
      cases o with
      | none => exact ⟨_, _, rfl⟩
      | some k =>
        simp only []
        cases hs : map_get_surface_element_at
            (s.tiles ((trackElemPosition dir ox oy b).1 / 32)
              ((trackElemPosition dir ox oy b).2 / 32)) with
        | none => exact absurd hs (hsurf _ _)
        | some j =>
          simp only []
          have hstep := chainLiftOnly_setTile c s ((trackElemPosition dir ox oy b).1 / 32)
            ((trackElemPosition dir ox oy b).2 / 32) k
          apply ih
          · intro a b2
            rw [wellFormedTile_of_forall₂ (hstep.1 a b2)]
            exact hwf a b2
          · intro a b2
            rw [map_get_surface_element_at_of_forall₂ (hstep.1 a b2)]
            exact hsurf a b2
          · obtain ⟨b0, hb0, hb1⟩ := hend
            rcases List.mem_cons.1 hb0 with h | h
            · subst h; exact absurd hb1 hb
            · exact ⟨b0, h, hb1⟩

/-- C13, counterexample: on the sample state the committed call for the whole piece returns
the failure sentinel, the second sub-part being missing, although the chain-lift flag of the
first sub-part has been changed from clear to set. -/
theorem tile_inspector_track_set_chain_not_atomic :
    ∃ s1, tile_inspector_track_set_chain exampleTrackDef exampleTrackState 0 0 1 true true 1
        = .ok (MONEY32_UNDEFINED, s1) ∧
      (exampleTrackState.tiles 0 0)[1]?.map track_element_is_lift_hill = some false ∧
      (s1.tiles 0 0)[1]?.map track_element_is_lift_hill = some true :=
  ⟨_, rfl, rfl, rfl⟩

/-- C13, amended: for a Track element whose template entry exists, with every tile
well-formed and holding a surface element and the template having its end mark, a committed
`tile_inspector_track_set_chain` with `entire_track_block` set returns; only chain-lift
writes with the value `set_chain` have happened; either it returns success and the sub-part
of every template entry has its chain-lift flag equal to `set_chain`, or it returns the
failure sentinel, the sub-part of some entry is missing, and the sub-parts of the entries
before that one have their chain-lift flag equal to `set_chain`, without being rolled
back. -/
theorem tile_inspector_track_set_chain_whole_piece
    (get_track_def_from_ride : Nat → Nat → List rct_preview_track)
    (s : GameState) (x y : Int) (i : Nat) (set_chain : Bool) (flags : Nat)
    (track_element : rct_map_element) (trackBlock : rct_preview_track)
    (happly : flags &&& GAME_COMMAND_FLAG_APPLY ≠ 0)
    (he : (s.tiles x y)[i]? = some track_element)
    (htrack : map_element_get_type track_element = MAP_ELEMENT_TYPE_TRACK)
    (hblock : (get_track_def_from_ride track_element.properties3 track_element.properties0)[
      track_element.properties1 &&& 0x0F]? = some trackBlock)
    (hwf : ∀ a b, wellFormedTile (s.tiles a b) = true)
    (hsurf : ∀ a b, map_get_surface_element_at (s.tiles a b) ≠ none)
    (hend : ∃ b ∈ get_track_def_from_ride track_element.properties3 track_element.properties0,
      b.index = 255) :
    ∃ r s1, tile_inspector_track_set_chain get_track_def_from_ride s x y (i : Int) true
        set_chain flags = .ok (r, s1) ∧
      ChainLiftOnly set_chain s s1 ∧
      ((r = 0 ∧
        ∀ b ∈ (get_track_def_from_ride track_element.properties3
            track_element.properties0).takeWhile (fun b => decide (b.index ≠ 255)),
          ∃ e, trackSubPart s1 (map_element_get_direction track_element)
              (trackPieceOrigin x y track_element trackBlock).1
              (trackPieceOrigin x y track_element trackBlock).2.1
              (trackPieceOrigin x y track_element trackBlock).2.2
              (map_element_get_direction track_element) track_element.properties0 b = some e ∧
            track_element_is_lift_hill e = set_chain) ∨
       (r = MONEY32_UNDEFINED ∧
        ∃ pre b post,
          get_track_def_from_ride track_element.properties3 track_element.properties0
            = pre ++ b :: post ∧
          (∀ b1 ∈ pre, b1.index ≠ 255) ∧ b.index ≠ 255 ∧
          locateTrackPart s1 (map_element_get_direction track_element)
              (trackPieceOrigin x y track_element trackBlock).1
              (trackPieceOrigin x y track_element trackBlock).2.1
              (trackPieceOrigin x y track_element trackBlock).2.2
              (map_element_get_direction track_element) track_element.properties0 b
            = .ok none ∧
          ∀ b1 ∈ pre,
            ∃ e, trackSubPart s1 (map_element_get_direction track_element)
                (trackPieceOrigin x y track_element trackBlock).1
                (trackPieceOrigin x y track_element trackBlock).2.1
                (trackPieceOrigin x y track_element trackBlock).2.2
                (map_element_get_direction track_element) track_element.properties0 b1
                = some e ∧
              track_element_is_lift_hill e = set_chain)) := by
  have hneg : ¬ ((i : Int) < 0) := by omega
  have hcall : tile_inspector_track_set_chain get_track_def_from_ride s x y (i : Int) true
      set_chain flags =
      trackBlockLoop (setChainLift set_chain) (map_element_get_direction track_element)
        (trackPieceOrigin x y track_element trackBlock).1
        (trackPieceOrigin x y track_element trackBlock).2.1
        (trackPieceOrigin x y track_element trackBlock).2.2
        (map_element_get_direction track_element) track_element.properties0
        (get_track_def_from_ride track_element.properties3 track_element.properties0) s := by
    simp only [tile_inspector_track_set_chain, hneg, if_false, Int.toNat_ofNat, he, htrack,
      ne_eq, not_true_eq_false, happly, not_false_eq_true, if_true, Bool.not_true,
      Bool.false_eq_true, trackBlockRun, hblock]
  obtain ⟨r, s1, hrun⟩ := trackBlockLoop_setChainLift_returns set_chain
    (map_element_get_direction track_element)
    (trackPieceOrigin x y track_element trackBlock).1
    (trackPieceOrigin x y track_element trackBlock).2.1
    (trackPieceOrigin x y track_element trackBlock).2.2
    (map_element_get_direction track_element) track_element.properties0 _ s hwf hsurf hend
  obtain ⟨g1, g2, g3⟩ := trackBlockLoop_setChainLift set_chain _ _ _ _ _ _ _ s r s1 hrun
  refine ⟨r, s1, hcall.trans hrun, g1, ?_⟩
  by_cases hr : r = 0
  · exact Or.inl ⟨hr, g2 hr⟩
  · exact Or.inr (g3 hr)

theorem tile_inspector_track_set_chain_whole_piece_witness :
    (exampleTrackState.tiles 0 0)[1]?.map map_element_get_type = some MAP_ELEMENT_TYPE_TRACK ∧
    ∃ r s1, tile_inspector_track_set_chain exampleTrackDef exampleTrackState 0 0 1 true true 1
        = .ok (r, s1) ∧ ChainLiftOnly true exampleTrackState s1 :=
  ⟨rfl, by
    obtain ⟨r, s1, h1, h2, _⟩ := tile_inspector_track_set_chain_whole_piece exampleTrackDef
      exampleTrackState 0 0 1 true 1
      { type := 8, flags := 0x80, base_height := 2, clearance_height := 3,
        properties0 := 7, properties1 := 0, properties2 := 0, properties3 := 9 }
      { index := 0, x := 0, y := 0, z := 0 }
      (by decide) rfl (by decide) rfl
      (by intro a b; simp only [exampleTrackState]; split <;> rfl)
      (by intro a b; simp only [exampleTrackState]; split <;> simp [map_get_surface_element_at,
        map_element_get_type, MAP_ELEMENT_TYPE_SURFACE])
      ⟨{ index := 255, x := 0, y := 0, z := 0 }, by simp [exampleTrackDef], rfl⟩
    exact ⟨r, s1, h1, h2⟩⟩

/-! ### The direction field and the Banner position under one rotation -/

theorem testBit_direction_mask (k : Nat) :
    (MAP_ELEMENT_DIRECTION_MASK).testBit k = decide (k < 2) := by
  rw [show MAP_ELEMENT_DIRECTION_MASK = 2 ^ 2 - 1 by rfl, Nat.testBit_two_pow_sub_one]

theorem testBit_FC (k : Nat) : (0xFC : Nat).testBit k = (decide (2 ≤ k) && decide (k < 8)) := by
  by_cases h8 : k < 8
  · interval_cases k <;> rfl
  · have h : (0xFC : Nat).testBit k = false := by
      apply Nat.testBit_lt_two_pow
      calc (0xFC : Nat) < 2 ^ 8 := by decide
        _ ≤ 2 ^ k := Nat.pow_le_pow_right (by decide) (by omega)
    rw [h]
    simp [h8]

/-- The direction held by the rotated type byte is the old direction plus one, modulo 4. -/
theorem rotatedDirectionType_direction (ty : Nat) :
    rotatedDirectionType ty &&& MAP_ELEMENT_DIRECTION_MASK
      = ((ty &&& MAP_ELEMENT_DIRECTION_MASK) + 1) % 4 := by
  have h1 : rotatedDirectionType ty &&& MAP_ELEMENT_DIRECTION_MASK
      = (ty + 1) &&& MAP_ELEMENT_DIRECTION_MASK := by
    apply Nat.eq_of_testBit_eq
    intro k
    simp only [rotatedDirectionType, Nat.testBit_and, Nat.testBit_or, testBit_direction_mask,
      testBit_FC]
    by_cases h2 : k < 2
    · have h3 : ¬ (2 ≤ k) := by omega
      simp [h2, h3]
    · simp [h2]
  have h2 : ∀ n : Nat, n &&& MAP_ELEMENT_DIRECTION_MASK = n % 4 := by
    intro n
    rw [show MAP_ELEMENT_DIRECTION_MASK = 2 ^ 2 - 1 by rfl, Nat.and_pow_two_sub_one_eq_mod]
  rw [h1, h2, h2]
  omega

/-- The rotated type byte keeps its upper six bits. -/
theorem rotatedDirectionType_rest (ty : Nat) :
    rotatedDirectionType ty &&& 0xFC = ty &&& 0xFC := by
  apply Nat.eq_of_testBit_eq
  intro k
  simp only [rotatedDirectionType, Nat.testBit_and, Nat.testBit_or, testBit_direction_mask,
    testBit_FC]
  by_cases h2 : k < 2
  · have h3 : ¬ (2 ≤ k) := by omega
    simp [h3]
  · simp [h2]

theorem rotateElement_direction {e : rct_map_element}
    (hv : map_element_get_type e = MAP_ELEMENT_TYPE_TRACK ∨
      map_element_get_type e = MAP_ELEMENT_TYPE_SCENERY ∨
      map_element_get_type e = MAP_ELEMENT_TYPE_ENTRANCE ∨
      map_element_get_type e = MAP_ELEMENT_TYPE_FENCE) :
    rotateElement e = { e with type := rotatedDirectionType e.type } := by
  have hp : map_element_get_type e ≠ MAP_ELEMENT_TYPE_PATH := by
    rcases hv with h | h | h | h <;> rw [h] <;> decide
  unfold rotateElement
  rw [if_neg hp, if_pos hv]

theorem rotateElement_banner {e : rct_map_element}
    (hv : map_element_get_type e = MAP_ELEMENT_TYPE_BANNER) :
    rotateElement e = { e with
      properties1 := rotatedBannerPosition e.properties1
      properties2 := rotatedBannerFlags e.properties2 e.properties1 } := by
  have hp : map_element_get_type e ≠ MAP_ELEMENT_TYPE_PATH := by rw [hv]; decide
  have hd : ¬ (map_element_get_type e = MAP_ELEMENT_TYPE_TRACK ∨
      map_element_get_type e = MAP_ELEMENT_TYPE_SCENERY ∨
      map_element_get_type e = MAP_ELEMENT_TYPE_ENTRANCE ∨
      map_element_get_type e = MAP_ELEMENT_TYPE_FENCE) := by rw [hv]; decide
  unfold rotateElement
  rw [if_neg hp, if_neg hd, if_pos hv]

set_option maxRecDepth 100000 in
theorem rotatedBanner_once : ∀ f, f < 256 → ∀ p, p < 4 →
    rotatedBannerPosition p = (p + 1) % 4 ∧
    rotatedBannerFlags f p = f ^^^ (1 <<< p) ^^^ (1 <<< ((p + 1) % 4)) := by
  decide

/-- C21: a committed `tile_inspector_rotate_element_at` on a Track, Scenery, Entrance or
Fence element returns 0 and stores an element whose direction (the low two bits of the type
byte) is the old direction plus one modulo 4, whose other six type bits are the old ones and
whose every other field is the old one. -/
theorem tile_inspector_rotate_element_at_direction (s : GameState) (x y : Int) (i : Nat)
    (flags : Nat) (e : rct_map_element)
    (happly : flags &&& GAME_COMMAND_FLAG_APPLY ≠ 0)
    (he : (s.tiles x y)[i]? = some e)
    (hv : map_element_get_type e = MAP_ELEMENT_TYPE_TRACK ∨
      map_element_get_type e = MAP_ELEMENT_TYPE_SCENERY ∨
      map_element_get_type e = MAP_ELEMENT_TYPE_ENTRANCE ∨
      map_element_get_type e = MAP_ELEMENT_TYPE_FENCE) :
    ∃ (s1 : GameState) (e1 : rct_map_element),
      tile_inspector_rotate_element_at s x y (i : Int) flags = .ok (0, s1) ∧
      (s1.tiles x y)[i]? = some e1 ∧
      map_element_get_direction e1 = (map_element_get_direction e + 1) % 4 ∧
      e1.type &&& 0xFC = e.type &&& 0xFC ∧
      e1 = { e with type := e1.type } := by
  refine ⟨setTile s x y ((s.tiles x y).set i (rotateElement e)), rotateElement e,
    tile_inspector_rotate_element_at_spec s x y i flags e happly he, ?_, ?_, ?_, ?_⟩
  · rw [setTile_tiles_same]
    exact getElem?_set_self_of_some he _
  · rw [rotateElement_direction hv]
    exact rotatedDirectionType_direction e.type
  · rw [rotateElement_direction hv]
    exact rotatedDirectionType_rest e.type
  · rw [rotateElement_direction hv]

theorem tile_inspector_rotate_element_at_direction_witness :
    (exampleRotateState.tiles 0 0)[2]?.map map_element_get_type
      = some MAP_ELEMENT_TYPE_TRACK ∧
    ∃ (s1 : GameState) (e1 : rct_map_element),
      tile_inspector_rotate_element_at exampleRotateState 0 0 2 1 = .ok (0, s1) ∧
      (s1.tiles 0 0)[2]? = some e1 ∧
      map_element_get_direction e1 = 0 ∧ e1.type &&& 0xFC = 0x88 :=
  ⟨rfl,
    (tile_inspector_rotate_element_at_direction exampleRotateState 0 0 2 1
      { type := 0x8B, flags := 0, base_height := 12, clearance_height := 16,
        properties0 := 7, properties1 := 0, properties2 := 0, properties3 := 9 }
      (by decide) rfl (Or.inl (by decide))).imp
      (fun _ h => h.imp (fun _ h2 => ⟨h2.1, h2.2.1, h2.2.2.1, h2.2.2.2.1⟩))⟩

/-- C22: a committed `tile_inspector_rotate_element_at` on a Banner element with position
`p` in 0..3 and flags byte `f` returns 0 and stores an element whose position is
`(p + 1) mod 4` and whose flags byte is `f` with the bit of `p` and the bit of
`(p + 1) mod 4` toggled: a bit of the flags byte differs from that of `f` exactly at these
two places.  Every other field is the old one. -/
theorem tile_inspector_rotate_element_at_banner (s : GameState) (x y : Int) (i : Nat)
    (flags : Nat) (e : rct_map_element)
    (happly : flags &&& GAME_COMMAND_FLAG_APPLY ≠ 0)
    (he : (s.tiles x y)[i]? = some e)
    (hv : map_element_get_type e = MAP_ELEMENT_TYPE_BANNER)
    (hp : e.properties1 ≤ 3) (hf : e.properties2 < 256) :
    ∃ (s1 : GameState) (e1 : rct_map_element),
      tile_inspector_rotate_element_at s x y (i : Int) flags = .ok (0, s1) ∧
      (s1.tiles x y)[i]? = some e1 ∧
      e1.properties1 = (e.properties1 + 1) % 4 ∧
      e1.properties2
        = e.properties2 ^^^ (1 <<< e.properties1) ^^^ (1 <<< ((e.properties1 + 1) % 4)) ∧
      (∀ k, e1.properties2.testBit k
        = (e.properties2.testBit k ^^
            (decide (k = e.properties1) || decide (k = (e.properties1 + 1) % 4)))) ∧
      e1 = { e with properties1 := e1.properties1, properties2 := e1.properties2 } := by
  have hb := rotatedBanner_once e.properties2 hf e.properties1 (by omega)
  have hne : e.properties1 ≠ (e.properties1 + 1) % 4 := by omega
  refine ⟨setTile s x y ((s.tiles x y).set i (rotateElement e)), rotateElement e,
    tile_inspector_rotate_element_at_spec s x y i flags e happly he, ?_, ?_, ?_, ?_, ?_⟩
  · rw [setTile_tiles_same]
    exact getElem?_set_self_of_some he _
  · rw [rotateElement_banner hv]
    exact hb.1
  · rw [rotateElement_banner hv]
    exact hb.2
  · intro k
    rw [rotateElement_banner hv]
    show (rotatedBannerFlags e.properties2 e.properties1).testBit k = _
    rw [hb.2, Nat.testBit_xor, Nat.testBit_xor, Nat.one_shiftLeft, Nat.one_shiftLeft,
      Nat.testBit_two_pow, Nat.testBit_two_pow]
    by_cases h1 : k = e.properties1
    · subst h1
      simp [hne, Ne.symm hne]
    · by_cases h2 : k = (e.properties1 + 1) % 4
      · subst h2
        simp [hne, Ne.symm hne]
      · have h4 : ¬ (e.properties1 = k) := fun h => h1 h.symm
        have h5 : ¬ ((e.properties1 + 1) % 4 = k) := fun h => h2 h.symm
        simp [h1, h2, h4, h5]
  · rw [rotateElement_banner hv]

theorem tile_inspector_rotate_element_at_banner_witness :
    (exampleRotateState.tiles 0 0)[3]?.map map_element_get_type
      = some MAP_ELEMENT_TYPE_BANNER ∧
    ∃ (s1 : GameState) (e1 : rct_map_element),
      tile_inspector_rotate_element_at exampleRotateState 0 0 3 1 = .ok (0, s1) ∧
      (s1.tiles 0 0)[3]? = some e1 ∧
      e1.properties1 = 0 ∧ e1.properties2 = 0 :=
  ⟨rfl,
    (tile_inspector_rotate_element_at_banner exampleRotateState 0 0 3 1
      { type := 28, flags := 0x80, base_height := 20, clearance_height := 24,
        properties0 := 1, properties1 := 3, properties2 := 0x09, properties3 := 0 }
      (by decide) rfl (by decide) (by decide) (by decide)).imp
      (fun _ h => h.imp (fun _ h2 => ⟨h2.1, h2.2.1, h2.2.2.1, h2.2.2.2.1⟩))⟩

/-! ## Scenery quadrant and Fence slope -/

theorem toUint32_natCast (n : Nat) (h : n < 4294967296) : toUint32 (n : Int) = n := by
  unfold toUint32
  omega

theorem testBit_3F (k : Nat) : (0x3F : Nat).testBit k = decide (k < 6) := by
  rw [show (0x3F : Nat) = 2 ^ 6 - 1 by rfl, Nat.testBit_two_pow_sub_one]

theorem testBit_C0 (k : Nat) : (0xC0 : Nat).testBit k = (decide (6 ≤ k) && decide (k < 8)) := by
  by_cases h8 : k < 8
  · interval_cases k <;> rfl
  · have h : (0xC0 : Nat).testBit k = false := by
      apply Nat.testBit_lt_two_pow
      calc (0xC0 : Nat) < 2 ^ 8 := by decide
        _ ≤ 2 ^ k := Nat.pow_le_pow_right (by decide) (by omega)
    rw [h]
    simp [h8]

theorem testBit_mod_256 (v k : Nat) : (v % 256).testBit k = (decide (k < 8) && v.testBit k) := by
  rw [show (256 : Nat) = 2 ^ 8 by rfl, Nat.testBit_mod_two_pow]

set_option maxRecDepth 100000 in
theorem quadrant_type_byte : ∀ a, a < 64 → ∀ q, q < 4 →
    ((a ||| (q <<< 6)) % 256) >>> 6 = q ∧ ((a ||| (q <<< 6)) % 256) &&& 0x3F = a := by
  decide

set_option maxRecDepth 100000 in
theorem quadrant_flags_byte : ∀ b, b < 256 → ∀ q, q < 4 →
    (((b &&& 0xF0) ||| (1 <<< ((q + 2) &&& 3))) % 256) &&& 0x0F = 1 <<< ((q + 2) % 4) ∧
    (((b &&& 0xF0) ||| (1 <<< ((q + 2) &&& 3))) % 256) &&& 0xF0 = b &&& 0xF0 := by
  decide

theorem and_3F_lt (n : Nat) : n &&& 0x3F < 64 :=
  Nat.lt_of_le_of_lt Nat.and_le_right (by decide)

theorem and_F0_lt (n : Nat) : n &&& 0xF0 < 256 :=
  Nat.lt_of_le_of_lt Nat.and_le_right (by decide)

theorem and_F0_and_F0 (n : Nat) : (n &&& 0xF0) &&& 0xF0 = n &&& 0xF0 := by
  rw [Nat.and_assoc, Nat.and_self]

theorem tile_inspector_scenery_set_quarter_location_spec (s : GameState) (x y : Int)
    (i : Nat) (quarter_index : Int) (flags : Nat) (e : rct_map_element)
    (happly : flags &&& GAME_COMMAND_FLAG_APPLY ≠ 0)
    (he : (s.tiles x y)[i]? = some e)
    (hv : map_element_get_type e = MAP_ELEMENT_TYPE_SCENERY) :
    tile_inspector_scenery_set_quarter_location s x y (i : Int) quarter_index flags
      = .ok (0, setTile s x y ((s.tiles x y).set i
          { e with
            type := ((e.type &&& 0x3F) ||| (toUint32 quarter_index <<< 6)) % 256
            flags := ((e.flags &&& 0xF0) |||
              (1 <<< (toUint32 (quarter_index + 2) &&& 3))) % 256 })) := by
  have hneg : ¬ ((i : Int) < 0) := by omega
  simp only [tile_inspector_scenery_set_quarter_location, hneg, if_false, Int.toNat_ofNat, he,
    hv, ne_eq, not_true_eq_false, happly, not_false_eq_true, if_true]

theorem tile_inspector_fence_set_slope_spec (s : GameState) (x y : Int)
    (i : Nat) (slope_value : Int) (flags : Nat) (e : rct_map_element)
    (happly : flags &&& GAME_COMMAND_FLAG_APPLY ≠ 0)
    (he : (s.tiles x y)[i]? = some e)
    (hv : map_element_get_type e = MAP_ELEMENT_TYPE_FENCE) :
    tile_inspector_fence_set_slope s x y (i : Int) slope_value flags
      = .ok (0, setTile s x y ((s.tiles x y).set i
          { e with type := ((e.type &&& 0x3F) ||| toUint32 slope_value) % 256 })) := by
  have hneg : ¬ ((i : Int) < 0) := by omega
  simp only [tile_inspector_fence_set_slope, hneg, if_false, Int.toNat_ofNat, he,
    hv, ne_eq, not_true_eq_false, happly, not_false_eq_true, if_true]

/-- The slope bits of the type byte written by `tile_inspector_fence_set_slope` are those of
the value. -/
theorem fence_slope_bits (ty v : Nat) :
    (((ty &&& 0x3F) ||| v) % 256) &&& 0xC0 = v &&& 0xC0 := by
  apply Nat.eq_of_testBit_eq
  intro k
  simp only [Nat.testBit_and, Nat.testBit_or, testBit_mod_256, testBit_3F, testBit_C0]
  by_cases h6 : k < 6
  · have h : ¬ (6 ≤ k) := by omega
    simp [h]
  · by_cases h8 : k < 8
    · simp [h6, h8]
    · simp [h8]

/-- The lower six bits of the type byte written by `tile_inspector_fence_set_slope` are
those of the old byte joined with those of the value. -/
theorem fence_slope_rest (ty v : Nat) :
    (((ty &&& 0x3F) ||| v) % 256) &&& 0x3F = (ty ||| v) &&& 0x3F := by
  apply Nat.eq_of_testBit_eq
  intro k
  simp only [Nat.testBit_and, Nat.testBit_or, testBit_mod_256, testBit_3F]
  by_cases h6 : k < 6
  · have h : k < 8 := by omega
    simp [h6, h]
  · simp [h6]

theorem or_and_3F_of_and_eq_zero (ty v : Nat) (h : v &&& 0x3F = 0) :
    (ty ||| v) &&& 0x3F = ty &&& 0x3F := by
  apply Nat.eq_of_testBit_eq
  intro k
  have hk : (v &&& 0x3F).testBit k = false := by rw [h]; exact Nat.zero_testBit k
  rw [Nat.testBit_and, testBit_3F] at hk
  simp only [Nat.testBit_and, Nat.testBit_or, testBit_3F]
  by_cases h6 : k < 6
  · simp only [h6, decide_True, Bool.and_true] at hk ⊢
    rw [hk, Bool.or_false]
  · simp [h6]

/-- C23: a committed `tile_inspector_scenery_set_quarter_location` on a Scenery element with
`quarter_index` q in 0..3 returns 0 and stores an element whose type byte has q in bits 6-7
and the old bits 0-5, whose flags byte has the single bit `1 << ((q + 2) mod 4)` as its low
nibble and the old high nibble, and whose every other field is the old one. -/
theorem tile_inspector_scenery_set_quarter_location_bits (s : GameState) (x y : Int)
    (i : Nat) (q : Nat) (flags : Nat) (e : rct_map_element)
    (happly : flags &&& GAME_COMMAND_FLAG_APPLY ≠ 0)
    (he : (s.tiles x y)[i]? = some e)
    (hv : map_element_get_type e = MAP_ELEMENT_TYPE_SCENERY)
    (hq : q ≤ 3) :
    ∃ (s1 : GameState) (e1 : rct_map_element),
      tile_inspector_scenery_set_quarter_location s x y (i : Int) (q : Int) flags
        = .ok (0, s1) ∧
      (s1.tiles x y)[i]? = some e1 ∧
      e1.type >>> 6 = q ∧
      e1.type &&& 0x3F = e.type &&& 0x3F ∧
      e1.flags &&& 0x0F = 1 <<< ((q + 2) % 4) ∧
      e1.flags &&& 0xF0 = e.flags &&& 0xF0 ∧
      e1 = { e with type := e1.type, flags := e1.flags } := by
  have h1 : toUint32 (q : Int) = q := toUint32_natCast q (by omega)
  have h2 : toUint32 ((q : Int) + 2) = q + 2 := by
    have := toUint32_natCast (q + 2) (by omega)
    rwa [Nat.cast_add] at this
  have ht := quadrant_type_byte (e.type &&& 0x3F) (and_3F_lt _) q (by omega)
  have hf := quadrant_flags_byte (e.flags &&& 0xF0) (and_F0_lt _) q (by omega)
  rw [and_F0_and_F0] at hf
  refine ⟨_, { e with
      type := ((e.type &&& 0x3F) ||| (q <<< 6)) % 256
      flags := ((e.flags &&& 0xF0) ||| (1 <<< ((q + 2) &&& 3))) % 256 },
    tile_inspector_scenery_set_quarter_location_spec s x y i (q : Int) flags e happly he hv,
    ?_, ht.1, ht.2, hf.1, hf.2, rfl⟩
  rw [setTile_tiles_same, h1, h2]
  exact getElem?_set_self_of_some he _

theorem tile_inspector_scenery_set_quarter_location_bits_witness :
    (exampleFenceState.tiles 0 0)[1]?.map map_element_get_type
      = some MAP_ELEMENT_TYPE_SCENERY ∧
    ∃ (s1 : GameState) (e1 : rct_map_element),
      tile_inspector_scenery_set_quarter_location exampleFenceState 0 0 1 ((1 : Nat) : Int) 1
        = .ok (0, s1) ∧
      (s1.tiles 0 0)[1]? = some e1 ∧
      e1.type >>> 6 = 1 ∧ e1.type &&& 0x3F = 0x0D ∧
      e1.flags &&& 0x0F = 8 ∧ e1.flags &&& 0xF0 = 0x40 :=
  ⟨rfl,
    (tile_inspector_scenery_set_quarter_location_bits exampleFenceState 0 0 1 1 1
      { type := 0xCD, flags := 0x42, base_height := 10, clearance_height := 12,
        properties0 := 3, properties1 := 0, properties2 := 0, properties3 := 0 }
      (by decide) rfl (by decide) (by decide)).imp
      (fun _ h => h.imp (fun _ h2 =>
        ⟨h2.1, h2.2.1, h2.2.2.1, h2.2.2.2.1, h2.2.2.2.2.1, h2.2.2.2.2.2.1⟩))⟩

/-- C24, counterexample: on the sample Fence element (type byte 0x95, direction 1) a
committed `tile_inspector_fence_set_slope` with `slope_value = 2` returns 0 and stores the
type byte 0x17, so bits 0-5 have changed from 0x15 to 0x17 and the direction from 1 to
3. -/
theorem tile_inspector_fence_set_slope_low_bits :
    (exampleFenceState.tiles 0 0)[2]?.map map_element_get_type
      = some MAP_ELEMENT_TYPE_FENCE ∧
    (exampleFenceState.tiles 0 0)[2]?.map (fun e => e.type &&& 0x3F) = some 0x15 ∧
    ∃ (s1 : GameState) (e1 : rct_map_element),
      tile_inspector_fence_set_slope exampleFenceState 0 0 2 2 1 = .ok (0, s1) ∧
      (s1.tiles 0 0)[2]? = some e1 ∧
      e1.type = 0x17 ∧ e1.type &&& 0x3F = 0x17 ∧ map_element_get_direction e1 = 3 :=
  ⟨rfl, rfl, _, _, rfl, rfl, rfl, rfl, rfl⟩

/-- C24, amended: a committed `tile_inspector_fence_set_slope` on a Fence element returns 0
and stores an element whose type byte has the bits 6-7 of `slope_value`, whose bits 0-5 are
the old bits 0-5 joined (bitwise or) with bits 0-5 of `slope_value`, hence the old ones when
`slope_value` has no bit set below bit 6, and whose every other field is the old one. -/
theorem tile_inspector_fence_set_slope_bits (s : GameState) (x y : Int)
    (i : Nat) (slope_value : Int) (flags : Nat) (e : rct_map_element)
    (happly : flags &&& GAME_COMMAND_FLAG_APPLY ≠ 0)
    (he : (s.tiles x y)[i]? = some e)
    (hv : map_element_get_type e = MAP_ELEMENT_TYPE_FENCE) :
    ∃ (s1 : GameState) (e1 : rct_map_element),
      tile_inspector_fence_set_slope s x y (i : Int) slope_value flags = .ok (0, s1) ∧
      (s1.tiles x y)[i]? = some e1 ∧
      e1.type &&& 0xC0 = toUint32 slope_value &&& 0xC0 ∧
      e1.type &&& 0x3F = (e.type ||| toUint32 slope_value) &&& 0x3F ∧
      (toUint32 slope_value &&& 0x3F = 0 → e1.type &&& 0x3F = e.type &&& 0x3F) ∧
      e1 = { e with type := e1.type } := by
  refine ⟨_, { e with type := ((e.type &&& 0x3F) ||| toUint32 slope_value) % 256 },
    tile_inspector_fence_set_slope_spec s x y i slope_value flags e happly he hv,
    ?_, fence_slope_bits _ _, fence_slope_rest _ _, ?_, rfl⟩
  · rw [setTile_tiles_same]
    exact getElem?_set_self_of_some he _
  · intro h
    show (((e.type &&& 0x3F) ||| toUint32 slope_value) % 256) &&& 0x3F = _
    rw [fence_slope_rest, or_and_3F_of_and_eq_zero _ _ h]

theorem tile_inspector_fence_set_slope_bits_witness :
    (exampleFenceState.tiles 0 0)[2]?.map map_element_get_type
      = some MAP_ELEMENT_TYPE_FENCE ∧
    ∃ (s1 : GameState) (e1 : rct_map_element),
      tile_inspector_fence_set_slope exampleFenceState 0 0 2 0x40 1 = .ok (0, s1) ∧
      (s1.tiles 0 0)[2]? = some e1 ∧
      e1.type &&& 0xC0 = 0x40 ∧ e1.type &&& 0x3F = 0x15 :=
  ⟨rfl,
    (tile_inspector_fence_set_slope_bits exampleFenceState 0 0 2 0x40 1
      { type := 0x95, flags := 0x80, base_height := 10, clearance_height := 14,
        properties0 := 2, properties1 := 0, properties2 := 0, properties3 := 0 }
      (by decide) rfl (by decide)).imp
      (fun _ h => h.imp (fun _ h2 =>
        ⟨h2.1, h2.2.1, h2.2.2.1, h2.2.2.2.2.1 (by decide)⟩))⟩

/-! ## The assertions of map_swap_elements_at -/

/-- On a tile with a single element the first assertion of `map_swap_elements_at` fails,
whatever the indices. -/
theorem map_swap_elements_at_single {t : List rct_map_element}
    (hwf : wellFormedTile t = true) (h1 : t.length = 1) (first second : Int) :
    map_swap_elements_at t first second = .error .assertion := by
  match t, hwf, h1 with
  | [e0], hwf, _ =>
    have hl : map_element_is_last_for_tile e0 = true := hwf
    simp [map_swap_elements_at, hl]

theorem map_swap_elements_at_head_not_last {t : List rct_map_element}
    (hwf : wellFormedTile t = true) (h2 : 2 ≤ t.length) :
    ∃ e0 rest, t = e0 :: rest ∧ map_element_is_last_for_tile e0 = false := by
  match t, hwf, h2 with
  | e0 :: rest, hwf, h2 =>
    have h := wellFormedTile_isLast hwf 0 (by simp)
    have hl : (e0 :: rest).length = rest.length + 1 := rfl
    refine ⟨e0, rest, rfl, ?_⟩
    rw [show (e0 :: rest)[0] = e0 from rfl] at h
    rw [h]
    simp only [decide_eq_false_iff_not]
    omega

/-- On a tile with at least two and at most 32767 elements the second assertion of
`map_swap_elements_at` fails when a 16-bit index is at or above the element count. -/
theorem map_swap_elements_at_out_of_range {t : List rct_map_element}
    (hwf : wellFormedTile t = true) (h2 : 2 ≤ t.length) (hlen : t.length < 32768)
    (first second : Int)
    (hfirst : -32768 ≤ first ∧ first < 32768) (hsecond : -32768 ≤ second ∧ second < 32768)
    (h : (t.length : Int) ≤ first ∨ (t.length : Int) ≤ second) :
    map_swap_elements_at t first second = .error .assertion := by
  obtain ⟨e0, rest, rfl, hl⟩ := map_swap_elements_at_head_not_last hwf h2
  have hc : ¬ (((e0 :: rest).length : Int) > max first second) := by
    have := le_max_left first second
    have := le_max_right first second
    omega
  simp only [map_swap_elements_at, hl, Bool.false_eq_true, if_false,
    elementCount_of_wellFormed_small hwf hlen, toSint16_of_small hfirst.1 hfirst.2,
    toSint16_of_small hsecond.1 hsecond.2, hc, not_false_eq_true, if_true]

/-- On a tile with at least two and at most 32767 elements no assertion of
`map_swap_elements_at` fails when both 16-bit indices are below the element count, even when
one of them is negative: the elements are then read and written outside the tile. -/
theorem map_swap_elements_at_negative {t : List rct_map_element}
    (hwf : wellFormedTile t = true) (h2 : 2 ≤ t.length) (hlen : t.length < 32768)
    (first second : Int)
    (hfirst : -32768 ≤ first) (hsecond : -32768 ≤ second)
    (hf : first < (t.length : Int)) (hs : second < (t.length : Int))
    (h : first < 0 ∨ second < 0) :
    map_swap_elements_at t first second = .error .out_of_tile := by
  obtain ⟨e0, rest, rfl, hl⟩ := map_swap_elements_at_head_not_last hwf h2
  have hc : ((e0 :: rest).length : Int) > max first second := max_lt hf hs
  simp only [map_swap_elements_at, hl, Bool.false_eq_true, if_false,
    elementCount_of_wellFormed_small hwf hlen, toSint16_of_small hfirst (by omega),
    toSint16_of_small hsecond (by omega), hc, not_true_eq_false, h, if_true]

/-- C25: evaluation of `map_swap_elements_at` on the sample tile of three elements.  With
the indices -1 and 0, and with 0 and -1, no assertion fails although -1 is not a position of
the tile: the call goes on to the elements outside the tile.  An index equal to the element
count, and any call on a single-element tile, do fail an assertion, and valid indices do
not. -/
theorem map_swap_elements_at_negative_index_example :
    wellFormedTile exampleTile = true ∧ exampleTile.length = 3 ∧
    map_swap_elements_at exampleTile (-1) 0 = .error .out_of_tile ∧
    map_swap_elements_at exampleTile 0 (-1) = .error .out_of_tile ∧
    map_swap_elements_at exampleTile (-1) 0 ≠ .error .assertion ∧
    map_swap_elements_at exampleTile 0 3 = .error .assertion ∧
    map_swap_elements_at exampleTile 3 0 = .error .assertion ∧
    map_swap_elements_at [exampleElement 4 4 0x80] 0 0 = .error .assertion ∧
    (∃ t1, map_swap_elements_at exampleTile 0 1 = .ok t1) :=
  ⟨by decide, rfl, rfl, rfl,
    (by
      rw [show map_swap_elements_at exampleTile (-1) 0 = .error .out_of_tile from rfl]
      intro h
      cases h),
    rfl, rfl, rfl, ⟨_, rfl⟩⟩

/-! ## Selection after a paste -/

theorem toSint16_sub_add (v c : Int) (h1 : -32768 ≤ v) (h2 : v < 32768) :
    toSint16 (toSint16 (v - c) + c) = v := by
  unfold toSint16
  omega

theorem toSint16_add_sub (v c : Int) (h1 : -32768 ≤ v) (h2 : v < 32768) :
    toSint16 (toSint16 (v + c) - c) = v := by
  unfold toSint16
  omega

/-- The forward switch undoes the origin switch on 16-bit signed coordinates. -/
theorem trackElemPosition_trackOrigin (d : Nat) (X Y : Int) (b : rct_preview_track)
    (hd : d ≤ 3) (hX : -32768 ≤ X ∧ X < 32768) (hY : -32768 ≤ Y ∧ Y < 32768) :
    trackElemPosition d (trackOrigin d X Y b).1 (trackOrigin d X Y b).2 b = (X, Y) := by
  interval_cases d
  · simp [trackElemPosition, trackOrigin,
      toSint16_sub_add X b.x hX.1 hX.2, toSint16_sub_add Y b.y hY.1 hY.2]
  · simp [trackElemPosition, trackOrigin,
      toSint16_sub_add X b.y hX.1 hX.2, toSint16_add_sub Y b.x hY.1 hY.2]
  · simp [trackElemPosition, trackOrigin,
      toSint16_add_sub X b.x hX.1 hX.2, toSint16_add_sub Y b.y hY.1 hY.2]
  · simp [trackElemPosition, trackOrigin,
      toSint16_add_sub X b.y hX.1 hX.2, toSint16_sub_add Y b.x hY.1 hY.2]

/-- The round trip on the origin that the track operations compute from the tile of the
selected sub-part: the forward switch with the sub-part's own entry leads back to that tile
and height. -/
theorem trackPieceOrigin_round_trip (x y : Int) (track_element : rct_map_element)
    (b : rct_preview_track) :
    trackElemPosition (map_element_get_direction track_element)
        (trackPieceOrigin x y track_element b).1
        (trackPieceOrigin x y track_element b).2.1 b
      = (toSint16 (x * 32), toSint16 (y * 32)) ∧
    toSint16 ((trackPieceOrigin x y track_element b).2.2 + b.z)
      = toSint16 ((track_element.base_height : Int) * 8) := by
  have hd : map_element_get_direction track_element ≤ 3 := by
    unfold map_element_get_direction
    exact Nat.and_le_right
  have hr : ∀ v : Int, -32768 ≤ toSint16 v ∧ toSint16 v < 32768 := by
    intro v
    unfold toSint16
    omega
  exact ⟨trackElemPosition_trackOrigin _ _ _ b hd (hr _) (hr _),
    toSint16_sub_add _ b.z (hr _).1 (hr _).2⟩

/-! ## A height offset that fails part-way -/

/-- C28: on the sample state, whose template has two sub-parts of which the second is
missing from the map, the committed `tile_inspector_track_base_height_offset` with offset 1
returns the failure sentinel `MONEY32_UNDEFINED`, and the first sub-part has already had its
base height changed from 2 to 3 and its clearance height from 3 to 4. -/
theorem tile_inspector_track_base_height_offset_partial :
    ∃ s1, tile_inspector_track_base_height_offset exampleTrackDef exampleTrackState 0 0 1 1 1
        = .ok (MONEY32_UNDEFINED, s1) ∧
      (exampleTrackDef 9 7).map (fun b => b.index) = [0, 1, 255] ∧
      (exampleTrackState.tiles 0 0)[1]?.map (fun e => (e.base_height, e.clearance_height))
        = some (2, 3) ∧
      (s1.tiles 0 0)[1]?.map (fun e => (e.base_height, e.clearance_height))
        = some (3, 4) ∧
      locateTrackPart s1 0 0 0 16 0 7 { index := 1, x := -32, y := 0, z := 0 } = .ok none :=
  ⟨_, rfl, rfl, rfl, rfl, rfl⟩

/-! ## The sort only reorders -/

theorem foldl_orderedInsert_perm : ∀ (l acc : List rct_map_element),
    (l.foldl (fun acc x => List.orderedInsert heightGe x acc) acc).Perm (l ++ acc) := by
  intro l
  induction l with
  | nil => intro acc; exact List.Perm.refl _
  | cons x l ih =>
    intro acc
    simp only [List.foldl_cons, List.cons_append]
    exact (ih _).trans
      (((List.perm_orderedInsert heightGe x acc).append_left l).trans List.perm_middle)

theorem cast_succ_sub_one (n : Nat) : (((n + 1 : Nat) : Int) - 1) = (n : Int) := by
  push_cast
  omega

/-- The inner loop of the sort returns on a well-formed tile of at most 32767 elements, with
a well-formed tile of the same length. -/
theorem sortInnerLoop_ok : ∀ (n : Nat) (t : List rct_map_element),
    wellFormedTile t = true → t.length < 32768 → n < t.length →
    ∃ t1, sortInnerLoop t n = .ok t1 ∧ wellFormedTile t1 = true ∧ t1.length = t.length := by
  intro n
  induction n with
  | zero => intro t hwf _ _; exact ⟨t, rfl, hwf, rfl⟩
  | succ n ih =>
    intro t hwf hshort hn
    have hk : n < t.length := by omega
    obtain ⟨t1, h1, h2, h3, _⟩ :=
      map_swap_elements_at_spec hwf hshort n (n + 1) hk hn (by omega)
    rw [← cast_succ_sub_one n] at h1
    simp only [sortInnerLoop, List.getElem?_eq_getElem hk, List.getElem?_eq_getElem hn]
    by_cases hs : sortsAfter t[n] t[n + 1] = true
    · obtain ⟨t2, g1, g2, g3⟩ := ih t1 h3 (by omega) (by omega)
      refine ⟨t2, ?_, g2, by omega⟩
      simp only [hs, if_true, h1]
      exact g1
    · exact ⟨t, by simp [hs], hwf, rfl⟩

/-- Every call of `map_swap_elements_at` made by the inner loop of the sort on a well-formed
tile of at most 32767 elements is made on a well-formed tile of the same length, with two
neighbouring positions of that tile, and returns. -/
theorem sortInnerLoopCalls_valid : ∀ (n : Nat) (t : List rct_map_element),
    wellFormedTile t = true → t.length < 32768 → n < t.length →
    ∀ c ∈ sortInnerLoopCalls t n,
      wellFormedTile c.1 = true ∧ c.1.length = t.length ∧ c.2.2 = c.2.1 + 1 ∧ 0 ≤ c.2.1 ∧
      c.2.2 < (c.1.length : Int) ∧ ∃ u, map_swap_elements_at c.1 c.2.1 c.2.2 = .ok u := by
  intro n
  induction n with
  | zero => intro t _ _ _ c hc; simp [sortInnerLoopCalls] at hc
  | succ n ih =>
    intro t hwf hshort hn c hc
    have hk : n < t.length := by omega
    obtain ⟨t1, h1, h2, h3, _⟩ :=
      map_swap_elements_at_spec hwf hshort n (n + 1) hk hn (by omega)
    rw [← cast_succ_sub_one n] at h1
    simp only [sortInnerLoopCalls, List.getElem?_eq_getElem hk,
      List.getElem?_eq_getElem hn] at hc
    by_cases hs : sortsAfter t[n] t[n + 1] = true
    · simp only [hs, if_true, h1, List.mem_cons] at hc
      rcases hc with hc | hc
      · subst hc
        refine ⟨hwf, rfl, ?_, ?_, ?_, t1, h1⟩
        · simp
        · simp only [cast_succ_sub_one]; omega
        · simp only []; omega
      · obtain ⟨g1, g2, g3⟩ := ih t1 h3 (by omega) (by omega) c hc
        exact ⟨g1, by omega, g3⟩
    · simp [hs] at hc

/-- Every call of `map_swap_elements_at` made by the outer loop of the sort on a well-formed
tile of at most 32767 elements is made on a well-formed tile of the same length, with two
neighbouring positions of that tile, and returns. -/
theorem sortOuterLoopCalls_valid : ∀ (remaining loopStart : Nat) (t : List rct_map_element),
    wellFormedTile t = true → t.length < 32768 → loopStart + remaining ≤ t.length →
    ∀ c ∈ sortOuterLoopCalls loopStart remaining t,
      wellFormedTile c.1 = true ∧ c.1.length = t.length ∧ c.2.2 = c.2.1 + 1 ∧ 0 ≤ c.2.1 ∧
      c.2.2 < (c.1.length : Int) ∧ ∃ u, map_swap_elements_at c.1 c.2.1 c.2.2 = .ok u := by
  intro remaining
  induction remaining with
  | zero => intro loopStart t _ _ _ c hc; simp [sortOuterLoopCalls] at hc
  | succ remaining ih =>
    intro loopStart t hwf hshort hl c hc
    obtain ⟨t1, h1, h2, h3⟩ := sortInnerLoop_ok loopStart t hwf hshort (by omega)
    simp only [sortOuterLoopCalls, h1, List.mem_append] at hc
    rcases hc with hc | hc
    · exact sortInnerLoopCalls_valid loopStart t hwf hshort (by omega) c hc
    · obtain ⟨g1, g2, g3⟩ := ih (loopStart + 1) t1 h2 (by omega) (by omega) c hc
      exact ⟨g1, by omega, g3⟩

theorem sortRunCalls_valid {t : List rct_map_element} (hwf : wellFormedTile t = true)
    (hshort : t.length < 32768) :
    ∀ c ∈ sortRunCalls t,
      wellFormedTile c.1 = true ∧ c.1.length = t.length ∧ c.2.2 = c.2.1 + 1 ∧ 0 ≤ c.2.1 ∧
      c.2.2 < (c.1.length : Int) ∧ ∃ u, map_swap_elements_at c.1 c.2.1 c.2.2 = .ok u := by
  intro c hc
  have hpos : 0 < t.length := List.length_pos.2 (wellFormedTile_ne_nil hwf)
  have hcount : ((t.length : Int) - 1).toNat = t.length - 1 := by omega
  simp only [sortRunCalls, numElementLoop_of_wellFormed_small hwf hshort, hcount] at hc
  exact sortOuterLoopCalls_valid (t.length - 1) 1 t hwf hshort (by omega) c hc

theorem sortRun_single {t : List rct_map_element} (hwf : wellFormedTile t = true)
    (h1 : t.length = 1) : sortRun t = .ok t := by
  simp only [sortRun, numElementLoop_of_wellFormed_small hwf (by omega), h1]
  rfl

/-- C29, counterexample: on the well-formed tile of 32768 elements the committed
`tile_inspector_sort_elements_at` calls `map_swap_elements_at` with the neighbouring valid
positions 0 and 1, and that call fails the range assertion, the 16-bit `elementCount` having
wrapped; the sort does not return. -/
theorem tile_inspector_sort_elements_at_swap_assertion_fails :
    wellFormedTile (largeState.tiles 0 0) = true ∧ (largeState.tiles 0 0).length = 32768 ∧
    (largeState.tiles 0 0, (0 : Int), (1 : Int)) ∈ sortRunCalls (largeState.tiles 0 0) ∧
    map_swap_elements_at (largeState.tiles 0 0) 0 1 = .error .assertion ∧
    tile_inspector_sort_elements_at largeState 0 0 1 = .error .assertion := by
  refine ⟨largeTile_wellFormed, largeTile_length, ?_, map_swap_elements_at_largeTile 0 1,
    tile_inspector_sort_elements_at_largeState⟩
  have hwf := largeTile_wellFormed
  have hlen := largeTile_length
  show (largeTile, (0 : Int), (1 : Int)) ∈ sortRunCalls largeTile
  rw [largeTile_eq] at hwf hlen ⊢
  exact (sortRun_count_wrapped _ _ _ hwf hlen (by decide)).2

/-- C29, amended: a committed `tile_inspector_sort_elements_at` on a well-formed tile of at
most 32767 elements returns 0; the tile has as many elements as before, its contents
(terminal flag aside) are a permutation of the contents before, exactly its final element
carries the terminal flag, every call it makes to `map_swap_elements_at` is made with two
neighbouring positions `i`, `i + 1` of the tile (`0 ≤ i`, `i + 1` below the element count)
and returns without a failed assertion, and a tile of a single element is left as it
was. -/
theorem tile_inspector_sort_elements_at_only_reorders (s : GameState) (x y : Int)
    (flags : Nat)
    (hwf : wellFormedTile (s.tiles x y) = true) (hlen : (s.tiles x y).length ≤ 32767)
    (happly : flags &&& GAME_COMMAND_FLAG_APPLY ≠ 0) :
    ∃ s1, tile_inspector_sort_elements_at s x y flags = .ok (0, s1) ∧
      (s1.tiles x y).length = (s.tiles x y).length ∧
      ((s1.tiles x y).map withLastFlag).Perm ((s.tiles x y).map withLastFlag) ∧
      wellFormedTile (s1.tiles x y) = true ∧
      (∀ i (h : i < (s1.tiles x y).length),
        map_element_is_last_for_tile (s1.tiles x y)[i]
          = decide (i + 1 = (s1.tiles x y).length)) ∧
      (∀ c ∈ sortRunCalls (s.tiles x y),
        c.1.length = (s.tiles x y).length ∧ c.2.2 = c.2.1 + 1 ∧ 0 ≤ c.2.1 ∧
        c.2.2 < (c.1.length : Int) ∧ ∃ u, map_swap_elements_at c.1 c.2.1 c.2.2 = .ok u) ∧
      ((s.tiles x y).length = 1 → s1.tiles x y = s.tiles x y) := by
  have hshort : (s.tiles x y).length < 32768 := by omega
  obtain ⟨t1, h1, h2, h3⟩ := sortRun_spec hwf hshort
  have hperm : (t1.map withLastFlag).Perm ((s.tiles x y).map withLastFlag) := by
    rw [h3]
    have := foldl_orderedInsert_perm ((s.tiles x y).map withLastFlag) []
    rw [List.append_nil] at this
    exact (List.reverse_perm _).trans this
  have hcall : tile_inspector_sort_elements_at s x y flags
      = .ok (0, sortElementsWindow (setTile s x y t1) x y) := by
    simp only [tile_inspector_sort_elements_at, happly, ne_eq, not_false_eq_true, if_true, h1]
  have htile : (sortElementsWindow (setTile s x y t1) x y).tiles x y = t1 := by
    rw [sortElementsWindow_tiles, setTile_tiles_same]
  refine ⟨_, hcall, ?_, ?_, ?_, ?_, ?_, ?_⟩
  · rw [htile]
    have := hperm.length_eq
    simpa using this
  · rw [htile]; exact hperm
  · rw [htile]; exact h2
  · rw [htile]; exact fun i h => wellFormedTile_isLast h2 i h
  · intro c hc
    exact (sortRunCalls_valid hwf hshort c hc).2
  · intro hone
    rw [htile]
    have := sortRun_single hwf hone
    rw [h1] at this
    exact (Except.ok.inj this)

theorem tile_inspector_sort_elements_at_only_reorders_witness :
    wellFormedTile (exampleState.tiles 0 0) = true ∧
    sortRunCalls (exampleState.tiles 0 0) ≠ [] ∧
    ∃ s1, tile_inspector_sort_elements_at exampleState 0 0 1 = .ok (0, s1) ∧
      (s1.tiles 0 0).length = 3 ∧
      ((s1.tiles 0 0).map withLastFlag).Perm ((exampleState.tiles 0 0).map withLastFlag) ∧
      wellFormedTile (s1.tiles 0 0) = true :=
  ⟨by decide, by decide,
    (tile_inspector_sort_elements_at_only_reorders exampleState 0 0 1 (by decide)
      (by decide) (by decide)).imp (fun _ h => ⟨h.1, h.2.1, h.2.2.1, h.2.2.2.1⟩)⟩

end OpenRCT2
